import Mathlib

/-!
# XiaoZhi-Card: power and battery lifecycle controller

A shallow embedding of the charger driver (`components/charger_aw32001/aw32001.cpp`)
and of the board lifecycle code (`main/boards/xiaozhi-card/xiaozhi-card.cc`).

Modelling conventions.

* The platform (I2C bus, FreeRTOS, LVGL, ESP-IDF sleep API, audio collaborators) is a
  record `Platform`.  Every call the code makes into it is appended to `Platform.trace`
  in program order.  Diagnostic output (`ESP_LOGx`, `printf`) and the LVGL mutex
  (`lvgl_port_lock` / `lvgl_port_unlock`) are left out of the trace.
* Values the code obtains from hardware are taken from streams: the `n`-th read
  transaction on the charger bus returns `i2c_rx n`, the `n`-th gauge voltage sample is
  `bat_vol_src n`, the `n`-th light sleep ends with cause `wake_src n`.  A run of the
  deterministic code is fixed by these streams, so a statement quantified over all
  platforms covers every behaviour of the hardware.
* `uint8_t` values are naturals reduced modulo 256 where they are produced.
* `float` values are rationals.  `bat_vol_src n` stands for the value of the expression
  `guage_->getVolt(VOLT_MODE::VOLT) / 1000.0f`.  The comparisons of a voltage with a
  threshold are exact.  The arithmetic on `float` values (raw level, moving average) is
  embedded twice: exactly, and, in the definitions named `..._f32`, with every operation
  rounded as on the target (`float` is binary32, `double` is binary64).
* `int` values are integers.  Where the code computes on a value that its caller can
  choose (the boot backoff of `StartUp`), the result is reduced to 32 bits (`int32_cast`).
-/

/-! ## Platform -/

/-- Events of the board event queue (`enum class BoardEvent`). -/
inductive BoardEvent where
  | Shutdown
  | Sleep
  | WakeUp
  | SwitchNetWork
  | ClearWiFiConfig
  deriving DecidableEq

/-- LVGL screens of the display (`display.h`); `other` is any further object. -/
inductive Screen where
  | scr_startup_
  | scr_tip_
  | scr_main_
  | scr_setup_
  | scr_shutdown_
  | scr_sleep_
  | other (id : Nat)
  deriving DecidableEq

/-- Labels written by the lifecycle code. -/
inductive Label where
  | scr_tip_label_title_
  | scr_tip_label_
  | setup_label_battery_
  | setup_label_auto_sleep_
  deriving DecidableEq

/-- Wake-up causes of the ESP-IDF sleep API that the code distinguishes. -/
inductive esp_sleep_wakeup_cause_t where
  | ESP_SLEEP_WAKEUP_UNDEFINED
  | ESP_SLEEP_WAKEUP_EXT1
  | ESP_SLEEP_WAKEUP_TIMER
  | ESP_SLEEP_WAKEUP_GPIO
  deriving DecidableEq

/-- Network path selected in the dual-network base class. -/
inductive NetworkType where
  | WIFI
  | ML307
  deriving DecidableEq

/-- A text produced by `snprintf` / `lv_label_set_text_fmt`: the format string and its
arguments.  A plain string has no arguments. -/
structure Text where
  fmt : String
  args : List ℚ
  deriving DecidableEq

/-- One call into the platform, as recorded in the trace. -/
inductive Effect where
  | i2c_read (reg value : Nat)
  | i2c_write (reg value : Nat)
  | vTaskDelay (ms : Nat)
  | lv_label_set_text (label : Label) (text : Text)
  | lv_screen_load (scr : Screen)
  | lv_refr_now
  | lv_obj_invalidate
  | draw_bitmap_full (color : Nat)
  | gpio_reset_pin (pin : Nat)
  | gpio_set_direction_output (pin : Nat)
  | gpio_set_level (pin level : Nat)
  | led_strip_set_pixel (r g b : Nat)
  | led_strip_refresh
  | esp_task_wdt_add
  | esp_task_wdt_reset
  | esp_task_wdt_delete
  | esp_sleep_enable_timer_wakeup (us : Int)
  | esp_light_sleep_start
  | esp_deep_sleep_start
  | EnableWakeWordDetection (en : Bool)
  | codec_EnableInput (en : Bool)
  | codec_EnableOutput (en : Bool)
  | audio_service_Stop
  | audio_service_Start
  | power_save_timer_SetEnabled (en : Bool)
  | power_save_timer_WakeUp
  | xQueueSend (event : BoardEvent)
  | SwitchNetworkType
  | ResetWifiConfiguration
  deriving DecidableEq

/-- State of everything outside the board object. -/
structure Platform where
  /-- Byte delivered by the `n`-th read transaction on the charger bus. -/
  i2c_rx : Nat → Nat
  /-- Number of read transactions done so far. -/
  i2c_n : Nat
  /-- Value of `getVolt(VOLT) / 1000.0f` at the `n`-th voltage sample. -/
  bat_vol_src : Nat → ℚ
  /-- Number of voltage samples taken so far. -/
  bat_vol_n : Nat
  /-- Value of `getCurr(CURR_INSTANT)` at the `n`-th current sample. -/
  bat_cur_src : Nat → Int
  /-- Number of current samples taken so far. -/
  bat_cur_n : Nat
  /-- Cause that ends the `n`-th light sleep. -/
  wake_src : Nat → esp_sleep_wakeup_cause_t
  /-- Number of light sleeps done so far. -/
  wake_n : Nat
  /-- What `esp_sleep_get_wakeup_cause()` returns. -/
  wakeup_cause : esp_sleep_wakeup_cause_t
  /-- What `lv_screen_active()` returns. -/
  screen : Screen
  /-- What `audio_service.IsWakeWordRunning()` returns. -/
  wake_word_running : Bool
  /-- Whether `app.GetDeviceState()` is `kDeviceStateListening`. -/
  device_state_listening : Bool
  /-- What `guage_->detect()` returns. -/
  battery_detected : Bool
  /-- What `GetNetworkType()` returns. -/
  network_type : NetworkType
  /-- Calls made so far, oldest first. -/
  trace : List Effect

namespace Platform

/-- Append one call to the trace. -/
def emit (hw : Platform) (e : Effect) : Platform :=
  { hw with trace := hw.trace ++ [e] }

/-- The call `vTaskDelay(pdMS_TO_TICKS(ms))`. -/
def vTaskDelay (hw : Platform) (ms : Nat) : Platform :=
  hw.emit (Effect.vTaskDelay ms)

/-- The call `lv_label_set_text(label, text)`. -/
def lv_label_set_text (hw : Platform) (label : Label) (text : Text) : Platform :=
  hw.emit (Effect.lv_label_set_text label text)

/-- The call `lv_screen_load(scr)`: `scr` becomes the active screen. -/
def lv_screen_load (hw : Platform) (scr : Screen) : Platform :=
  { hw with screen := scr, trace := hw.trace ++ [Effect.lv_screen_load scr] }

/-- The call `guage_->getVolt(VOLT_MODE::VOLT) / 1000.0f`: the next voltage sample. -/
def getVolt (hw : Platform) : ℚ × Platform :=
  (hw.bat_vol_src hw.bat_vol_n, { hw with bat_vol_n := hw.bat_vol_n + 1 })

/-- The call `guage_->getCurr(CURR_MODE::CURR_INSTANT)`: the next current sample. -/
def getCurr (hw : Platform) : Int × Platform :=
  (hw.bat_cur_src hw.bat_cur_n, { hw with bat_cur_n := hw.bat_cur_n + 1 })

/-- The call `esp_light_sleep_start()`: returns when the next wake-up cause arrives. -/
def esp_light_sleep_start (hw : Platform) : Platform :=
  { hw with wakeup_cause := hw.wake_src hw.wake_n, wake_n := hw.wake_n + 1,
            trace := hw.trace ++ [Effect.esp_light_sleep_start] }

/-- The call `audio_service.EnableWakeWordDetection(en)`. -/
def EnableWakeWordDetection (hw : Platform) (en : Bool) : Platform :=
  { hw with wake_word_running := en, trace := hw.trace ++ [Effect.EnableWakeWordDetection en] }

end Platform

/-- Truncation to `uint8_t`. -/
def u8 (n : Nat) : Nat := n % 256

/-- The value of an `int` (32 bits, two's complement) that an arithmetic result `x` leaves:
`x` reduced modulo 2^32 into -2147483648 .. 2147483647.  Signed overflow, which the
language leaves undefined, is taken as the wrap-around of the machine instruction. -/
def int32_cast (x : Int) : Int := (x + 2147483648) % 4294967296 - 2147483648

/-- Conversion of a `long long` value to `uint64_t`: reduction modulo 2^64. -/
def uint64_cast (x : Int) : Int := x % 18446744073709551616

/-! ## Charger driver `Aw32001` -/

namespace Aw32001

/-- Method `Aw32001::WriteReg`: one write transaction of `{reg, value}`. -/
def WriteReg (hw : Platform) (reg value : Nat) : Platform :=
  hw.emit (Effect.i2c_write reg (u8 value))

/-- Method `Aw32001::ReadReg`: one read transaction; the byte comes from the bus. -/
def ReadReg (hw : Platform) (reg : Nat) : Nat × Platform :=
  let value := u8 (hw.i2c_rx hw.i2c_n)
  (value, { hw with i2c_n := hw.i2c_n + 1, trace := hw.trace ++ [Effect.i2c_read reg value] })

/-- Method `Aw32001::SetWatchdog`: the `switch` returns on any timeout other than 0, 40,
80, 160. -/
def SetWatchdog (hw : Platform) (timeout_s : Nat) (enable_discharge_watchdog : Nat) : Platform :=
  let bits : Option Nat :=
    if timeout_s = 0 then some 0b00
    else if timeout_s = 40 then some 0b01
    else if timeout_s = 80 then some 0b10
    else if timeout_s = 160 then some 0b11
    else none
  match bits with
  | none => hw
  | some bits =>
    let (reg, hw) := ReadReg hw 0x05
    let reg :=
      if enable_discharge_watchdog ≠ 0 then u8 (reg ||| (1 <<< 7))
      else u8 (reg &&& 0xFFFFFF7F)
    let reg := u8 (reg &&& 0xFFFFFF9F)
    let reg := u8 (reg ||| (bits <<< 5))
    WriteReg hw 0x05 reg

/-- Method `Aw32001::SetChargeCurrent`. -/
def SetChargeCurrent (hw : Platform) (current_ma : Nat) : Platform :=
  let current_ma := if current_ma > 456 then 456 else current_ma
  let (reg, hw) := ReadReg hw 0x02
  let reg := u8 ((reg &&& 0xC0) ||| ((current_ma / 8) &&& 0x3F))
  WriteReg hw 0x02 reg

/-- The poll loop of `SetShippingMode(false)`: `n` iterations are left; returns `val`. -/
def SetShippingMode_poll : Nat → Platform → Nat → Nat × Platform
  | 0, hw, val => (val, hw)
  | n + 1, hw, _ =>
    let (val, hw) := ReadReg hw 0x06
    if val = 0x40 then (val, hw)
    else SetShippingMode_poll n (hw.vTaskDelay 100) val

/-- Method `Aw32001::SetShippingMode`. -/
def SetShippingMode (hw : Platform) (en : Bool) : Platform :=
  let (val, hw) := ReadReg hw 0x0C
  let val := u8 (val &&& 0x0B)
  let hw := WriteReg hw 0x0C val
  let (val, hw) := ReadReg hw 0x06
  let (val, hw) :=
    if en then (u8 (val ||| (1 <<< 5)), hw)
    else SetShippingMode_poll 10 hw (u8 (val &&& 0xFFFFFFDF))
  WriteReg hw 0x06 val

/-- Method `Aw32001::GetChargeState`: bits 4:3 of register 0x08. -/
def GetChargeState (hw : Platform) : Nat × Platform :=
  let (reg, hw) := ReadReg hw 0x08
  ((reg >>> 3) &&& 0x03, hw)

end Aw32001

/-! ## Battery level filter -/

/-- The class `MovingAverageFilter`; `buffer_` is the heap array of `size_` floats. -/
structure MovingAverageFilter where
  size_ : Nat
  buffer_ : List ℚ
  index_ : Nat
  count_ : Nat
  sum_ : ℚ
  first_init_ : Bool

namespace MovingAverageFilter

/-- The constructor `MovingAverageFilter(size)`: a zeroed buffer. -/
def new (size : Nat) : MovingAverageFilter :=
  { size_ := size, buffer_ := List.replicate size 0, index_ := 0, count_ := 0, sum_ := 0,
    first_init_ := true }

/-- Method `MovingAverageFilter::update`, in exact arithmetic (`update_f32` below is the same
method in the `float` arithmetic of the target). -/
def update (f : MovingAverageFilter) (value : ℚ) : ℚ × MovingAverageFilter :=
  if f.first_init_ then
    (value,
      { f with
        buffer_ := (List.range f.size_).foldl (fun buf i => buf.set i value) f.buffer_,
        sum_ := value * f.size_, count_ := f.size_, index_ := 0, first_init_ := false })
  else
    let sum_ := f.sum_ - f.buffer_.getD f.index_ 0
    let buffer_ := f.buffer_.set f.index_ value
    let sum_ := sum_ + value
    let index_ := (f.index_ + 1) % f.size_
    let count_ := if f.count_ < f.size_ then f.count_ + 1 else f.count_
    (sum_ / count_,
      { f with buffer_ := buffer_, sum_ := sum_, index_ := index_, count_ := count_ })

end MovingAverageFilter

/-! ## Board -/

/-- Modelled from the spec: the power-save timer collaborator (`power_save_timer.h` is not
among the sources).  The core calls `SetEnabled(bool)` and reads `GetState() -> bool`;
the state read is taken to be the flag last set. -/
structure PowerSaveTimer where
  enabled_ : Bool

/-- Threshold `BAT_VOL_EMPTY` of `config.h`.  The C constant is the `double` nearest to
3.4; no `float` value lies between the two, so for a `float` operand `x` the test
`x <= BAT_VOL_EMPTY` holds exactly when `x ≤ 3.4`. -/
def BAT_VOL_EMPTY : ℚ := 3.4

/-- Threshold `BAT_VOL_FULL` of `config.h`.  As for `BAT_VOL_EMPTY`, no `float` value lies
between the `double` nearest to 4.2 and 4.2. -/
def BAT_VOL_FULL : ℚ := 4.2

/-- Pin `ML307R_PIN_PWR` of `config.h` (`GPIO_NUM_39`). -/
def ML307R_PIN_PWR : Nat := 39

/-- The board object `XiaozhiCardBoard`: the members the lifecycle code uses, the
function-local statics of `GetBatteryLevel`, the RTC-retained global, and the platform. -/
structure Board where
  hw : Platform
  /-- Whether `panel_` is non-null. -/
  panel_ : Bool
  /-- Whether `led_strip_` is non-null. -/
  led_strip_ : Bool
  power_save_timer_ : Option PowerSaveTimer
  power_save_timer_user_set_ : Bool
  /-- The FreeRTOS queue behind `event_queue_` (capacity 8), oldest event first. -/
  event_queue_ : Option (List BoardEvent)
  modem_powered_on_ : Bool
  /-- The `static uint8_t countdown` of `GetBatteryLevel`. -/
  countdown : Nat
  /-- The `static char text_tip[64]` of `GetBatteryLevel`. -/
  text_tip : Text
  /-- The `static float bat_vol` of `GetBatteryLevel`. -/
  bat_vol : ℚ
  /-- The `static lv_obj_t *scr` of `GetBatteryLevel`. -/
  scr : Option Screen
  /-- The `static bool last_charging` of `GetBatteryLevel`. -/
  last_charging : Bool
  /-- The `static MovingAverageFilter bat_filter` of `GetBatteryLevel`. -/
  bat_filter : MovingAverageFilter
  /-- The `static int last_level` of `GetBatteryLevel`. -/
  last_level : Int
  /-- The file-scope `RTC_DATA_ATTR int sleep_retry_count`, kept across deep sleep. -/
  sleep_retry_count : Int

namespace Board

/-- Append one platform call to the trace. -/
def emit (b : Board) (e : Effect) : Board :=
  { b with hw := b.hw.emit e }

/-- The call `vTaskDelay(pdMS_TO_TICKS(ms))`. -/
def vTaskDelay (b : Board) (ms : Nat) : Board :=
  { b with hw := b.hw.vTaskDelay ms }

/-- The call `lv_label_set_text(label, text)`. -/
def lv_label_set_text (b : Board) (label : Label) (text : Text) : Board :=
  { b with hw := b.hw.lv_label_set_text label text }

/-- The call `lv_screen_load(scr)`. -/
def lv_screen_load (b : Board) (scr : Screen) : Board :=
  { b with hw := b.hw.lv_screen_load scr }

end Board

/-- The value of `static_cast<int>(x)`: truncation towards zero. -/
def static_cast_int (x : ℚ) : Int :=
  if 0 ≤ x then ⌊x⌋ else ⌈x⌉

namespace XiaozhiCardBoard

/-- Method `XiaozhiCardBoard::ClearDisplay`: a full-panel draw of one colour (the one-time
buffer allocation is taken to succeed). -/
def ClearDisplay (b : Board) (color : Nat) : Board :=
  if !b.panel_ then b
  else b.emit (Effect.draw_bitmap_full color)

/-- Method `XiaozhiCardBoard::SetIndicator`. -/
def SetIndicator (b : Board) (r g bl : Nat) : Board :=
  if b.led_strip_ then
    (b.emit (Effect.led_strip_set_pixel r g bl)).emit Effect.led_strip_refresh
  else b

/-- Method `XiaozhiCardBoard::SetPowerSaveMode`. -/
def SetPowerSaveMode (b : Board) (en : Bool) : Board :=
  match b.power_save_timer_ with
  | none => b
  | some _ =>
    { b.emit (Effect.power_save_timer_SetEnabled en) with
      power_save_timer_ := some { enabled_ := en } }

/-- Method `XiaozhiCardBoard::GetPowerSaveMode`. -/
def GetPowerSaveMode (b : Board) : Bool :=
  match b.power_save_timer_ with
  | none => false
  | some t => t.enabled_

/-- Method `XiaozhiCardBoard::PostEvent`: `xQueueSend` with zero wait on a queue of
capacity 8; nothing is sent when the queue was never created. -/
def PostEvent (b : Board) (event : BoardEvent) : Board :=
  match b.event_queue_ with
  | none => b
  | some q =>
    let b := b.emit (Effect.xQueueSend event)
    if q.length < 8 then { b with event_queue_ := some (q ++ [event]) } else b

/-- Method `XiaozhiCardBoard::PowerOnModem`. -/
def PowerOnModem (b : Board) : Board :=
  let pwr_pin := ML307R_PIN_PWR
  let b := b.emit (Effect.gpio_reset_pin pwr_pin)
  let b := b.emit (Effect.gpio_set_direction_output pwr_pin)
  let b := b.emit (Effect.gpio_set_level pwr_pin 0)
  let b := b.vTaskDelay 100
  let b := b.emit (Effect.gpio_set_level pwr_pin 1)
  let b := b.vTaskDelay 2500
  b.emit (Effect.gpio_set_level pwr_pin 0)

/-- Method `XiaozhiCardBoard::PowerOffModem`. -/
def PowerOffModem (b : Board) : Board :=
  let pwr_pin := ML307R_PIN_PWR
  let b := b.emit (Effect.gpio_reset_pin pwr_pin)
  let b := b.emit (Effect.gpio_set_direction_output pwr_pin)
  let b := b.emit (Effect.gpio_set_level pwr_pin 0)
  let b := b.vTaskDelay 100
  let b := b.emit (Effect.gpio_set_level pwr_pin 1)
  let b := b.vTaskDelay 3750
  b.emit (Effect.gpio_set_level pwr_pin 0)

/-- The loop `while (i++ < 10)` of `Shutdown` on the Wi-Fi path; `n` iterations are left. -/
def Shutdown_wait_modem : Nat → Board → Board
  | 0, b => b
  | n + 1, b =>
    if b.modem_powered_on_ then b
    else Shutdown_wait_modem n (b.vTaskDelay 300)

/-- Method `XiaozhiCardBoard::Shutdown`. -/
def Shutdown (b : Board) : Board :=
  let (state, hw) := Aw32001.GetChargeState b.hw
  let b := { b with hw := hw }
  if state ≠ 0 then
    let scr := b.hw.screen
    let b := b.lv_label_set_text Label.scr_tip_label_title_ ⟨"充电中不能关机", []⟩
    let b := b.lv_label_set_text Label.scr_tip_label_ ⟨"", []⟩
    let b := b.lv_screen_load Screen.scr_tip_
    let b := b.emit Effect.lv_refr_now
    let b := b.vTaskDelay 1000
    b.lv_screen_load scr
  else
    let b := ClearDisplay b 0x00
    let b := b.lv_screen_load Screen.scr_shutdown_
    let b := b.emit Effect.lv_refr_now
    let b := b.emit Effect.esp_task_wdt_delete
    let network_type := b.hw.network_type
    let b :=
      match network_type with
      | NetworkType.ML307 => PowerOffModem b
      | NetworkType.WIFI => Shutdown_wait_modem 10 b
    let b := { b with hw := Aw32001.SetShippingMode b.hw true }
    b.vTaskDelay 3000

/-- Number of samples per timer wake-up (`SAMPLE_COUNT` in `Sleep`). -/
def SAMPLE_COUNT : Nat := 5

/-- One iteration of the sampling loop of `Sleep`; the charger is read only when the
voltage test succeeds (`&&`). -/
def Sleep_sample (b : Board) (low_count : Nat) : Board × Nat :=
  let (bat_vol, hw) := b.hw.getVolt
  let b := { b with hw := hw }
  let (b, low_count) :=
    if bat_vol ≤ BAT_VOL_EMPTY then
      let (state, hw) := Aw32001.GetChargeState b.hw
      let b := { b with hw := hw }
      if state = 0 then (b, low_count + 1) else (b, low_count)
    else (b, low_count)
  (b.vTaskDelay 20, low_count)

/-- The loop `for (i = 0; i < SAMPLE_COUNT; ++i)` of `Sleep`; `n` iterations are left. -/
def Sleep_samples : Nat → Board → Nat → Board × Nat
  | 0, b, low_count => (b, low_count)
  | n + 1, b, low_count =>
    let (b, low_count) := Sleep_sample b low_count
    Sleep_samples n b low_count

/-- The head of the loop body of `Sleep`: feed the task watchdog, arm the 5-minute timer,
light-sleep until the next wake-up. -/
def Sleep_light_sleep (b : Board) : Board :=
  let b := b.emit Effect.esp_task_wdt_reset
  let b := b.emit (Effect.esp_sleep_enable_timer_wakeup (5 * 60 * 1000000))
  { b with hw := b.hw.esp_light_sleep_start }

/-- The loop `while (1)` of `Sleep`.  `fuel` bounds the number of light sleeps; `none`
means the board is still in the loop when the bound is reached.  The flag of the result
tells whether the loop was left by `Shutdown(); return;` (true) or by `break` (false). -/
def Sleep_wait : Nat → Board → Option (Board × Bool)
  | 0, _ => none
  | fuel + 1, b =>
    let b := Sleep_light_sleep b
    let wakeup_reason := b.hw.wakeup_cause
    if wakeup_reason = esp_sleep_wakeup_cause_t.ESP_SLEEP_WAKEUP_TIMER then
      let (b, low_count) := Sleep_samples SAMPLE_COUNT b 0
      if low_count ≥ SAMPLE_COUNT then some (Shutdown b, true)
      else Sleep_wait fuel b
    else some (b, false)

/-- The part of `Sleep` after the loop, reached by `break`. -/
def Sleep_resume (b : Board) (scr : Screen) (is_wake_word_running_ : Bool) : Board :=
  let b := b.lv_screen_load scr
  let b := b.emit (Effect.codec_EnableInput true)
  let b := b.emit (Effect.codec_EnableOutput true)
  let b := b.emit Effect.audio_service_Start
  let b :=
    if is_wake_word_running_ then { b with hw := b.hw.EnableWakeWordDetection true } else b
  match b.power_save_timer_ with
  | some _ => b.emit Effect.power_save_timer_WakeUp
  | none => b

/-- The part of `Sleep` before the loop; returns the saved screen and wake-word flag.
`GetAudioCodec()` returns the address of a static object, so the test `if (codec)` always
succeeds, here and after the loop. -/
def Sleep_enter (b : Board) : Board × Screen × Bool :=
  let is_wake_word_running_ := b.hw.wake_word_running
  let b :=
    if is_wake_word_running_ then
      ({ b with hw := b.hw.EnableWakeWordDetection false } : Board).vTaskDelay 100
    else b
  let b := b.emit (Effect.codec_EnableInput false)
  let b := b.emit (Effect.codec_EnableOutput false)
  let b := b.emit Effect.audio_service_Stop
  let scr := b.hw.screen
  let b := b.lv_screen_load Screen.scr_sleep_
  let b := b.emit Effect.lv_refr_now
  let b := b.vTaskDelay 100
  (b, scr, is_wake_word_running_)

/-- Method `XiaozhiCardBoard::Sleep`; `none` means the wait loop has not ended within
`fuel` light sleeps. -/
def Sleep (fuel : Nat) (b : Board) : Option Board :=
  let (b, scr, is_wake_word_running_) := Sleep_enter b
  match Sleep_wait fuel b with
  | none => none
  | some (b, true) => some b
  | some (b, false) => some (Sleep_resume b scr is_wake_word_running_)

/-- Method `XiaozhiCardBoard::WakeUp`. -/
def WakeUp (b : Board) : Board := b

/-- Method `XiaozhiCardBoard::HandleBoardEvent`. -/
def HandleBoardEvent (fuel : Nat) (b : Board) (event : BoardEvent) : Option Board :=
  match event with
  | BoardEvent.Shutdown => some (Shutdown b)
  | BoardEvent.Sleep => Sleep fuel b
  | BoardEvent.WakeUp => some (WakeUp b)
  | BoardEvent.SwitchNetWork => some (b.emit Effect.SwitchNetworkType)
  | BoardEvent.ClearWiFiConfig =>
    if b.hw.network_type = NetworkType.WIFI then some (b.emit Effect.ResetWifiConfiguration)
    else some b

/-- The loop `while (1)` of `BoardEventTask`, run for `n` iterations: reset the task
watchdog, then take the oldest event off the queue, if there is one, and dispatch it.
`fuel` bounds the light sleeps of a dispatched `Sleep`. -/
def BoardEventTask_loop : Nat → Nat → Board → Option Board
  | 0, _, b => some b
  | n + 1, fuel, b =>
    let b := b.emit Effect.esp_task_wdt_reset
    match b.event_queue_ with
    | some (event :: rest) =>
      match HandleBoardEvent fuel { b with event_queue_ := some rest } event with
      | none => none
      | some b => BoardEventTask_loop n fuel b
    | _ => BoardEventTask_loop n fuel b

/-- Method `XiaozhiCardBoard::BoardEventTask`, cut after `n` iterations of its loop. -/
def BoardEventTask (n fuel : Nat) (b : Board) : Option Board :=
  BoardEventTask_loop n fuel (b.emit Effect.esp_task_wdt_add)

/-- The last part of `GetBatteryLevel` (from `if (charging)` on): the low-battery
countdown. -/
def GetBatteryLevel_countdown (b : Board) (charging : Bool) : Board :=
  if charging then
    let b := if !b.hw.device_state_listening then SetIndicator b 0 0 50 else b
    let b :=
      if b.countdown < 10 then
        match b.scr with
        | some scr => b.lv_screen_load scr
        | none => b
      else b
    { b with countdown := 10 }
  else
    if b.bat_vol ≤ BAT_VOL_EMPTY then
      let b :=
        if b.countdown < 10 then
          let b := { b with text_tip := ⟨"电量低 %d 秒后将关机", [(b.countdown : ℚ)]⟩ }
          let b := b.lv_label_set_text Label.scr_tip_label_title_ ⟨"电量低，请充电！", []⟩
          let b := b.lv_label_set_text Label.scr_tip_label_ b.text_tip
          if b.countdown = 5 then
            let b := { b with scr := some b.hw.screen }
            let b := b.lv_label_set_text Label.scr_tip_label_title_ ⟨"电量低，请充电！", []⟩
            let b := b.lv_label_set_text Label.scr_tip_label_ b.text_tip
            b.lv_screen_load Screen.scr_tip_
          else b
        else b
      let b := { b with countdown := u8 (b.countdown + 255) }
      if b.countdown ≤ 0 then PostEvent b BoardEvent.Shutdown else b
    else b

/-- The part of `GetBatteryLevel` that keeps the power-save mode in step with the charge
state. -/
def GetBatteryLevel_power_save (b : Board) (charging : Bool) : Board :=
  if !b.power_save_timer_user_set_ && b.power_save_timer_.isSome then
    if b.last_charging ≠ charging then
      let b := { b with last_charging := charging }
      let b := SetPowerSaveMode b (!charging)
      if GetPowerSaveMode b then
        b.lv_label_set_text Label.setup_label_auto_sleep_ ⟨"关闭自动休眠", []⟩
      else
        b.lv_label_set_text Label.setup_label_auto_sleep_ ⟨"开启自动休眠", []⟩
    else b
  else b

/-- The value that `GetBatteryLevel` gives `raw_level` for the voltage `bat_vol`
(the `if (bat_vol >= BAT_VOL_FULL) ... else ...` after the voltage read), in exact
arithmetic (`GetBatteryLevel_raw_level_f32` below is the same code in the arithmetic of
the target). -/
def GetBatteryLevel_raw_level (bat_vol : ℚ) : ℚ :=
  if bat_vol ≥ BAT_VOL_FULL then 100
  else
    let raw_level := (bat_vol - BAT_VOL_EMPTY) / (BAT_VOL_FULL - BAT_VOL_EMPTY) * 100
    if raw_level < 0 then 0 else raw_level

/-- The first part of `GetBatteryLevel`: voltage sample, raw level, filter, level label.
Returns the board and `level`. -/
def GetBatteryLevel_level (b : Board) : Board × Int :=
  let (bat_vol, hw) := b.hw.getVolt
  let b := { b with hw := hw, bat_vol := bat_vol }
  let raw_level : ℚ := GetBatteryLevel_raw_level b.bat_vol
  let (filtered_level, bat_filter) := b.bat_filter.update raw_level
  let b := { b with bat_filter := bat_filter }
  let level := static_cast_int (filtered_level + 0.5)
  let b :=
    if b.last_level ≠ level then
      ({ b with last_level := level } : Board).lv_label_set_text Label.setup_label_battery_
        ⟨"%d", [(level : ℚ)]⟩
    else b
  (b, level)

/-- Method `XiaozhiCardBoard::GetBatteryLevel`; the result carries the out-parameters `level`,
`charging`, `discharging` (the function itself always returns `true`). -/
def GetBatteryLevel (b : Board) : Board × Int × Bool × Bool :=
  let (b, level) := GetBatteryLevel_level b
  let (state, hw) := Aw32001.GetChargeState b.hw
  let b := { b with hw := hw }
  let charging : Bool := decide (state ≠ 0)
  let discharging := !charging
  let b := GetBatteryLevel_power_save b charging
  let b := GetBatteryLevel_countdown b charging
  (b, level, charging, discharging)

/-- Local variables of the low-voltage loop of `StartUp`. -/
structure StartUpLocals where
  bat_vol : ℚ
  bat_cur : Int
  sec : Int
  text_tip : Text
  text_bat_info : Text
  tick : Int
  increasing : Bool
  brightness : Int
  charging : Bool

/-- Show the tip screen if it is not the active one (`ClearDisplay`, load, three forced
refreshes). -/
def StartUp_show_tip (b : Board) : Board :=
  if b.hw.screen ≠ Screen.scr_tip_ then
    let b := ClearDisplay b 0x00
    let b := b.lv_screen_load Screen.scr_tip_
    let b := (b.emit Effect.lv_obj_invalidate).emit Effect.lv_refr_now
    let b := (b.emit Effect.lv_obj_invalidate).emit Effect.lv_refr_now
    (b.emit Effect.lv_obj_invalidate).emit Effect.lv_refr_now
  else b

/-- The branch `if (!guage_->detect())` of `StartUp`, entered with the value
`sleep_retry_count` of the counter that the function reads; returns the board at
`esp_deep_sleep_start()` and the counter after `++sleep_retry_count`.  The counter and
`sleep_duration` are `int`: the product, the sum and the increment are reduced to 32 bits
(`10 + sleep_retry_count * 10` fits an `int` for the counter values 0 .. 214748363).
The product `sleep_duration * 1000000LL` is a `long long`, which it always fits, and is
converted to the `uint64_t` parameter of `esp_sleep_enable_timer_wakeup`. -/
def StartUp_no_battery (b : Board) (sleep_retry_count : Int) : Board × Int :=
  let b :=
    if b.hw.wakeup_cause ≠ esp_sleep_wakeup_cause_t.ESP_SLEEP_WAKEUP_TIMER then
      let b := b.lv_label_set_text Label.scr_tip_label_title_ ⟨"低电量充电中请等待", []⟩
      let b := b.lv_label_set_text Label.scr_tip_label_ ⟨"", []⟩
      StartUp_show_tip b
    else b
  let sleep_duration := int32_cast (10 + int32_cast (sleep_retry_count * 10))
  let sleep_duration := if sleep_duration > 60 then 60 else sleep_duration
  let sleep_retry_count := int32_cast (sleep_retry_count + 1)
  let b := b.emit (Effect.esp_sleep_enable_timer_wakeup (uint64_cast (sleep_duration * 1000000)))
  let b := b.emit Effect.esp_deep_sleep_start
  (b, sleep_retry_count)

/-- The block `if (tick++ % 20 == 0)` of the loop of `StartUp`, entered when the test
holds.  The flag of the result is true when the block ends in `break`.  The constant 3.5
is a `float` value itself, so the test `bat_vol < 3.5` is exact. -/
def StartUp_sample (b : Board) (v : StartUpLocals) : Board × StartUpLocals × Bool :=
  let (bat_vol, hw) := b.hw.getVolt
  let (bat_cur, hw) := hw.getCurr
  let b := { b with hw := hw }
  let v := { v with bat_vol := bat_vol, bat_cur := bat_cur,
                    text_bat_info := ⟨"电压: %.1fV\n电流: %dmA", [bat_vol, (bat_cur : ℚ)]⟩ }
  if v.bat_vol < (3.5 : ℚ) then
    let (state, hw) := Aw32001.GetChargeState b.hw
    let b := { b with hw := hw }
    let v := { v with charging := decide (state ≠ 0) }
    let (b, v) :=
      if !v.charging then
        let v := { v with text_tip := ⟨"电量低 %d 秒后将关机", [(v.sec : ℚ)]⟩ }
        let expired : Bool := decide (v.sec ≤ (0 : Int))
        let v := { v with sec := v.sec - 1 }
        if expired then ((Shutdown b).vTaskDelay 5000, v) else (b, v)
      else
        (b, { v with sec := 5, text_tip := ⟨"电量低，充电中...", []⟩ })
    let b := b.lv_label_set_text Label.scr_tip_label_title_ v.text_tip
    let b := b.lv_label_set_text Label.scr_tip_label_ v.text_bat_info
    (StartUp_show_tip b, v, false)
  else (b, v, true)

/-- The loop `while (1)` of `StartUp`; `fuel` bounds the number of iterations and `none`
means the loop has not ended within the bound. -/
def StartUp_loop : Nat → Board → StartUpLocals → Option Board
  | 0, _, _ => none
  | fuel + 1, b, v =>
    let sample : Bool := decide (v.tick % 20 = (0 : Int))
    let v := { v with tick := v.tick + 1 }
    let (b, v, stop) := if sample then StartUp_sample b v else (b, v, false)
    if stop then some (SetIndicator b 0 0 50)
    else
      let v :=
        if v.increasing then
          let v := { v with brightness := v.brightness + 5 }
          if v.brightness ≥ 255 then { v with brightness := 255, increasing := false } else v
        else
          let v := { v with brightness := v.brightness - 5 }
          if v.brightness ≤ 0 then { v with brightness := 0, increasing := true } else v
      let b := SetIndicator b 0 0 (v.brightness % 256).toNat
      StartUp_loop fuel (b.vTaskDelay 50) v

/-- How `StartUp` ends: in deep sleep (the chip restarts on wake-up), by returning, or
not within the bound on loop iterations. -/
inductive StartUpResult where
  | deep_sleep (b : Board)
  | returned (b : Board)
  | unfinished

/-- Method `XiaozhiCardBoard::StartUp`.  The function declares a local `int sleep_retry_count = 0`
that hides the RTC-retained global of the same name (`Board.sleep_retry_count`); every use
of the name in the body is the local. -/
def StartUp (fuel : Nat) (b : Board) : StartUpResult :=
  let sleep_retry_count : Int := 0
  if !b.hw.battery_detected then
    let (b, _) := StartUp_no_battery b sleep_retry_count
    StartUpResult.deep_sleep b
  else
    let locals : StartUpLocals :=
      { bat_vol := 0, bat_cur := 0, sec := 5, text_tip := ⟨"", []⟩, text_bat_info := ⟨"", []⟩,
        tick := 0, increasing := true, brightness := 0, charging := false }
    match StartUp_loop fuel b locals with
    | none => StartUpResult.unfinished
    | some b => StartUpResult.returned b

end XiaozhiCardBoard

/-- The board object when the constructor reaches `StartUp` after a (re)start: members
and statics have their initial values, the power-save timer and the event queue exist;
only the RTC-retained counter keeps the value it had before the deep sleep. -/
def Board.boot (hw : Platform) (sleep_retry_count : Int) : Board :=
  { hw := hw, panel_ := true, led_strip_ := true, power_save_timer_ := some { enabled_ := true },
    power_save_timer_user_set_ := false, event_queue_ := some [], modem_powered_on_ := false,
    countdown := 10, text_tip := ⟨"", []⟩, bat_vol := 0, scr := none, last_charging := false,
    bat_filter := MovingAverageFilter.new 60, last_level := 0,
    sleep_retry_count := sleep_retry_count }

/-- The events handed to `xQueueSend` in a trace, oldest first. -/
def posted_events (trace : List Effect) : List BoardEvent :=
  trace.filterMap fun e =>
    match e with
    | Effect.xQueueSend event => some event
    | _ => none

/-- The arguments of `esp_sleep_enable_timer_wakeup` in a trace, oldest first. -/
def timer_wakeups (trace : List Effect) : List Int :=
  trace.filterMap fun e =>
    match e with
    | Effect.esp_sleep_enable_timer_wakeup us => some us
    | _ => none

/-- The charge state (bits 4:3 of register 0x08) that `GetChargeState` decodes from the
byte delivered by the `i`-th read transaction. -/
def Platform.charge_state_at (hw : Platform) (i : Nat) : Nat :=
  (u8 (hw.i2c_rx i) >>> 3) &&& 0x03

/-- The board after `n` successive invocations of `GetBatteryLevel`. -/
def XiaozhiCardBoard.GetBatteryLevel_times : Nat → Board → Board
  | 0, b => b
  | n + 1, b => GetBatteryLevel_times n (GetBatteryLevel b).1

/-- A platform on which every stream is constant, used to instantiate statements. -/
def Platform.idle (rx : Nat) (v : ℚ) : Platform :=
  { i2c_rx := fun _ => rx, i2c_n := 0, bat_vol_src := fun _ => v, bat_vol_n := 0,
    bat_cur_src := fun _ => 0, bat_cur_n := 0,
    wake_src := fun _ => esp_sleep_wakeup_cause_t.ESP_SLEEP_WAKEUP_TIMER, wake_n := 0,
    wakeup_cause := esp_sleep_wakeup_cause_t.ESP_SLEEP_WAKEUP_UNDEFINED,
    screen := Screen.scr_main_, wake_word_running := true, device_state_listening := false,
    battery_detected := true, network_type := NetworkType.WIFI, trace := [] }

/-- A platform whose voltage samples are all 3.3 V except sample number 9, which is 3.7 V;
the charger bus always returns 0 (NotCharging). -/
def Platform.dip_with_recovery : Platform :=
  { Platform.idle 0 3.3 with bat_vol_src := fun i => if i = 9 then 3.7 else 3.3 }

/-- A platform on which the gauge does not answer the probe (`detect()` is false) and the
last wake-up had cause `cause`. -/
def Platform.no_battery (cause : esp_sleep_wakeup_cause_t) : Platform :=
  { Platform.idle 0 3.3 with battery_detected := false, wakeup_cause := cause }

/-- A platform with a healthy battery (3.7 V, NotCharging) whose first light sleep ends on
the timer and whose later ones end on a GPIO wake-up. -/
def Platform.timer_then_gpio : Platform :=
  { Platform.idle 0 3.7 with
    wake_src := fun n =>
      if n = 0 then esp_sleep_wakeup_cause_t.ESP_SLEEP_WAKEUP_TIMER
      else esp_sleep_wakeup_cause_t.ESP_SLEEP_WAKEUP_GPIO }

/-- The boot state on a healthy, not charging board (Wi-Fi path, radio module off) with a
Shutdown event and a SwitchNetWork event waiting in the queue. -/
def Board.two_pending : Board :=
  { Board.boot (Platform.idle 0 3.7) 0 with
    event_queue_ := some [BoardEvent.Shutdown, BoardEvent.SwitchNetWork] }

/-! ## Charger driver `Aw32001`: the other setters -/

namespace Aw32001

/-- Method `Aw32001::SetCharge`. -/
def SetCharge (hw : Platform) (en : Bool) : Platform :=
  let (reg, hw) := ReadReg hw 0x01
  let reg := if en then u8 (reg &&& 0xFFFFFFF7) else u8 (reg ||| (1 <<< 3))
  let reg := u8 (reg ||| 0x07)
  WriteReg hw 0x01 reg

/-- Method `Aw32001::SetDischargeCurrent`. -/
def SetDischargeCurrent (hw : Platform) (current_ma : Nat) : Platform :=
  let current_ma := if current_ma < 200 then 200 else current_ma
  let current_ma := if current_ma > 3200 then 3200 else current_ma
  let level := u8 (current_ma / 200 - 1)
  let (val, hw) := ReadReg hw 0x03
  let val := u8 (val &&& 0x0F)
  let val := u8 (val ||| (level <<< 4))
  WriteReg hw 0x03 val

/-- Method `Aw32001::SetChargeVoltage`. -/
def SetChargeVoltage (hw : Platform) (voltage_mv : Nat) : Platform :=
  let voltage_mv := if voltage_mv < 3600 then 3600 else voltage_mv
  let voltage_mv := if voltage_mv > 4545 then 4545 else voltage_mv
  let value := u8 ((voltage_mv - 3600) / 15)
  let (reg, hw) := ReadReg hw 0x04
  let reg := u8 ((reg &&& 0x03) ||| (value <<< 2))
  WriteReg hw 0x04 reg

/-- Method `Aw32001::SetPreChargeCurrent`; `(current_ma) / 2 << 1` parses as
`((current_ma) / 2) << 1`. -/
def SetPreChargeCurrent (hw : Platform) (current_ma : Nat) : Platform :=
  let current_ma := if current_ma < 1 then 1 else current_ma
  let current_ma := if current_ma > 31 then 31 else current_ma
  let level := u8 ((current_ma / 2) <<< 1)
  let (val, hw) := ReadReg hw 0x0B
  let val := u8 (val &&& 0xE1)
  let val := u8 (val ||| (level &&& 0x1E))
  let val := u8 (val ||| 0x01)
  WriteReg hw 0x0B val

/-- The trace of a run of missed polls of `SetShippingMode(false)`: for each byte read
that is not 0x40, the read of register 0x06 followed by the 100 ms wait. -/
def poll_misses : List Nat → List Effect
  | [] => []
  | v :: vs => Effect.i2c_read 0x06 v :: Effect.vTaskDelay 100 :: poll_misses vs

end Aw32001

/-- The sum of the `vTaskDelay` arguments of a trace, in milliseconds. -/
def total_delay : List Effect → Nat
  | [] => 0
  | Effect.vTaskDelay ms :: t => ms + total_delay t
  | _ :: t => total_delay t

/-! ## Gauge driver `Bq27220` -/

/-- Truncation to `uint16_t`. -/
def u16 (n : Nat) : Nat := n % 65536

/-- The value of `(int16_t) w` for a 16-bit word `w`. -/
def int16_cast (w : Nat) : Int :=
  if u16 w < 32768 then (u16 w : Int) else (u16 w : Int) - 65536

/-- One transaction on the gauge's I2C device, as recorded in its log. -/
inductive GaugeOp where
  | read (subAddress count : Nat)
  deriving DecidableEq

/-- The gauge's I2C device as the driver sees it: `rx n k` is byte number `k` that the
`n`-th read transaction puts into the destination buffer. -/
structure GaugeBus where
  rx : Nat → Nat → Nat
  n : Nat
  log : List GaugeOp

/-- The enum `VOLT_MODE`.  Its declaration (`bq27220.h`) is not among the sources; the
enumerators are those named by the `case` labels of `getVolt`, and `other` stands for any
further value of the type. -/
inductive VOLT_MODE where
  | VOLT
  | VOLT_CHARGING
  | VOLT_RWA
  | other (value : Nat)
  deriving DecidableEq

/-- The enum `CURR_MODE`.  Its declaration (`bq27220.h`) is not among the sources; the
enumerators are those named by the `case` labels of `getCurr`, and `other` stands for any
further value of the type. -/
inductive CURR_MODE where
  | CURR_RAW
  | CURR_INSTANT
  | CURR_STANDBY
  | CURR_CHARGING
  | CURR_AVERAGE
  | other (value : Nat)
  deriving DecidableEq

/-- The command codes `BQ27220_COMMAND_*` that `getVolt` and `getCurr` use.  They are
defined in `bq27220.h`, which is not among the sources, and are taken as parameters. -/
structure Bq27220Commands where
  BQ27220_COMMAND_VOLT : Nat
  BQ27220_COMMAND_CHARGING_VOLT : Nat
  BQ27220_COMMAND_RAW_VOLT : Nat
  BQ27220_COMMAND_RAW_CURR : Nat
  BQ27220_COMMAND_CURR : Nat
  BQ27220_COMMAND_STANDBY_CURR : Nat
  BQ27220_COMMAND_CHARGING_CURR : Nat
  BQ27220_COMMAND_AVG_CURR : Nat

namespace Bq27220

/-- Method `Bq27220::i2cReadBytes`: one read transaction of `count` bytes at the 8-bit
`subAddress`; returns the destination buffer (the method itself always returns `true`). -/
def i2cReadBytes (g : GaugeBus) (subAddress count : Nat) : List Nat × GaugeBus :=
  ((List.range count).map fun k => u8 (g.rx g.n k),
    { g with n := g.n + 1, log := g.log ++ [GaugeOp.read (u8 subAddress) count] })

/-- Method `Bq27220::readWord`. -/
def readWord (g : GaugeBus) (subAddress : Nat) : Nat × GaugeBus :=
  let (data, g) := i2cReadBytes g subAddress 2
  (u16 ((u16 (data.getD 1 0) <<< 8) ||| data.getD 0 0), g)

/-- Method `Bq27220::getVolt`. -/
def getVolt (cmd : Bq27220Commands) (g : GaugeBus) (type : VOLT_MODE) : Nat × GaugeBus :=
  match type with
  | VOLT_MODE.VOLT => readWord g cmd.BQ27220_COMMAND_VOLT
  | VOLT_MODE.VOLT_CHARGING => readWord g cmd.BQ27220_COMMAND_CHARGING_VOLT
  | VOLT_MODE.VOLT_RWA => readWord g cmd.BQ27220_COMMAND_RAW_VOLT
  | VOLT_MODE.other _ => (0, g)

/-- Method `Bq27220::getCurr`. -/
def getCurr (cmd : Bq27220Commands) (g : GaugeBus) (type : CURR_MODE) : Int × GaugeBus :=
  match type with
  | CURR_MODE.CURR_RAW =>
    let (w, g) := readWord g cmd.BQ27220_COMMAND_RAW_CURR
    (int16_cast w, g)
  | CURR_MODE.CURR_INSTANT =>
    let (w, g) := readWord g cmd.BQ27220_COMMAND_CURR
    (int16_cast w, g)
  | CURR_MODE.CURR_STANDBY =>
    let (w, g) := readWord g cmd.BQ27220_COMMAND_STANDBY_CURR
    (int16_cast w, g)
  | CURR_MODE.CURR_CHARGING =>
    let (w, g) := readWord g cmd.BQ27220_COMMAND_CHARGING_CURR
    (int16_cast w, g)
  | CURR_MODE.CURR_AVERAGE =>
    let (w, g) := readWord g cmd.BQ27220_COMMAND_AVG_CURR
    (int16_cast w, g)
  | CURR_MODE.other _ => (-1, g)

end Bq27220

/-- A gauge bus whose every read transaction delivers the bytes `b0`, `b1`. -/
def GaugeBus.const (b0 b1 : Nat) : GaugeBus :=
  { rx := fun _ k => if k = 0 then b0 else b1, n := 0, log := [] }

/-! ## Event channel -/

/-- One operation on the event channel: a producer calls `PostEvent(event)`, or the worker
calls `xQueueReceive`. -/
inductive ChannelOp where
  | post (event : BoardEvent)
  | receive
  deriving DecidableEq

/-- What a run of channel operations did: the board it ends in, the events that
`PostEvent` put on the queue, and the events the worker took off it, both oldest first. -/
structure ChannelRun where
  board : Board
  accepted : List BoardEvent
  handed : List BoardEvent

namespace XiaozhiCardBoard

/-- The call `xQueueReceive(self->event_queue_, &event, pdMS_TO_TICKS(1000))` of
`BoardEventTask`: it takes the oldest event off the queue, and gives nothing when the queue
stays empty (the call times out). -/
def BoardEventTask_receive (b : Board) : Option BoardEvent × Board :=
  match b.event_queue_ with
  | some (event :: rest) => (some event, { b with event_queue_ := some rest })
  | _ => (none, b)

/-- A run of channel operations, in the order given.  A posted event counts as accepted
when `PostEvent` changed the queue; a received event is the one the worker hands to
`HandleBoardEvent`. -/
def channel_run : List ChannelOp → Board → ChannelRun
  | [], b => { board := b, accepted := [], handed := [] }
  | ChannelOp.post event :: ops, b =>
    let b1 := PostEvent b event
    let r := channel_run ops b1
    if b1.event_queue_ = b.event_queue_ then r else { r with accepted := event :: r.accepted }
  | ChannelOp.receive :: ops, b =>
    match BoardEventTask_receive b with
    | (some event, b1) =>
      let r := channel_run ops b1
      { r with handed := event :: r.handed }
    | (none, b1) => channel_run ops b1

/-- The block `if (increasing) ... else ...` of the loop of `StartUp`: one step of the LED
brightness ramp. -/
def StartUp_breathe (v : StartUpLocals) : StartUpLocals :=
  if v.increasing then
    let v := { v with brightness := v.brightness + 5 }
    if v.brightness ≥ 255 then { v with brightness := 255, increasing := false } else v
  else
    let v := { v with brightness := v.brightness - 5 }
    if v.brightness ≤ 0 then { v with brightness := 0, increasing := true } else v

/-- One iteration of the loop `while (1)` of `StartUp`, as in `StartUp_loop`: the board and
the locals at the end of the iteration; the flag is true when the iteration ends in
`break`. -/
def StartUp_tick (b : Board) (v : StartUpLocals) : Board × StartUpLocals × Bool :=
  let sample : Bool := decide (v.tick % 20 = (0 : Int))
  let v := { v with tick := v.tick + 1 }
  let (b, v, stop) := if sample then StartUp_sample b v else (b, v, false)
  if stop then (b, v, true)
  else
    let v := StartUp_breathe v
    let b := SetIndicator b 0 0 (v.brightness % 256).toNat
    (b.vTaskDelay 50, v, false)

/-- The first `n` iterations of the loop of `StartUp`, or those up to the `break`. -/
def StartUp_ticks : Nat → Board → StartUpLocals → Board × StartUpLocals × Bool
  | 0, b, v => (b, v, false)
  | n + 1, b, v =>
    let (b, v, stop) := StartUp_tick b v
    if stop then (b, v, true) else StartUp_ticks n b v

/-- The locals of `StartUp` when the loop is entered. -/
def StartUp_locals : StartUpLocals :=
  { bat_vol := 0, bat_cur := 0, sec := 5, text_tip := ⟨"", []⟩, text_bat_info := ⟨"", []⟩,
    tick := 0, increasing := true, brightness := 0, charging := false }

end XiaozhiCardBoard

/-- The calls by which `Sleep` undoes its preparation once the wait loop is left by
`break`: codec input and output on, audio service started, wake-word detection on, the
power-save timer woken. -/
def Effect.is_restore : Effect → Bool
  | Effect.codec_EnableInput true => true
  | Effect.codec_EnableOutput true => true
  | Effect.audio_service_Start => true
  | Effect.EnableWakeWordDetection true => true
  | Effect.power_save_timer_WakeUp => true
  | _ => false

/-- The calls that `Shutdown` can make into the platform. -/
def Effect.of_Shutdown : Effect → Bool
  | Effect.i2c_read _ _ => true
  | Effect.i2c_write _ _ => true
  | Effect.lv_label_set_text _ _ => true
  | Effect.lv_screen_load _ => true
  | Effect.lv_refr_now => true
  | Effect.draw_bitmap_full _ => true
  | Effect.esp_task_wdt_delete => true
  | Effect.gpio_reset_pin _ => true
  | Effect.gpio_set_direction_output _ => true
  | Effect.gpio_set_level _ _ => true
  | Effect.vTaskDelay ms => decide (ms = 1000 ∨ ms = 300 ∨ ms = 100 ∨ ms = 3750 ∨ ms = 3000)
  | _ => false

/-- The number of times a trace has the call `vTaskDelay(pdMS_TO_TICKS(5000))`, which
`StartUp` makes right after each call of `Shutdown()` and nowhere else. -/
def shutdown_calls (trace : List Effect) : Nat :=
  trace.count (Effect.vTaskDelay 5000)

/-! ## Battery level filter: runs and the window mean -/

/-- The filter after the calls `update(s)` for the samples `s` of a list, in order. -/
def MovingAverageFilter.updates (f : MovingAverageFilter) (samples : List ℚ) :
    MovingAverageFilter :=
  samples.foldl (fun f s => (f.update s).2) f

/-- The naive window mean: the arithmetic mean of the last `N` elements of the sequence
made of `N` copies of the first sample `s1` followed by the later samples `rest`. -/
def window_mean (N : Nat) (s1 : ℚ) (rest : List ℚ) : ℚ :=
  ((List.replicate N s1 ++ rest).drop ((List.replicate N s1 ++ rest).length - N)).sum / N

/-- Rounding of a rational to the nearest integer, a tie going to the even one. -/
def round_half_even (q : ℚ) : Int :=
  let f := ⌊q⌋
  if q - f < 1 / 2 then f
  else if q - f > 1 / 2 then f + 1
  else if f % 2 = 0 then f else f + 1

/-- The number of halvings that bring `n` below 2, at most `fuel` of them; with
`fuel = n` it is the `k` with `2^k ≤ n < 2^(k+1)` when `n` is not 0. -/
def bit_length : Nat → Nat → Nat
  | 0, _ => 0
  | fuel + 1, n => if n < 2 then 0 else bit_length fuel (n / 2) + 1

/-- The integer part of the binary logarithm of a positive rational `x`: the `e` with
`2^e ≤ x < 2^(e+1)`.  It is the difference of the bit lengths of numerator and
denominator, or one less. -/
def log2_floor (x : ℚ) : Int :=
  let k : Int := (bit_length x.num.natAbs x.num.natAbs : Int) - (bit_length x.den x.den : Int)
  if (2 : ℚ) ^ k ≤ x then k else k - 1

/-- The exponent of the binade of `x` in a binary format with least exponent `emin`: the
`e` with `2^e ≤ |x| < 2^(e+1)`, or `emin` if that is larger (subnormal range). -/
def binade (emin : Int) (x : ℚ) : Int := max (log2_floor |x|) emin

/-- The value that an IEEE 754 binary format with `p` significand bits and least exponent
`emin` gives to the exact result `x` of an operation, in the default rounding mode (to
nearest, ties to even): `x` is rounded to a multiple of the unit in the last place of its
binade.  Overflow to infinity is not represented; the values met in this development are
below 2^17 in magnitude. -/
def fl (p : Nat) (emin : Int) (x : ℚ) : ℚ :=
  if x = 0 then 0
  else
    let ulp : ℚ := 2 ^ (binade emin x - ((p : Int) - 1))
    round_half_even (x / ulp) * ulp

/-- Rounding to `float` (binary32: 24 significand bits, least exponent -126). -/
def binary32 (x : ℚ) : ℚ := fl 24 (-126) x

/-- Rounding to `double` (binary64: 53 significand bits, least exponent -1022). -/
def binary64 (x : ℚ) : ℚ := fl 53 (-1022) x

/-! ## Battery level in `float` arithmetic -/

namespace XiaozhiCardBoard

/-- The value of the expression `guage_->getVolt(VOLT_MODE::VOLT) / 1000.0f` for the gauge
reading `m` (millivolts): the reading converted to `float`, which is exact for a 16-bit
value, divided by the `float` 1000. -/
def GetBatteryLevel_bat_vol_f32 (m : Nat) : ℚ := binary32 ((m : ℚ) / 1000)

/-- The value that `GetBatteryLevel` gives `raw_level` for the `float` voltage `bat_vol`, in
the arithmetic of the target.  `BAT_VOL_EMPTY` and `BAT_VOL_FULL` are `double` constants,
so the comparison is made in `double`, where `bat_vol` is exact, and the interpolation is
computed in `double`, each operation rounded, and then converted to `float`. -/
def GetBatteryLevel_raw_level_f32 (bat_vol : ℚ) : ℚ :=
  if bat_vol ≥ binary64 BAT_VOL_FULL then 100
  else
    let raw_level :=
      binary32 (binary64 (binary64 (binary64 (bat_vol - binary64 BAT_VOL_EMPTY)
        / binary64 (binary64 BAT_VOL_FULL - binary64 BAT_VOL_EMPTY)) * 100))
    if raw_level < 0 then 0 else raw_level

end XiaozhiCardBoard

theorem and_C0_eq (r : Nat) (hr : r < 256) : r &&& 0xC0 = 64 * (r / 64) := by
  interval_cases r <;> rfl

theorem u8_lt (n : Nat) : u8 n < 256 := by
  unfold u8; omega

theorem u8_of_lt {n : Nat} (h : n < 256) : u8 n = n := by
  unfold u8; omega

/-! ## Charger driver: register protocol -/

/-- C1. `SetChargeCurrent(c)` does one read of register 0x02 followed by one write to
register 0x02 and nothing else; bits 5:0 of the byte written are `min(c,456)/8` and its
bits 7:6 are bits 7:6 of the byte `r` that was read. -/
theorem SetChargeCurrent_field (hw : Platform) (c : Nat) :
    ∃ v, (Aw32001.SetChargeCurrent hw c).trace
          = hw.trace ++ [Effect.i2c_read 0x02 (u8 (hw.i2c_rx hw.i2c_n)), Effect.i2c_write 0x02 v]
      ∧ v < 256
      ∧ v % 64 = min c 456 / 8
      ∧ v / 64 = u8 (hw.i2c_rx hw.i2c_n) / 64 := by
  have hr := u8_lt (hw.i2c_rx hw.i2c_n)
  set r := u8 (hw.i2c_rx hw.i2c_n) with hrdef
  have hm : (if c > 456 then 456 else c) = min c 456 := by
    split <;> omega
  have hq : min c 456 / 8 < 64 := by omega
  have hfield : (min c 456 / 8) &&& 0x3F = min c 456 / 8 := by
    have := Nat.and_pow_two_sub_one_eq_mod (min c 456 / 8) 6
    simpa [Nat.mod_eq_of_lt hq] using this
  have hor : (r &&& 0xC0) ||| (min c 456 / 8) = 64 * (r / 64) + min c 456 / 8 := by
    rw [and_C0_eq r hr]
    exact (Nat.mul_add_lt_is_or (i := 6) hq (r / 64)).symm
  refine ⟨64 * (r / 64) + min c 456 / 8, ?_, by omega, by omega, by omega⟩
  simp only [Aw32001.SetChargeCurrent, Aw32001.ReadReg, Aw32001.WriteReg, Platform.emit, hm,
    hfield, ← hrdef, hor]
  have hv : u8 (64 * (r / 64) + min c 456 / 8) = 64 * (r / 64) + min c 456 / 8 :=
    u8_of_lt (by omega)
  simp [hv]

/-- C2. `SetWatchdog(t, flag)` with `t` outside {0, 40, 80, 160} leaves the platform as it
found it: no read, no write, no other call. -/
theorem SetWatchdog_rejects (hw : Platform) (t flag : Nat)
    (ht : t ≠ 0 ∧ t ≠ 40 ∧ t ≠ 80 ∧ t ≠ 160) :
    Aw32001.SetWatchdog hw t flag = hw := by
  obtain ⟨h0, h40, h80, h160⟩ := ht
  simp [Aw32001.SetWatchdog, h0, h40, h80, h160]

theorem SetWatchdog_rejects_witness :
    (41 ≠ 0 ∧ 41 ≠ 40 ∧ 41 ≠ 80 ∧ 41 ≠ 160)
      ∧ Aw32001.SetWatchdog (Platform.idle 0xFF 3.7) 41 1 = Platform.idle 0xFF 3.7 :=
  ⟨by decide, SetWatchdog_rejects (Platform.idle 0xFF 3.7) 41 1 (by decide)⟩

/-! ## Low-battery countdown of `GetBatteryLevel` -/

open XiaozhiCardBoard

theorem posted_events_append (t s : List Effect) :
    posted_events (t ++ s) = posted_events t ++ posted_events s := by
  simp [posted_events]

/-- What `GetBatteryLevel_level` changes: it takes one voltage sample, stores it in the
static `bat_vol`, and posts nothing. -/
theorem GetBatteryLevel_level_frame (b : Board) :
    (GetBatteryLevel_level b).1.countdown = b.countdown
    ∧ (GetBatteryLevel_level b).1.bat_vol = b.hw.bat_vol_src b.hw.bat_vol_n
    ∧ (GetBatteryLevel_level b).1.hw.bat_vol_n = b.hw.bat_vol_n + 1
    ∧ (GetBatteryLevel_level b).1.hw.i2c_n = b.hw.i2c_n
    ∧ (GetBatteryLevel_level b).1.hw.bat_vol_src = b.hw.bat_vol_src
    ∧ (GetBatteryLevel_level b).1.hw.i2c_rx = b.hw.i2c_rx
    ∧ (GetBatteryLevel_level b).1.event_queue_ = b.event_queue_
    ∧ posted_events (GetBatteryLevel_level b).1.hw.trace = posted_events b.hw.trace := by
  simp only [GetBatteryLevel_level, Platform.getVolt, Board.lv_label_set_text,
    Platform.lv_label_set_text, Platform.emit]
  refine ⟨?_, ?_, ?_, ?_, ?_, ?_, ?_, ?_⟩ <;> split_ifs <;> simp [posted_events]

/-- The power-save part of `GetBatteryLevel` touches neither the countdown nor the
streams, and posts nothing. -/
theorem GetBatteryLevel_power_save_frame (b : Board) (charging : Bool) :
    (GetBatteryLevel_power_save b charging).countdown = b.countdown
    ∧ (GetBatteryLevel_power_save b charging).bat_vol = b.bat_vol
    ∧ (GetBatteryLevel_power_save b charging).hw.bat_vol_n = b.hw.bat_vol_n
    ∧ (GetBatteryLevel_power_save b charging).hw.i2c_n = b.hw.i2c_n
    ∧ (GetBatteryLevel_power_save b charging).hw.bat_vol_src = b.hw.bat_vol_src
    ∧ (GetBatteryLevel_power_save b charging).hw.i2c_rx = b.hw.i2c_rx
    ∧ (GetBatteryLevel_power_save b charging).event_queue_ = b.event_queue_
    ∧ posted_events (GetBatteryLevel_power_save b charging).hw.trace
        = posted_events b.hw.trace := by
  simp only [GetBatteryLevel_power_save, SetPowerSaveMode, GetPowerSaveMode,
    Board.lv_label_set_text, Platform.lv_label_set_text, Board.emit, Platform.emit]
  cases hp : b.power_save_timer_ <;>
    (refine ⟨?_, ?_, ?_, ?_, ?_, ?_, ?_, ?_⟩ <;> split_ifs <;> simp [posted_events])

/-- The state in which `GetBatteryLevel` enters its countdown part: one voltage sample and
one charger read have been consumed, nothing has been posted. -/
theorem GetBatteryLevel_before_countdown (b : Board) :
    ∃ b1 : Board,
      GetBatteryLevel b
        = (GetBatteryLevel_countdown b1 (decide (b.hw.charge_state_at b.hw.i2c_n ≠ 0)),
            (GetBatteryLevel_level b).2,
            decide (b.hw.charge_state_at b.hw.i2c_n ≠ 0),
            !decide (b.hw.charge_state_at b.hw.i2c_n ≠ 0))
      ∧ b1.countdown = b.countdown
      ∧ b1.bat_vol = b.hw.bat_vol_src b.hw.bat_vol_n
      ∧ b1.hw.bat_vol_n = b.hw.bat_vol_n + 1
      ∧ b1.hw.i2c_n = b.hw.i2c_n + 1
      ∧ b1.hw.bat_vol_src = b.hw.bat_vol_src
      ∧ b1.hw.i2c_rx = b.hw.i2c_rx
      ∧ b1.event_queue_ = b.event_queue_
      ∧ posted_events b1.hw.trace = posted_events b.hw.trace := by
  obtain ⟨l1, l2, l3, l4, l5, l6, l7, l8⟩ := GetBatteryLevel_level_frame b
  set b0 := (GetBatteryLevel_level b).1 with hb0
  set st := decide (b.hw.charge_state_at b.hw.i2c_n ≠ 0) with hst
  set bc : Board := { b0 with hw := (Aw32001.GetChargeState b0.hw).2 } with hbc
  obtain ⟨p1, p2, p3, p4, p5, p6, p7, p8⟩ := GetBatteryLevel_power_save_frame bc st
  refine ⟨GetBatteryLevel_power_save bc st, ?_, ?_, ?_, ?_, ?_, ?_, ?_, ?_, ?_⟩
  · simp only [GetBatteryLevel, ← hb0]
    have : (Aw32001.GetChargeState b0.hw).1 = b.hw.charge_state_at b.hw.i2c_n := by
      simp [Aw32001.GetChargeState, Aw32001.ReadReg, Platform.charge_state_at, l4, l6]
    simp only [this, ← hst, ← hbc]
  · rw [p1]; exact l1
  · rw [p2]; exact l2
  · rw [p3]; simpa [hbc, Aw32001.GetChargeState, Aw32001.ReadReg] using l3
  · rw [p4]; simp [hbc, Aw32001.GetChargeState, Aw32001.ReadReg, l4]
  · rw [p5]; simpa [hbc, Aw32001.GetChargeState, Aw32001.ReadReg] using l5
  · rw [p6]; simpa [hbc, Aw32001.GetChargeState, Aw32001.ReadReg] using l6
  · rw [p7]; exact l7
  · rw [p8]
    simp only [hbc, Aw32001.GetChargeState, Aw32001.ReadReg, posted_events_append, l8]
    simp [posted_events]

/-- The countdown part when the charger reports charging: the countdown is set to 10. -/
theorem GetBatteryLevel_countdown_charging (b : Board) :
    (GetBatteryLevel_countdown b true).countdown = 10 := by
  simp [GetBatteryLevel_countdown]

/-- The countdown part when not charging and above the empty threshold: nothing happens. -/
theorem GetBatteryLevel_countdown_high (b : Board) (h : ¬ b.bat_vol ≤ BAT_VOL_EMPTY) :
    GetBatteryLevel_countdown b false = b := by
  simp [GetBatteryLevel_countdown, h]

/-- The countdown part when not charging and at or below the empty threshold: the
`uint8_t` countdown is decremented, and a Shutdown event is posted exactly when it
reaches 0. -/
theorem GetBatteryLevel_countdown_low (b : Board) (hq : b.event_queue_.isSome)
    (h : b.bat_vol ≤ BAT_VOL_EMPTY) :
    (GetBatteryLevel_countdown b false).countdown = u8 (b.countdown + 255)
    ∧ (GetBatteryLevel_countdown b false).hw.bat_vol_n = b.hw.bat_vol_n
    ∧ (GetBatteryLevel_countdown b false).hw.i2c_n = b.hw.i2c_n
    ∧ (GetBatteryLevel_countdown b false).hw.bat_vol_src = b.hw.bat_vol_src
    ∧ (GetBatteryLevel_countdown b false).hw.i2c_rx = b.hw.i2c_rx
    ∧ (GetBatteryLevel_countdown b false).event_queue_.isSome
    ∧ posted_events (GetBatteryLevel_countdown b false).hw.trace
        = posted_events b.hw.trace
          ++ (if u8 (b.countdown + 255) = 0 then [BoardEvent.Shutdown] else []) := by
  obtain ⟨q, hq⟩ := Option.isSome_iff_exists.mp hq
  have hle : ∀ n : Nat, n ≤ 0 ↔ n = 0 := fun n => Nat.le_zero
  by_cases h5 : b.countdown = 5
  · by_cases h8 : q.length < 8 <;>
      simp [GetBatteryLevel_countdown, PostEvent, Board.lv_label_set_text,
        Board.lv_screen_load, Board.emit, Platform.lv_label_set_text, Platform.lv_screen_load,
        Platform.emit, h, hq, h5, h8, hle, posted_events, u8]
  · by_cases h10 : b.countdown < 10 <;> by_cases h0 : u8 (b.countdown + 255) = 0 <;>
      by_cases h8 : q.length < 8 <;>
      simp [GetBatteryLevel_countdown, PostEvent, Board.lv_label_set_text,
        Board.lv_screen_load, Board.emit, Platform.lv_label_set_text, Platform.lv_screen_load,
        Platform.emit, h, hq, h10, h5, h0, h8, hle, posted_events]

/-- One invocation of `GetBatteryLevel` with the voltage at or below the empty threshold
and the charger not charging. -/
theorem GetBatteryLevel_low (b : Board) (hq : b.event_queue_.isSome)
    (hv : b.hw.bat_vol_src b.hw.bat_vol_n ≤ BAT_VOL_EMPTY)
    (hc : b.hw.charge_state_at b.hw.i2c_n = 0) :
    (GetBatteryLevel b).1.countdown = u8 (b.countdown + 255)
    ∧ (GetBatteryLevel b).1.hw.bat_vol_n = b.hw.bat_vol_n + 1
    ∧ (GetBatteryLevel b).1.hw.i2c_n = b.hw.i2c_n + 1
    ∧ (GetBatteryLevel b).1.hw.bat_vol_src = b.hw.bat_vol_src
    ∧ (GetBatteryLevel b).1.hw.i2c_rx = b.hw.i2c_rx
    ∧ (GetBatteryLevel b).1.event_queue_.isSome
    ∧ posted_events (GetBatteryLevel b).1.hw.trace
        = posted_events b.hw.trace
          ++ (if u8 (b.countdown + 255) = 0 then [BoardEvent.Shutdown] else []) := by
  obtain ⟨b1, e, k1, k2, k3, k4, k5, k6, k7, k8⟩ := GetBatteryLevel_before_countdown b
  have hq1 : b1.event_queue_.isSome := by rw [k7]; exact hq
  have hv1 : b1.bat_vol ≤ BAT_VOL_EMPTY := by rw [k2]; exact hv
  obtain ⟨c1, c2, c3, c4, c5, c6, c7⟩ := GetBatteryLevel_countdown_low b1 hq1 hv1
  simp only [e, hc, ne_eq, not_true_eq_false, decide_False]
  refine ⟨?_, ?_, ?_, ?_, ?_, c6, ?_⟩
  · rw [c1, k1]
  · rw [c2, k3]
  · rw [c3, k4]
  · rw [c4, k5]
  · rw [c5, k6]
  · rw [c7, k8, k1]

/-- One invocation of `GetBatteryLevel` with the charger charging: the countdown is 10
afterwards. -/
theorem GetBatteryLevel_charging (b : Board) (hc : b.hw.charge_state_at b.hw.i2c_n ≠ 0) :
    (GetBatteryLevel b).1.countdown = 10 := by
  obtain ⟨b1, e, -⟩ := GetBatteryLevel_before_countdown b
  simp only [e, hc, ne_eq, not_false_eq_true, decide_True]
  exact GetBatteryLevel_countdown_charging b1

/-- One invocation of `GetBatteryLevel` with the voltage above the empty threshold and
the charger not charging: the countdown keeps its value and nothing is posted. -/
theorem GetBatteryLevel_high (b : Board)
    (hv : ¬ b.hw.bat_vol_src b.hw.bat_vol_n ≤ BAT_VOL_EMPTY)
    (hc : b.hw.charge_state_at b.hw.i2c_n = 0) :
    (GetBatteryLevel b).1.countdown = b.countdown
    ∧ (GetBatteryLevel b).1.hw.bat_vol_n = b.hw.bat_vol_n + 1
    ∧ (GetBatteryLevel b).1.hw.i2c_n = b.hw.i2c_n + 1
    ∧ (GetBatteryLevel b).1.hw.bat_vol_src = b.hw.bat_vol_src
    ∧ (GetBatteryLevel b).1.hw.i2c_rx = b.hw.i2c_rx
    ∧ (GetBatteryLevel b).1.event_queue_ = b.event_queue_
    ∧ posted_events (GetBatteryLevel b).1.hw.trace = posted_events b.hw.trace := by
  obtain ⟨b1, e, k1, k2, k3, k4, k5, k6, k7, k8⟩ := GetBatteryLevel_before_countdown b
  have hv1 : ¬ b1.bat_vol ≤ BAT_VOL_EMPTY := by rw [k2]; exact hv
  simp only [e, hc, ne_eq, not_true_eq_false, decide_False,
    GetBatteryLevel_countdown_high b1 hv1]
  exact ⟨k1, k3, k4, k5, k6, k7, k8⟩

/-- A run of `n` low, not-charging invocations that starts with the countdown at `n` or
more: the countdown drops by `n`, and a Shutdown event is posted only by the invocation
that brings it to 0. -/
theorem GetBatteryLevel_times_low (n : Nat) :
    ∀ b : Board, b.event_queue_.isSome → n ≤ b.countdown → b.countdown ≤ 256 →
      (∀ i < n, b.hw.bat_vol_src (b.hw.bat_vol_n + i) ≤ BAT_VOL_EMPTY
        ∧ b.hw.charge_state_at (b.hw.i2c_n + i) = 0) →
      (GetBatteryLevel_times n b).countdown = b.countdown - n
      ∧ (GetBatteryLevel_times n b).hw.bat_vol_n = b.hw.bat_vol_n + n
      ∧ (GetBatteryLevel_times n b).hw.i2c_n = b.hw.i2c_n + n
      ∧ (GetBatteryLevel_times n b).hw.bat_vol_src = b.hw.bat_vol_src
      ∧ (GetBatteryLevel_times n b).hw.i2c_rx = b.hw.i2c_rx
      ∧ (GetBatteryLevel_times n b).event_queue_.isSome
      ∧ posted_events (GetBatteryLevel_times n b).hw.trace
          = posted_events b.hw.trace
            ++ (if 0 < n ∧ n = b.countdown then [BoardEvent.Shutdown] else []) := by
  induction n with
  | zero =>
    intro b hq _ _ _
    simp [GetBatteryLevel_times, hq]
  | succ n ih =>
    intro b hq hn h256 hlow
    obtain ⟨hv0, hc0⟩ := hlow 0 (Nat.succ_pos n)
    obtain ⟨s1, s2, s3, s4, s5, s6, s7⟩ := GetBatteryLevel_low b hq hv0 hc0
    have hu : u8 (b.countdown + 255) = b.countdown - 1 := by unfold u8; omega
    rw [hu] at s1 s7
    have hlow1 : ∀ i < n,
        (GetBatteryLevel b).1.hw.bat_vol_src ((GetBatteryLevel b).1.hw.bat_vol_n + i)
            ≤ BAT_VOL_EMPTY
          ∧ (GetBatteryLevel b).1.hw.charge_state_at ((GetBatteryLevel b).1.hw.i2c_n + i) = 0 := by
      intro i hi
      have := hlow (i + 1) (by omega)
      simpa [Platform.charge_state_at, s2, s3, s4, s5, Nat.add_assoc, Nat.add_comm 1 i]
        using this
    obtain ⟨r1, r2, r3, r4, r5, r6, r7⟩ :=
      ih (GetBatteryLevel b).1 s6 (by omega) (by omega) hlow1
    simp only [GetBatteryLevel_times]
    refine ⟨by omega, by omega, by omega, by rw [r4, s4], by rw [r5, s5], r6, ?_⟩
    rw [r7, s7, s1, List.append_assoc]
    congr 1
    by_cases h1 : b.countdown = 1
    · have h3 : b.countdown - 1 = 0 := by omega
      have h4 : ¬ (0 < n ∧ n = b.countdown - 1) := by omega
      have h5 : 0 < n + 1 ∧ n + 1 = b.countdown := by omega
      rw [if_pos h3, if_neg h4, if_pos h5, List.append_nil]
    · have h3 : ¬ b.countdown - 1 = 0 := by omega
      by_cases hlast : n + 1 = b.countdown
      · have h4 : 0 < n ∧ n = b.countdown - 1 := by omega
        have h5 : 0 < n + 1 ∧ n + 1 = b.countdown := by omega
        rw [if_neg h3, if_pos h4, if_pos h5, List.nil_append]
      · have h4 : ¬ (0 < n ∧ n = b.countdown - 1) := by omega
        have h5 : ¬ (0 < n + 1 ∧ n + 1 = b.countdown) := by omega
        rw [if_neg h3, if_neg h4, if_neg h5, List.append_nil]

/-- C3. On a board whose event queue exists, starting with the countdown at its initial
value 10, ten consecutive invocations of `GetBatteryLevel` that each see a voltage at or below the empty threshold and a charger
state NotCharging post a Shutdown event on the tenth invocation and on none of the first
nine; and any invocation in which the charger reports charging leaves the countdown
at 10. -/
theorem low_battery_countdown (b : Board) (hq : b.event_queue_.isSome)
    (h10 : b.countdown = 10)
    (hlow : ∀ i < 10, b.hw.bat_vol_src (b.hw.bat_vol_n + i) ≤ BAT_VOL_EMPTY
      ∧ b.hw.charge_state_at (b.hw.i2c_n + i) = 0) :
    (∀ j < 10, posted_events (GetBatteryLevel_times j b).hw.trace = posted_events b.hw.trace)
    ∧ posted_events (GetBatteryLevel_times 10 b).hw.trace
        = posted_events b.hw.trace ++ [BoardEvent.Shutdown]
    ∧ (∀ c : Board, c.hw.charge_state_at c.hw.i2c_n ≠ 0 →
        (GetBatteryLevel c).1.countdown = 10) := by
  refine ⟨?_, ?_, fun c hc => GetBatteryLevel_charging c hc⟩
  · intro j hj
    have h := (GetBatteryLevel_times_low j b hq (by omega) (by omega)
      (fun i hi => hlow i (by omega))).2.2.2.2.2.2
    have hne : ¬ (0 < j ∧ j = b.countdown) := by omega
    simpa [hne] using h
  · have h := (GetBatteryLevel_times_low 10 b hq (by omega) (by omega) hlow).2.2.2.2.2.2
    simpa [h10] using h

theorem low_battery_countdown_witness :
    (Board.boot (Platform.idle 0 3.3) 0).countdown = 10
      ∧ posted_events (GetBatteryLevel_times 10 (Board.boot (Platform.idle 0 3.3) 0)).hw.trace
          = [BoardEvent.Shutdown] :=
  ⟨rfl, by
    simpa [Board.boot, Platform.idle, posted_events] using
      (low_battery_countdown (Board.boot (Platform.idle 0 3.3) 0) rfl rfl
        (fun i _ => ⟨by norm_num [Board.boot, Platform.idle, BAT_VOL_EMPTY],
          by simp [Board.boot, Platform.idle, Platform.charge_state_at, u8]⟩)).2.1⟩

theorem GetBatteryLevel_times_add (n m : Nat) :
    ∀ b : Board, GetBatteryLevel_times (n + m) b
      = GetBatteryLevel_times m (GetBatteryLevel_times n b) := by
  induction n with
  | zero => intro b; simp [GetBatteryLevel_times]
  | succ n ih =>
    intro b
    rw [Nat.succ_add]
    simp only [GetBatteryLevel_times]
    exact ih _

theorem GetBatteryLevel_times_one (b : Board) :
    GetBatteryLevel_times 1 b = (GetBatteryLevel b).1 := by
  simp [GetBatteryLevel_times]

/-- A run of `k` low invocations, one above-threshold invocation and `m` further low
invocations, all NotCharging, with `k + m = 10` and the countdown at 10 initially. -/
theorem GetBatteryLevel_times_interrupted (b : Board) (k m : Nat)
    (hq : b.event_queue_.isSome) (h10 : b.countdown = 10) (hkm : k + m = 10)
    (hlow1 : ∀ i < k, b.hw.bat_vol_src (b.hw.bat_vol_n + i) ≤ BAT_VOL_EMPTY
      ∧ b.hw.charge_state_at (b.hw.i2c_n + i) = 0)
    (hhigh : ¬ b.hw.bat_vol_src (b.hw.bat_vol_n + k) ≤ BAT_VOL_EMPTY
      ∧ b.hw.charge_state_at (b.hw.i2c_n + k) = 0)
    (hlow2 : ∀ i < m, b.hw.bat_vol_src (b.hw.bat_vol_n + k + 1 + i) ≤ BAT_VOL_EMPTY
      ∧ b.hw.charge_state_at (b.hw.i2c_n + k + 1 + i) = 0) :
    (GetBatteryLevel_times k b).countdown = 10 - k
    ∧ (GetBatteryLevel_times (k + 1) b).countdown = 10 - k
    ∧ posted_events (GetBatteryLevel_times (k + 1) b).hw.trace
        = posted_events (GetBatteryLevel_times k b).hw.trace
    ∧ (GetBatteryLevel_times (k + 1 + m) b).countdown = 0
    ∧ posted_events (GetBatteryLevel_times (k + 1 + m) b).hw.trace
        = posted_events b.hw.trace ++ [BoardEvent.Shutdown] := by
  obtain ⟨a1, a2, a3, a4, a5, a6, a7⟩ :=
    GetBatteryLevel_times_low k b hq (by omega) (by omega) hlow1
  set bk := GetBatteryLevel_times k b with hbk
  have hvk : ¬ bk.hw.bat_vol_src bk.hw.bat_vol_n ≤ BAT_VOL_EMPTY := by
    rw [a4, a2]; exact hhigh.1
  have hck : bk.hw.charge_state_at bk.hw.i2c_n = 0 := by
    have := hhigh.2
    simpa [Platform.charge_state_at, a3, a5] using this
  obtain ⟨h1, h2, h3, h4, h5, h6, h7⟩ := GetBatteryLevel_high bk hvk hck
  have hstep : GetBatteryLevel_times (k + 1) b = (GetBatteryLevel bk).1 := by
    rw [GetBatteryLevel_times_add, GetBatteryLevel_times_one]
  set bh := (GetBatteryLevel bk).1 with hbh
  have hqh : bh.event_queue_.isSome := by rw [h6]; exact a6
  have hlowm : ∀ i < m, bh.hw.bat_vol_src (bh.hw.bat_vol_n + i) ≤ BAT_VOL_EMPTY
      ∧ bh.hw.charge_state_at (bh.hw.i2c_n + i) = 0 := by
    intro i hi
    have := hlow2 i hi
    simpa [Platform.charge_state_at, h2, h3, h4, h5, a2, a3, a4, a5] using this
  obtain ⟨m1, m2, m3, m4, m5, m6, m7⟩ :=
    GetBatteryLevel_times_low m bh hqh (by omega) (by omega) hlowm
  have hall : GetBatteryLevel_times (k + 1 + m) b = GetBatteryLevel_times m bh := by
    rw [GetBatteryLevel_times_add, hstep]
  refine ⟨by omega, by rw [hstep, h1]; omega, by rw [hstep]; exact h7,
    by rw [hall, m1]; omega, ?_⟩
  rw [hall, m7, h7, a7, List.append_assoc]
  congr 1
  by_cases hk : k = 10
  · have e1 : 0 < k ∧ k = b.countdown := by omega
    have e2 : ¬ (0 < m ∧ m = bh.countdown) := by omega
    rw [if_pos e1, if_neg e2, List.append_nil]
  · have e1 : ¬ (0 < k ∧ k = b.countdown) := by omega
    have e2 : 0 < m ∧ m = bh.countdown := by omega
    rw [if_neg e1, if_pos e2, List.nil_append]

theorem dip_with_recovery_low (i : Nat) (hi : i ≠ 9) :
    Platform.dip_with_recovery.bat_vol_src i ≤ BAT_VOL_EMPTY := by
  simp only [Platform.dip_with_recovery, Platform.idle, if_neg hi, BAT_VOL_EMPTY]
  norm_num

theorem dip_with_recovery_high :
    ¬ Platform.dip_with_recovery.bat_vol_src 9 ≤ BAT_VOL_EMPTY := by
  simp only [Platform.dip_with_recovery, Platform.idle, BAT_VOL_EMPTY]
  norm_num

theorem dip_with_recovery_not_charging (i : Nat) :
    Platform.dip_with_recovery.charge_state_at i = 0 := by
  simp [Platform.dip_with_recovery, Platform.idle, Platform.charge_state_at, u8]

/-- The hypotheses of an interrupted run hold on the platform `dip_with_recovery`, started
from the boot state, with nine low invocations before the recovery and one after. -/
theorem dip_with_recovery_run :
    (∀ i < 9,
        (Board.boot Platform.dip_with_recovery 0).hw.bat_vol_src
            ((Board.boot Platform.dip_with_recovery 0).hw.bat_vol_n + i) ≤ BAT_VOL_EMPTY
          ∧ (Board.boot Platform.dip_with_recovery 0).hw.charge_state_at
              ((Board.boot Platform.dip_with_recovery 0).hw.i2c_n + i) = 0)
    ∧ (¬ (Board.boot Platform.dip_with_recovery 0).hw.bat_vol_src
            ((Board.boot Platform.dip_with_recovery 0).hw.bat_vol_n + 9) ≤ BAT_VOL_EMPTY
          ∧ (Board.boot Platform.dip_with_recovery 0).hw.charge_state_at
              ((Board.boot Platform.dip_with_recovery 0).hw.i2c_n + 9) = 0)
    ∧ (∀ i < 1,
        (Board.boot Platform.dip_with_recovery 0).hw.bat_vol_src
            ((Board.boot Platform.dip_with_recovery 0).hw.bat_vol_n + 9 + 1 + i) ≤ BAT_VOL_EMPTY
          ∧ (Board.boot Platform.dip_with_recovery 0).hw.charge_state_at
              ((Board.boot Platform.dip_with_recovery 0).hw.i2c_n + 9 + 1 + i) = 0) := by
  have hn : (Board.boot Platform.dip_with_recovery 0).hw.bat_vol_n = 0 := rfl
  have hs : (Board.boot Platform.dip_with_recovery 0).hw = Platform.dip_with_recovery := rfl
  rw [hs] at hn ⊢
  rw [hn]
  refine ⟨fun i hi => ⟨dip_with_recovery_low _ (by omega), dip_with_recovery_not_charging _⟩,
    ⟨by simpa using dip_with_recovery_high, dip_with_recovery_not_charging _⟩,
    fun i hi => ⟨dip_with_recovery_low _ (by omega), dip_with_recovery_not_charging _⟩⟩

/-- C4, as the code has it. An invocation of `GetBatteryLevel` with the voltage above the
empty threshold and the charger NotCharging leaves the countdown at its value and posts
nothing; only an invocation that sees the charger charging sets it to 10.  So `k` low
invocations, one above-threshold invocation and `m` further low invocations, all
NotCharging and with `k + m = 10`, bring the countdown from 10 to 0 and post Shutdown
on the last of them. -/
theorem countdown_kept_above_empty (b : Board) (k m : Nat)
    (hq : b.event_queue_.isSome) (h10 : b.countdown = 10) (hkm : k + m = 10)
    (hlow1 : ∀ i < k, b.hw.bat_vol_src (b.hw.bat_vol_n + i) ≤ BAT_VOL_EMPTY
      ∧ b.hw.charge_state_at (b.hw.i2c_n + i) = 0)
    (hhigh : ¬ b.hw.bat_vol_src (b.hw.bat_vol_n + k) ≤ BAT_VOL_EMPTY
      ∧ b.hw.charge_state_at (b.hw.i2c_n + k) = 0)
    (hlow2 : ∀ i < m, b.hw.bat_vol_src (b.hw.bat_vol_n + k + 1 + i) ≤ BAT_VOL_EMPTY
      ∧ b.hw.charge_state_at (b.hw.i2c_n + k + 1 + i) = 0) :
    (GetBatteryLevel_times (k + 1) b).countdown = (GetBatteryLevel_times k b).countdown
    ∧ posted_events (GetBatteryLevel_times (k + 1) b).hw.trace
        = posted_events (GetBatteryLevel_times k b).hw.trace
    ∧ (GetBatteryLevel_times (k + 1 + m) b).countdown = 0
    ∧ posted_events (GetBatteryLevel_times (k + 1 + m) b).hw.trace
        = posted_events b.hw.trace ++ [BoardEvent.Shutdown]
    ∧ (∀ c : Board, c.hw.charge_state_at c.hw.i2c_n ≠ 0 →
        (GetBatteryLevel c).1.countdown = 10) := by
  obtain ⟨r1, r2, r3, r4, r5⟩ :=
    GetBatteryLevel_times_interrupted b k m hq h10 hkm hlow1 hhigh hlow2
  exact ⟨by rw [r1, r2], r3, r4, r5, fun c hc => GetBatteryLevel_charging c hc⟩

theorem countdown_kept_above_empty_witness :
    (GetBatteryLevel_times (9 + 1 + 1) (Board.boot Platform.dip_with_recovery 0)).countdown = 0
      ∧ posted_events
          (GetBatteryLevel_times (9 + 1 + 1) (Board.boot Platform.dip_with_recovery 0)).hw.trace
        = posted_events (Board.boot Platform.dip_with_recovery 0).hw.trace
            ++ [BoardEvent.Shutdown] :=
  ⟨(countdown_kept_above_empty (Board.boot Platform.dip_with_recovery 0) 9 1 rfl rfl rfl
      dip_with_recovery_run.1 dip_with_recovery_run.2.1 dip_with_recovery_run.2.2).2.2.1,
   (countdown_kept_above_empty (Board.boot Platform.dip_with_recovery 0) 9 1 rfl rfl rfl
      dip_with_recovery_run.1 dip_with_recovery_run.2.1 dip_with_recovery_run.2.2).2.2.2.1⟩

/-- C4, counterexample. On the platform `dip_with_recovery`, started from the boot state
(countdown 10), invocations 1 to 9 see 3.3 V, invocation 10 sees 3.7 V, above the empty
threshold, and the charger is NotCharging throughout.  After invocation 10 the countdown
is 1, not 10, and invocation 11 (3.3 V again) posts the Shutdown event. -/
theorem countdown_not_reset_above_empty :
    ¬ Platform.dip_with_recovery.bat_vol_src 9 ≤ BAT_VOL_EMPTY
    ∧ Platform.dip_with_recovery.charge_state_at 9 = 0
    ∧ (GetBatteryLevel_times 9 (Board.boot Platform.dip_with_recovery 0)).countdown = 1
    ∧ (GetBatteryLevel_times 10 (Board.boot Platform.dip_with_recovery 0)).countdown = 1
    ∧ (GetBatteryLevel_times 10 (Board.boot Platform.dip_with_recovery 0)).countdown ≠ 10
    ∧ posted_events
        (GetBatteryLevel_times 11 (Board.boot Platform.dip_with_recovery 0)).hw.trace
      = [BoardEvent.Shutdown] := by
  obtain ⟨r1, r2, -, -, r5⟩ :=
    GetBatteryLevel_times_interrupted (Board.boot Platform.dip_with_recovery 0) 9 1 rfl rfl rfl
      dip_with_recovery_run.1 dip_with_recovery_run.2.1 dip_with_recovery_run.2.2
  have e : posted_events (Board.boot Platform.dip_with_recovery 0).hw.trace = [] := rfl
  rw [e] at r5
  exact ⟨dip_with_recovery_high, dip_with_recovery_not_charging 9, r1, r2,
    by rw [show (10 : Nat) = 9 + 1 from rfl, r2]; decide, r5⟩

/-! ## Boot backoff of `StartUp` -/

theorem timer_wakeups_append (t s : List Effect) :
    timer_wakeups (t ++ s) = timer_wakeups t ++ timer_wakeups s := by
  simp [timer_wakeups]

/-- Showing the tip screen arms no timer and leaves the RTC counter alone. -/
theorem StartUp_show_tip_frame (b : Board) :
    timer_wakeups (StartUp_show_tip b).hw.trace = timer_wakeups b.hw.trace
    ∧ (StartUp_show_tip b).sleep_retry_count = b.sleep_retry_count := by
  by_cases hs : b.hw.screen = Screen.scr_tip_ <;> by_cases hp : b.panel_ <;>
    simp [StartUp_show_tip, ClearDisplay, Board.lv_screen_load, Platform.lv_screen_load,
      Board.emit, Platform.emit, hs, hp, timer_wakeups]

/-- The no-battery branch entered with counter value `n`: exactly one timer is armed, for
the `int` value of `10 + n * 10` cut to 60, times 1,000,000, as a `uint64_t`; the last call
is `esp_deep_sleep_start`, the counter returned is the `int` value of `n + 1`, and the
RTC-retained global is not written. -/
theorem StartUp_no_battery_spec (b : Board) (n : Int) :
    timer_wakeups (StartUp_no_battery b n).1.hw.trace
        = timer_wakeups b.hw.trace
          ++ [uint64_cast ((if int32_cast (10 + int32_cast (n * 10)) > 60 then 60
                else int32_cast (10 + int32_cast (n * 10))) * 1000000)]
    ∧ (StartUp_no_battery b n).1.hw.trace.getLast? = some Effect.esp_deep_sleep_start
    ∧ (StartUp_no_battery b n).2 = int32_cast (n + 1)
    ∧ (StartUp_no_battery b n).1.sleep_retry_count = b.sleep_retry_count := by
  by_cases hw : b.hw.wakeup_cause = esp_sleep_wakeup_cause_t.ESP_SLEEP_WAKEUP_TIMER
  · simp [StartUp_no_battery, hw, Board.emit, Platform.emit, timer_wakeups]
  · obtain ⟨t1, t2⟩ := StartUp_show_tip_frame
      ((b.lv_label_set_text Label.scr_tip_label_title_ ⟨"低电量充电中请等待", []⟩).lv_label_set_text
        Label.scr_tip_label_ ⟨"", []⟩)
    simp only [StartUp_no_battery, hw, Board.emit, Platform.emit, ne_eq,
      not_false_eq_true, if_true, timer_wakeups_append, t1, t2]
    simp [Board.lv_label_set_text, Platform.lv_label_set_text, Platform.emit, timer_wakeups]

/-- The `int` and `uint64_t` arithmetic of the no-battery branch for a counter value in
0 .. 214748363: nothing wraps, and the duration is `min (10 + 10 n) 60`. -/
theorem StartUp_sleep_duration_in_range (n : Int) (h0 : 0 ≤ n) (hn : n ≤ 214748363) :
    uint64_cast ((if int32_cast (10 + int32_cast (n * 10)) > 60 then 60
        else int32_cast (10 + int32_cast (n * 10))) * 1000000)
      = min (10 + 10 * n) 60 * 1000000 := by
  have e1 : int32_cast (n * 10) = n * 10 := by
    unfold int32_cast
    omega
  have e2 : int32_cast (10 + n * 10) = 10 + n * 10 := by
    unfold int32_cast
    omega
  rw [e1, e2]
  have hmin : (if 10 + n * 10 > 60 then 60 else 10 + n * 10) = min (10 + 10 * n) 60 := by
    split <;> omega
  rw [hmin]
  unfold uint64_cast
  omega

/-- Function `StartUp` on a board whose gauge is not detected: the branch is entered with the
local counter, which is 0, so the timer is armed for 10 s whatever the RTC-retained
counter holds, and that counter is left as it was. -/
theorem StartUp_not_detected (fuel : Nat) (b : Board) (h : b.hw.battery_detected = false) :
    StartUp fuel b = StartUpResult.deep_sleep (StartUp_no_battery b 0).1
    ∧ timer_wakeups (StartUp_no_battery b 0).1.hw.trace
        = timer_wakeups b.hw.trace ++ [10000000]
    ∧ (StartUp_no_battery b 0).1.sleep_retry_count = b.sleep_retry_count := by
  obtain ⟨h1, -, -, h4⟩ := StartUp_no_battery_spec b 0
  refine ⟨by simp [StartUp, h], ?_, h4⟩
  rw [h1, StartUp_sleep_duration_in_range 0 (le_refl 0) (by norm_num)]; norm_num

/-- C5, the code at the failing input. First boot after power-on and second boot on the
timer wake-up from the first boot's deep sleep, the gauge undetected on both, the
RTC-retained counter carried over: both boots arm the timer for 10,000,000 µs, and the
RTC-retained counter is still 0 after the first. -/
theorem StartUp_second_boot_sleeps_10s :
    ∃ b1 b2 : Board,
      StartUp 0 (Board.boot
          (Platform.no_battery esp_sleep_wakeup_cause_t.ESP_SLEEP_WAKEUP_UNDEFINED) 0)
        = StartUpResult.deep_sleep b1
      ∧ timer_wakeups b1.hw.trace = [10000000]
      ∧ b1.sleep_retry_count = 0
      ∧ StartUp 0 (Board.boot
          (Platform.no_battery esp_sleep_wakeup_cause_t.ESP_SLEEP_WAKEUP_TIMER)
          b1.sleep_retry_count)
        = StartUpResult.deep_sleep b2
      ∧ timer_wakeups b2.hw.trace = [10000000] := by
  obtain ⟨a1, a2, a3⟩ := StartUp_not_detected 0
    (Board.boot (Platform.no_battery esp_sleep_wakeup_cause_t.ESP_SLEEP_WAKEUP_UNDEFINED) 0) rfl
  obtain ⟨c1, c2, -⟩ := StartUp_not_detected 0
    (Board.boot (Platform.no_battery esp_sleep_wakeup_cause_t.ESP_SLEEP_WAKEUP_TIMER)
      (StartUp_no_battery (Board.boot
        (Platform.no_battery esp_sleep_wakeup_cause_t.ESP_SLEEP_WAKEUP_UNDEFINED) 0)
        0).1.sleep_retry_count) rfl
  exact ⟨_, _, a1, by rw [a2]; rfl, by rw [a3]; rfl, c1, by rw [c2]; rfl⟩

/-! ## Shutdown -/

theorem GetChargeState_eq (hw : Platform) :
    Aw32001.GetChargeState hw
      = (hw.charge_state_at hw.i2c_n,
          { hw with i2c_n := hw.i2c_n + 1,
                    trace := hw.trace ++ [Effect.i2c_read 0x08 (u8 (hw.i2c_rx hw.i2c_n))] }) := by
  simp [Aw32001.GetChargeState, Aw32001.ReadReg, Platform.charge_state_at]

/-- C7. When `GetChargeState()` returns a non-zero value, `Shutdown()` changes nothing of
the board but the platform trace and the bus read counter: it does the one read of
register 0x08, sets the two tip labels (title "充电中不能关机"), loads the tip screen,
refreshes, waits 1000 ms and loads the screen that was active on entry.  No register is
written, no GPIO is driven, and the active screen at return is the one found on entry. -/
theorem Shutdown_refused_while_charging (b : Board)
    (h : b.hw.charge_state_at b.hw.i2c_n ≠ 0) :
    Shutdown b
      = { b with
          hw := { b.hw with
            i2c_n := b.hw.i2c_n + 1,
            trace := b.hw.trace ++
              [Effect.i2c_read 0x08 (u8 (b.hw.i2c_rx b.hw.i2c_n)),
               Effect.lv_label_set_text Label.scr_tip_label_title_ ⟨"充电中不能关机", []⟩,
               Effect.lv_label_set_text Label.scr_tip_label_ ⟨"", []⟩,
               Effect.lv_screen_load Screen.scr_tip_,
               Effect.lv_refr_now,
               Effect.vTaskDelay 1000,
               Effect.lv_screen_load b.hw.screen] } }
    ∧ (Shutdown b).hw.screen = b.hw.screen
    ∧ (∀ e ∈ (Shutdown b).hw.trace.drop b.hw.trace.length,
        (∀ reg value, e ≠ Effect.i2c_write reg value)
        ∧ (∀ pin level, e ≠ Effect.gpio_set_level pin level)) := by
  have hs : Shutdown b
      = { b with
          hw := { b.hw with
            i2c_n := b.hw.i2c_n + 1,
            trace := b.hw.trace ++
              [Effect.i2c_read 0x08 (u8 (b.hw.i2c_rx b.hw.i2c_n)),
               Effect.lv_label_set_text Label.scr_tip_label_title_ ⟨"充电中不能关机", []⟩,
               Effect.lv_label_set_text Label.scr_tip_label_ ⟨"", []⟩,
               Effect.lv_screen_load Screen.scr_tip_,
               Effect.lv_refr_now,
               Effect.vTaskDelay 1000,
               Effect.lv_screen_load b.hw.screen] } } := by
    simp [Shutdown, GetChargeState_eq, h, Board.lv_label_set_text, Board.lv_screen_load,
      Board.emit, Board.vTaskDelay, Platform.lv_label_set_text, Platform.lv_screen_load,
      Platform.emit, Platform.vTaskDelay]
  refine ⟨hs, by rw [hs], ?_⟩
  rw [hs]
  intro e he
  simp only [List.drop_left, List.mem_cons, List.mem_singleton, List.not_mem_nil,
    or_false] at he
  rcases he with he | he | he | he | he | he | he <;> subst he <;> simp

theorem Shutdown_refused_while_charging_witness :
    (Shutdown (Board.boot (Platform.idle 0x10 3.7) 0)).hw.screen = Screen.scr_main_ :=
  (Shutdown_refused_while_charging (Board.boot (Platform.idle 0x10 3.7) 0)
    (by simp [Board.boot, Platform.idle, Platform.charge_state_at, u8])).2.1

/-! ## Sleep: sampling on a timer wake-up -/

/-- One sample of the sampling loop: it consumes one voltage sample, reads the charger
only if the voltage is at or below the empty threshold, and counts the sample as low
exactly when the voltage is low and the charge state read is 0. -/
theorem Sleep_sample_spec (b : Board) (low_count : Nat) :
    (Sleep_sample b low_count).1.hw.bat_vol_n = b.hw.bat_vol_n + 1
    ∧ (Sleep_sample b low_count).1.hw.bat_vol_src = b.hw.bat_vol_src
    ∧ (Sleep_sample b low_count).1.hw.i2c_rx = b.hw.i2c_rx
    ∧ (Sleep_sample b low_count).1.hw.i2c_n
        = (if b.hw.bat_vol_src b.hw.bat_vol_n ≤ BAT_VOL_EMPTY then b.hw.i2c_n + 1
           else b.hw.i2c_n)
    ∧ (Sleep_sample b low_count).2
        = (if b.hw.bat_vol_src b.hw.bat_vol_n ≤ BAT_VOL_EMPTY
              ∧ b.hw.charge_state_at b.hw.i2c_n = 0 then low_count + 1
           else low_count) := by
  unfold Platform.charge_state_at
  by_cases hv : b.hw.bat_vol_src b.hw.bat_vol_n ≤ BAT_VOL_EMPTY <;>
    by_cases hc : (u8 (b.hw.i2c_rx b.hw.i2c_n) >>> 3) &&& 0x03 = 0 <;>
    simp [Sleep_sample, Platform.getVolt, GetChargeState_eq, Platform.charge_state_at,
      Board.vTaskDelay, Platform.vTaskDelay, Platform.emit, hv, hc]

/-- The sampling loop run for `n` samples: it takes exactly `n` voltage samples, and the
count rises by `n` exactly when every sample has a voltage at or below the empty
threshold and a charge state of 0. -/
theorem Sleep_samples_spec (n : Nat) :
    ∀ (b : Board) (low_count : Nat),
      (Sleep_samples n b low_count).1.hw.bat_vol_n = b.hw.bat_vol_n + n
      ∧ (Sleep_samples n b low_count).2 ≤ low_count + n
      ∧ ((Sleep_samples n b low_count).2 = low_count + n ↔
          ∀ i < n, b.hw.bat_vol_src (b.hw.bat_vol_n + i) ≤ BAT_VOL_EMPTY
            ∧ b.hw.charge_state_at (b.hw.i2c_n + i) = 0) := by
  induction n with
  | zero => intro b low_count; simp [Sleep_samples]
  | succ n ih =>
    intro b low_count
    obtain ⟨s1, s2, s3, s4, s5⟩ := Sleep_sample_spec b low_count
    obtain ⟨r1, r2, r3⟩ := ih (Sleep_sample b low_count).1 (Sleep_sample b low_count).2
    simp only [Sleep_samples]
    refine ⟨by omega, ?_, ?_⟩
    · have : (Sleep_sample b low_count).2 ≤ low_count + 1 := by
        rw [s5]; split <;> omega
      omega
    · by_cases hlow : b.hw.bat_vol_src b.hw.bat_vol_n ≤ BAT_VOL_EMPTY
          ∧ b.hw.charge_state_at b.hw.i2c_n = 0
      · rw [if_pos hlow] at s5
        rw [if_pos hlow.1] at s4
        rw [s5] at r3 ⊢
        rw [show low_count + (n + 1) = low_count + 1 + n by omega, r3]
        constructor
        · intro h i hi
          rcases Nat.eq_zero_or_pos i with h0 | hpos
          · subst h0; simpa using hlow
          · have := h (i - 1) (by omega)
            have e1 : b.hw.bat_vol_n + 1 + (i - 1) = b.hw.bat_vol_n + i := by omega
            have e2 : b.hw.i2c_n + 1 + (i - 1) = b.hw.i2c_n + i := by omega
            simpa [Platform.charge_state_at, s1, s2, s3, s4, e1, e2] using this
        · intro h i hi
          have := h (i + 1) (by omega)
          have e1 : b.hw.bat_vol_n + 1 + i = b.hw.bat_vol_n + (i + 1) := by omega
          have e2 : b.hw.i2c_n + 1 + i = b.hw.i2c_n + (i + 1) := by omega
          simpa [Platform.charge_state_at, s1, s2, s3, s4, e1, e2] using this
      · rw [if_neg hlow] at s5
        rw [s5] at r2 ⊢
        constructor
        · intro h
          omega
        · intro h
          exact absurd (by simpa using h 0 (Nat.succ_pos n)) hlow

/-- The head of the loop body leaves the sample streams and their counters alone and sets
the wake-up cause to the next entry of the wake-up stream. -/
theorem Sleep_light_sleep_frame (b : Board) :
    (Sleep_light_sleep b).hw.bat_vol_n = b.hw.bat_vol_n
    ∧ (Sleep_light_sleep b).hw.bat_vol_src = b.hw.bat_vol_src
    ∧ (Sleep_light_sleep b).hw.i2c_n = b.hw.i2c_n
    ∧ (Sleep_light_sleep b).hw.i2c_rx = b.hw.i2c_rx
    ∧ (Sleep_light_sleep b).hw.wakeup_cause = b.hw.wake_src b.hw.wake_n
    ∧ (Sleep_light_sleep b).hw.trace
        = b.hw.trace ++ [Effect.esp_task_wdt_reset,
            Effect.esp_sleep_enable_timer_wakeup 300000000, Effect.esp_light_sleep_start] := by
  simp [Sleep_light_sleep, Board.emit, Platform.emit, Platform.esp_light_sleep_start]

/-- The three ways one pass through the wait loop of `Sleep` can go. -/
theorem Sleep_wait_step (fuel : Nat) (b : Board) :
    (b.hw.wake_src b.hw.wake_n ≠ esp_sleep_wakeup_cause_t.ESP_SLEEP_WAKEUP_TIMER →
      Sleep_wait (fuel + 1) b = some (Sleep_light_sleep b, false))
    ∧ (b.hw.wake_src b.hw.wake_n = esp_sleep_wakeup_cause_t.ESP_SLEEP_WAKEUP_TIMER →
        (∀ i < 5, b.hw.bat_vol_src (b.hw.bat_vol_n + i) ≤ BAT_VOL_EMPTY
          ∧ b.hw.charge_state_at (b.hw.i2c_n + i) = 0) →
        Sleep_wait (fuel + 1) b
          = some (Shutdown (Sleep_samples SAMPLE_COUNT (Sleep_light_sleep b) 0).1, true))
    ∧ (b.hw.wake_src b.hw.wake_n = esp_sleep_wakeup_cause_t.ESP_SLEEP_WAKEUP_TIMER →
        ¬ (∀ i < 5, b.hw.bat_vol_src (b.hw.bat_vol_n + i) ≤ BAT_VOL_EMPTY
          ∧ b.hw.charge_state_at (b.hw.i2c_n + i) = 0) →
        Sleep_wait (fuel + 1) b
          = Sleep_wait fuel (Sleep_samples SAMPLE_COUNT (Sleep_light_sleep b) 0).1) := by
  obtain ⟨f1, f2, f3, f4, f5, -⟩ := Sleep_light_sleep_frame b
  obtain ⟨-, r2, r3⟩ := Sleep_samples_spec SAMPLE_COUNT (Sleep_light_sleep b) 0
  have hiff : (Sleep_samples SAMPLE_COUNT (Sleep_light_sleep b) 0).2 ≥ SAMPLE_COUNT ↔
      ∀ i < 5, b.hw.bat_vol_src (b.hw.bat_vol_n + i) ≤ BAT_VOL_EMPTY
        ∧ b.hw.charge_state_at (b.hw.i2c_n + i) = 0 := by
    have e : (Sleep_samples SAMPLE_COUNT (Sleep_light_sleep b) 0).2 ≥ SAMPLE_COUNT
        ↔ (Sleep_samples SAMPLE_COUNT (Sleep_light_sleep b) 0).2 = 0 + SAMPLE_COUNT := by
      constructor <;> intro h <;> omega
    rw [e, r3]
    simp only [Platform.charge_state_at, f1, f2, f3, f4, SAMPLE_COUNT]
  refine ⟨?_, ?_, ?_⟩
  · intro hw
    simp [Sleep_wait, f5, hw]
  · intro hw hall
    have := hiff.mpr hall
    simp [Sleep_wait, f5, hw, this]
  · intro hw hnot
    have : ¬ (Sleep_samples SAMPLE_COUNT (Sleep_light_sleep b) 0).2 ≥ SAMPLE_COUNT :=
      fun h => hnot (hiff.mp h)
    simp only [Sleep_wait, f5, hw, if_true, this, if_false]

/-- C9. On a timer wake-up inside the wait loop of `Sleep`, exactly 5 voltage samples are
taken, and `Shutdown()` is invoked (after which `Sleep` returns) if and only if each of
the 5 samples has a voltage at or below the empty threshold together with charge state
NotCharging; otherwise the loop goes on without invoking it. -/
theorem Sleep_escalates_iff_five_low (fuel : Nat) (b : Board)
    (hw : b.hw.wake_src b.hw.wake_n = esp_sleep_wakeup_cause_t.ESP_SLEEP_WAKEUP_TIMER) :
    (Sleep_samples SAMPLE_COUNT (Sleep_light_sleep b) 0).1.hw.bat_vol_n = b.hw.bat_vol_n + 5
    ∧ ((Sleep_samples SAMPLE_COUNT (Sleep_light_sleep b) 0).2 ≥ SAMPLE_COUNT ↔
        ∀ i < 5, b.hw.bat_vol_src (b.hw.bat_vol_n + i) ≤ BAT_VOL_EMPTY
          ∧ b.hw.charge_state_at (b.hw.i2c_n + i) = 0)
    ∧ ((∀ i < 5, b.hw.bat_vol_src (b.hw.bat_vol_n + i) ≤ BAT_VOL_EMPTY
          ∧ b.hw.charge_state_at (b.hw.i2c_n + i) = 0) →
        Sleep_wait (fuel + 1) b
          = some (Shutdown (Sleep_samples SAMPLE_COUNT (Sleep_light_sleep b) 0).1, true))
    ∧ (¬ (∀ i < 5, b.hw.bat_vol_src (b.hw.bat_vol_n + i) ≤ BAT_VOL_EMPTY
          ∧ b.hw.charge_state_at (b.hw.i2c_n + i) = 0) →
        Sleep_wait (fuel + 1) b
          = Sleep_wait fuel (Sleep_samples SAMPLE_COUNT (Sleep_light_sleep b) 0).1) := by
  obtain ⟨f1, f2, f3, f4, -, -⟩ := Sleep_light_sleep_frame b
  obtain ⟨r1, r2, r3⟩ := Sleep_samples_spec SAMPLE_COUNT (Sleep_light_sleep b) 0
  obtain ⟨-, k2, k3⟩ := Sleep_wait_step fuel b
  refine ⟨by rw [r1, f1]; rfl, ?_, k2 hw, k3 hw⟩
  have e : (Sleep_samples SAMPLE_COUNT (Sleep_light_sleep b) 0).2 ≥ SAMPLE_COUNT
      ↔ (Sleep_samples SAMPLE_COUNT (Sleep_light_sleep b) 0).2 = 0 + SAMPLE_COUNT := by
    constructor <;> intro h <;> omega
  rw [e, r3]
  simp only [Platform.charge_state_at, f1, f2, f3, f4, SAMPLE_COUNT]

theorem Sleep_escalates_iff_five_low_witness :
    (Sleep_samples SAMPLE_COUNT
        (Sleep_light_sleep (Board.boot (Platform.idle 0 3.3) 0)) 0).1.hw.bat_vol_n
      = (Board.boot (Platform.idle 0 3.3) 0).hw.bat_vol_n + 5 :=
  (Sleep_escalates_iff_five_low 0 (Board.boot (Platform.idle 0 3.3) 0) rfl).1

/-! ## Sleep: leaving the wait loop -/

/-- One sample touches neither the wake-up stream nor its counter. -/
theorem Sleep_sample_wake (b : Board) (low_count : Nat) :
    (Sleep_sample b low_count).1.hw.wake_src = b.hw.wake_src
    ∧ (Sleep_sample b low_count).1.hw.wake_n = b.hw.wake_n := by
  by_cases hv : b.hw.bat_vol_src b.hw.bat_vol_n ≤ BAT_VOL_EMPTY <;>
    by_cases hc : (u8 (b.hw.i2c_rx b.hw.i2c_n) >>> 3) &&& 0x03 = 0 <;>
    simp [Sleep_sample, Platform.getVolt, GetChargeState_eq, Platform.charge_state_at,
      Board.vTaskDelay, Platform.vTaskDelay, Platform.emit, hv, hc]

/-- The sampling loop touches neither the wake-up stream nor its counter. -/
theorem Sleep_samples_wake (n : Nat) :
    ∀ (b : Board) (low_count : Nat),
      (Sleep_samples n b low_count).1.hw.wake_src = b.hw.wake_src
      ∧ (Sleep_samples n b low_count).1.hw.wake_n = b.hw.wake_n := by
  induction n with
  | zero => intro b low_count; simp [Sleep_samples]
  | succ n ih =>
    intro b low_count
    obtain ⟨s1, s2⟩ := Sleep_sample_wake b low_count
    obtain ⟨r1, r2⟩ := ih (Sleep_sample b low_count).1 (Sleep_sample b low_count).2
    simp only [Sleep_samples]
    exact ⟨by rw [r1, s1], by rw [r2, s2]⟩

/-- What the part of `Sleep` before the loop returns and leaves alone. -/
theorem Sleep_enter_frame (b : Board) :
    (Sleep_enter b).2 = (b.hw.screen, b.hw.wake_word_running)
    ∧ (Sleep_enter b).1.hw.wake_src = b.hw.wake_src
    ∧ (Sleep_enter b).1.hw.wake_n = b.hw.wake_n := by
  cases hr : b.hw.wake_word_running <;>
    simp [Sleep_enter, hr, Board.emit, Board.vTaskDelay, Board.lv_screen_load, Platform.emit,
      Platform.vTaskDelay, Platform.lv_screen_load, Platform.EnableWakeWordDetection]

/-- What the part of `Sleep` after the loop does: it loads the saved screen, enables codec
input and output, starts the audio service, enables wake-word detection if it was
running before, and wakes the power-save timer if there is one. -/
theorem Sleep_resume_spec (b : Board) (scr : Screen) (running : Bool) :
    (Sleep_resume b scr running).hw.trace
      = b.hw.trace
        ++ [Effect.lv_screen_load scr, Effect.codec_EnableInput true,
            Effect.codec_EnableOutput true, Effect.audio_service_Start]
        ++ (if running then [Effect.EnableWakeWordDetection true] else [])
        ++ (if b.power_save_timer_.isSome then [Effect.power_save_timer_WakeUp] else [])
    ∧ (Sleep_resume b scr running).hw.screen = scr := by
  cases running <;> cases hp : b.power_save_timer_ <;>
    simp [Sleep_resume, hp, Board.emit, Board.lv_screen_load, Platform.emit,
      Platform.lv_screen_load, Platform.EnableWakeWordDetection]

/-- C10, as the code has it. On a timer wake-up on which not all 5 samples are low and
NotCharging, `Shutdown()` is not invoked and `Sleep()` stays in its wait loop: the next
thing it does is feed the watchdog, arm the timer and light-sleep again.  The loop is left
by `break` only on a wake-up whose cause is not the timer, be it the first or the one
after such a timer wake-up; `Sleep()` then loads the screen that was active when it was
entered, re-enables codec input and output, restarts the audio service, re-enables
wake-word detection if it was running, and wakes the power-save timer if there is one. -/
theorem Sleep_reenters_light_sleep (fuel : Nat) (b : Board) :
    (b.hw.wake_src b.hw.wake_n = esp_sleep_wakeup_cause_t.ESP_SLEEP_WAKEUP_TIMER →
      ¬ (∀ i < 5, b.hw.bat_vol_src (b.hw.bat_vol_n + i) ≤ BAT_VOL_EMPTY
          ∧ b.hw.charge_state_at (b.hw.i2c_n + i) = 0) →
      Sleep_wait (fuel + 1) b
          = Sleep_wait fuel (Sleep_samples SAMPLE_COUNT (Sleep_light_sleep b) 0).1
        ∧ Sleep_wait 1 b = none
        ∧ (b.hw.wake_src (b.hw.wake_n + 1) ≠ esp_sleep_wakeup_cause_t.ESP_SLEEP_WAKEUP_TIMER →
            Sleep_wait (fuel + 2) b
              = some (Sleep_light_sleep
                  (Sleep_samples SAMPLE_COUNT (Sleep_light_sleep b) 0).1, false)))
    ∧ (b.hw.wake_src b.hw.wake_n ≠ esp_sleep_wakeup_cause_t.ESP_SLEEP_WAKEUP_TIMER →
        Sleep (fuel + 1) b
          = some (Sleep_resume (Sleep_light_sleep (Sleep_enter b).1)
              b.hw.screen b.hw.wake_word_running)
        ∧ (Sleep_resume (Sleep_light_sleep (Sleep_enter b).1)
              b.hw.screen b.hw.wake_word_running).hw.screen = b.hw.screen
        ∧ (Sleep_resume (Sleep_light_sleep (Sleep_enter b).1)
              b.hw.screen b.hw.wake_word_running).hw.trace
            = (Sleep_light_sleep (Sleep_enter b).1).hw.trace
              ++ [Effect.lv_screen_load b.hw.screen, Effect.codec_EnableInput true,
                  Effect.codec_EnableOutput true, Effect.audio_service_Start]
              ++ (if b.hw.wake_word_running then [Effect.EnableWakeWordDetection true] else [])
              ++ (if (Sleep_light_sleep (Sleep_enter b).1).power_save_timer_.isSome
                  then [Effect.power_save_timer_WakeUp] else [])) := by
  refine ⟨?_, ?_⟩
  · intro hw hnot
    have h1 := (Sleep_wait_step fuel b).2.2 hw hnot
    have h0 := (Sleep_wait_step 0 b).2.2 hw hnot
    refine ⟨h1, by rw [h0]; rfl, ?_⟩
    intro hnext
    have h2 := (Sleep_wait_step (fuel + 1) b).2.2 hw hnot
    rw [h2]
    obtain ⟨w1, w2⟩ := Sleep_samples_wake SAMPLE_COUNT (Sleep_light_sleep b) 0
    have w3 : (Sleep_light_sleep b).hw.wake_src = b.hw.wake_src
        ∧ (Sleep_light_sleep b).hw.wake_n = b.hw.wake_n + 1 := by
      simp [Sleep_light_sleep, Board.emit, Platform.emit, Platform.esp_light_sleep_start]
    apply (Sleep_wait_step fuel _).1
    rw [w1, w2, w3.1, w3.2]
    exact hnext
  · intro hw
    obtain ⟨e1, e2, e3⟩ := Sleep_enter_frame b
    have hw1 : (Sleep_enter b).1.hw.wake_src (Sleep_enter b).1.hw.wake_n
        ≠ esp_sleep_wakeup_cause_t.ESP_SLEEP_WAKEUP_TIMER := by
      rw [e2, e3]; exact hw
    have hs := (Sleep_wait_step fuel (Sleep_enter b).1).1 hw1
    obtain ⟨t1, t2⟩ := Sleep_resume_spec (Sleep_light_sleep (Sleep_enter b).1)
      b.hw.screen b.hw.wake_word_running
    refine ⟨?_, t2, t1⟩
    have hsplit : Sleep_enter b
        = ((Sleep_enter b).1, b.hw.screen, b.hw.wake_word_running) := by
      rw [← e1]
    unfold Sleep
    rw [hsplit]
    simp only [hs]

theorem timer_then_gpio_not_low :
    ¬ (∀ i < 5,
        (Board.boot Platform.timer_then_gpio 0).hw.bat_vol_src
            ((Board.boot Platform.timer_then_gpio 0).hw.bat_vol_n + i) ≤ BAT_VOL_EMPTY
          ∧ (Board.boot Platform.timer_then_gpio 0).hw.charge_state_at
              ((Board.boot Platform.timer_then_gpio 0).hw.i2c_n + i) = 0) := by
  intro h
  have h0 := (h 0 (by decide)).1
  simp only [Board.boot, Platform.timer_then_gpio, Platform.idle, BAT_VOL_EMPTY] at h0
  norm_num at h0

theorem Sleep_reenters_light_sleep_witness :
    Sleep_wait 1 (Board.boot Platform.timer_then_gpio 0) = none :=
  ((Sleep_reenters_light_sleep 0 (Board.boot Platform.timer_then_gpio 0)).1 rfl
    timer_then_gpio_not_low).2.1

/-- C10, counterexample. Battery at 3.7 V, charger NotCharging, first light sleep ended
by the timer, second by a GPIO wake-up, `Sleep()` entered from the boot state with the
main screen active.  After the timer wake-up and its five samples above the empty
threshold the trace goes on with watchdog reset, timer arming and a second
`esp_light_sleep_start`: the screen is reloaded and audio re-enabled only after the GPIO
wake-up.  With a bound of one light sleep `Sleep()` has not returned. -/
theorem Sleep_timer_wakeup_does_not_resume :
    Sleep 1 (Board.boot Platform.timer_then_gpio 0) = none
    ∧ (Sleep 2 (Board.boot Platform.timer_then_gpio 0)).map (fun b => b.hw.trace)
      = some
          [Effect.EnableWakeWordDetection false, Effect.vTaskDelay 100,
           Effect.codec_EnableInput false, Effect.codec_EnableOutput false,
           Effect.audio_service_Stop, Effect.lv_screen_load Screen.scr_sleep_,
           Effect.lv_refr_now, Effect.vTaskDelay 100,
           Effect.esp_task_wdt_reset, Effect.esp_sleep_enable_timer_wakeup 300000000,
           Effect.esp_light_sleep_start,
           Effect.vTaskDelay 20, Effect.vTaskDelay 20, Effect.vTaskDelay 20,
           Effect.vTaskDelay 20, Effect.vTaskDelay 20,
           Effect.esp_task_wdt_reset, Effect.esp_sleep_enable_timer_wakeup 300000000,
           Effect.esp_light_sleep_start,
           Effect.lv_screen_load Screen.scr_main_, Effect.codec_EnableInput true,
           Effect.codec_EnableOutput true, Effect.audio_service_Start,
           Effect.EnableWakeWordDetection true, Effect.power_save_timer_WakeUp] := by
  have hv : ¬ ((3.7 : ℚ) ≤ 3.4) := by norm_num
  constructor <;>
    simp [Sleep, Sleep_enter, Sleep_wait, Sleep_light_sleep, Sleep_samples, Sleep_sample,
      Sleep_resume, SAMPLE_COUNT, Board.boot, Platform.timer_then_gpio, Platform.idle,
      BAT_VOL_EMPTY, Board.emit, Board.vTaskDelay, Board.lv_screen_load, Platform.emit,
      Platform.vTaskDelay, Platform.lv_screen_load, Platform.EnableWakeWordDetection,
      Platform.esp_light_sleep_start, Platform.getVolt, hv]

/-! ## Shutdown and the worker loop -/

theorem or_20_bit (r : Nat) (hr : r < 256) :
    u8 (u8 (r ||| (1 <<< 5))) &&& 0x20 = 0x20 := by
  unfold u8
  interval_cases r <;> rfl

/-- Function `SetShippingMode(true)`: read and write of register 0x0C, then read of register 0x06
and write of the byte read with bit 5 set. -/
theorem SetShippingMode_true_trace (hw : Platform) :
    (Aw32001.SetShippingMode hw true).trace
      = hw.trace ++
        [Effect.i2c_read 0x0C (u8 (hw.i2c_rx hw.i2c_n)),
         Effect.i2c_write 0x0C (u8 (u8 (u8 (hw.i2c_rx hw.i2c_n) &&& 0x0B))),
         Effect.i2c_read 0x06 (u8 (hw.i2c_rx (hw.i2c_n + 1))),
         Effect.i2c_write 0x06 (u8 (u8 (u8 (hw.i2c_rx (hw.i2c_n + 1)) ||| (1 <<< 5))))] := by
  simp [Aw32001.SetShippingMode, Aw32001.ReadReg, Aw32001.WriteReg, Platform.emit]

/-- The modem wait of `Shutdown` does not touch the event queue. -/
theorem Shutdown_wait_modem_queue (n : Nat) :
    ∀ b : Board, (Shutdown_wait_modem n b).event_queue_ = b.event_queue_ := by
  induction n with
  | zero => intro b; rfl
  | succ n ih =>
    intro b
    by_cases hm : b.modem_powered_on_
    · simp [Shutdown_wait_modem, hm]
    · simp only [Shutdown_wait_modem, hm, Bool.false_eq_true, if_false]
      rw [ih]
      rfl

/-- Function `Shutdown` does not touch the event queue. -/
theorem Shutdown_event_queue (b : Board) : (Shutdown b).event_queue_ = b.event_queue_ := by
  by_cases hc : b.hw.charge_state_at b.hw.i2c_n = 0
  · cases hn : b.hw.network_type <;> by_cases hp : b.panel_ <;>
      simp [Shutdown, GetChargeState_eq, hc, hn, hp, ClearDisplay, PowerOffModem,
        Shutdown_wait_modem_queue, Board.emit, Board.vTaskDelay, Board.lv_screen_load,
        Platform.lv_screen_load, Platform.emit]
  · simp [Shutdown, GetChargeState_eq, hc, Board.emit, Board.vTaskDelay,
      Board.lv_screen_load, Board.lv_label_set_text]

/-- Function `Shutdown` with the charger NotCharging ends with the write of register 0x06, bit 5
(FET_DIS) set, followed by the 3000 ms hold; then it returns. -/
theorem Shutdown_ends_with_shipping_mode (b : Board)
    (hc : b.hw.charge_state_at b.hw.i2c_n = 0) :
    ∃ front value, (Shutdown b).hw.trace
        = front ++ [Effect.i2c_write 0x06 value, Effect.vTaskDelay 3000]
      ∧ value &&& 0x20 = 0x20 := by
  have key : ∀ hw : Platform, ∃ front value,
      (Aw32001.SetShippingMode hw true).trace ++ [Effect.vTaskDelay 3000]
        = front ++ [Effect.i2c_write 0x06 value, Effect.vTaskDelay 3000]
      ∧ value &&& 0x20 = 0x20 := by
    intro hw
    refine ⟨hw.trace ++ [Effect.i2c_read 0x0C (u8 (hw.i2c_rx hw.i2c_n)),
         Effect.i2c_write 0x0C (u8 (u8 (u8 (hw.i2c_rx hw.i2c_n) &&& 0x0B))),
         Effect.i2c_read 0x06 (u8 (hw.i2c_rx (hw.i2c_n + 1)))],
      u8 (u8 (u8 (hw.i2c_rx (hw.i2c_n + 1)) ||| (1 <<< 5))), ?_, or_20_bit _ (u8_lt _)⟩
    rw [SetShippingMode_true_trace]
    simp
  cases hn : b.hw.network_type <;>
    simp only [Shutdown, GetChargeState_eq, hc, hn, ne_eq, not_true_eq_false, if_false,
      Board.vTaskDelay, Platform.vTaskDelay, Platform.emit] <;>
    exact key _

/-- One iteration of the worker loop on a non-empty queue: the watchdog is fed, the oldest
event is taken off the queue and dispatched, and the loop goes on. -/
theorem BoardEventTask_loop_step (n fuel : Nat) (b : Board) (event : BoardEvent)
    (rest : List BoardEvent) (hq : b.event_queue_ = some (event :: rest)) :
    BoardEventTask_loop (n + 1) fuel b
      = (HandleBoardEvent fuel
          { b.emit Effect.esp_task_wdt_reset with event_queue_ := some rest } event).bind
          (BoardEventTask_loop n fuel) := by
  have hq1 : (b.emit Effect.esp_task_wdt_reset).event_queue_ = some (event :: rest) := by
    simpa [Board.emit] using hq
  conv_lhs => unfold BoardEventTask_loop
  simp only [hq1]
  cases HandleBoardEvent fuel
    { b.emit Effect.esp_task_wdt_reset with event_queue_ := some rest } event <;> rfl

/-- C8, as the code has it. A Shutdown event dispatched while the charger reports
NotCharging makes `Shutdown()` write the shipping-mode command (register 0x06 with bit 5
set), hold 3000 ms and return to the worker loop; the loop has no terminal state: its
next iteration feeds the watchdog and dispatches the next event of the queue. -/
theorem Shutdown_returns_to_worker_loop (n fuel : Nat) (b : Board) (e : BoardEvent)
    (rest : List BoardEvent)
    (hq : b.event_queue_ = some (BoardEvent.Shutdown :: e :: rest))
    (hc : b.hw.charge_state_at b.hw.i2c_n = 0) :
    (∃ front value,
        (Shutdown { b.emit Effect.esp_task_wdt_reset with
            event_queue_ := some (e :: rest) }).hw.trace
          = front ++ [Effect.i2c_write 0x06 value, Effect.vTaskDelay 3000]
        ∧ value &&& 0x20 = 0x20)
    ∧ BoardEventTask_loop (n + 2) fuel b
        = (HandleBoardEvent fuel
            { (Shutdown { b.emit Effect.esp_task_wdt_reset with
                  event_queue_ := some (e :: rest) }).emit Effect.esp_task_wdt_reset with
              event_queue_ := some rest } e).bind (BoardEventTask_loop n fuel) := by
  constructor
  · apply Shutdown_ends_with_shipping_mode
    simpa [Board.emit, Platform.emit, Platform.charge_state_at] using hc
  · have hq2 : (Shutdown { b.emit Effect.esp_task_wdt_reset with
          event_queue_ := some (e :: rest) }).event_queue_ = some (e :: rest) := by
      rw [Shutdown_event_queue]
    rw [show n + 2 = (n + 1) + 1 from rfl, BoardEventTask_loop_step (n + 1) fuel b _ _ hq]
    show Option.bind (some (Shutdown _)) (BoardEventTask_loop (n + 1) fuel) = _
    rw [Option.some_bind, BoardEventTask_loop_step n fuel _ _ _ hq2]

theorem Shutdown_returns_to_worker_loop_witness :
    ∃ front value,
      (Shutdown { Board.two_pending.emit Effect.esp_task_wdt_reset with
          event_queue_ := some [BoardEvent.SwitchNetWork] }).hw.trace
        = front ++ [Effect.i2c_write 0x06 value, Effect.vTaskDelay 3000]
      ∧ value &&& 0x20 = 0x20 :=
  (Shutdown_returns_to_worker_loop 0 0 Board.two_pending BoardEvent.SwitchNetWork [] rfl
    (by simp [Board.two_pending, Board.boot, Platform.idle, Platform.charge_state_at, u8])).1

/-- C8, counterexample. Boot state, 3.7 V, charger NotCharging, Wi-Fi path, a Shutdown
event and a SwitchNetWork event in the queue.  Two iterations of the worker loop: the
first dispatches Shutdown, which writes the shipping-mode command (0x20 to register
0x06) and holds 3000 ms; the second feeds the watchdog and dispatches SwitchNetWork, and
the queue is empty afterwards. -/
theorem worker_dispatches_after_shutdown :
    (BoardEventTask_loop 2 0 Board.two_pending).map (fun b => (b.hw.trace, b.event_queue_))
      = some
          ([Effect.esp_task_wdt_reset,
            Effect.i2c_read 0x08 0,
            Effect.draw_bitmap_full 0, Effect.lv_screen_load Screen.scr_shutdown_,
            Effect.lv_refr_now, Effect.esp_task_wdt_delete,
            Effect.vTaskDelay 300, Effect.vTaskDelay 300, Effect.vTaskDelay 300,
            Effect.vTaskDelay 300, Effect.vTaskDelay 300, Effect.vTaskDelay 300,
            Effect.vTaskDelay 300, Effect.vTaskDelay 300, Effect.vTaskDelay 300,
            Effect.vTaskDelay 300,
            Effect.i2c_read 0x0C 0, Effect.i2c_write 0x0C 0,
            Effect.i2c_read 0x06 0, Effect.i2c_write 0x06 0x20,
            Effect.vTaskDelay 3000,
            Effect.esp_task_wdt_reset,
            Effect.SwitchNetworkType],
           some []) := by
  rfl

/-! ## Charger driver: the other setters -/

theorem SetCharge_bits (r : Nat) (hr : r < 256) :
    (u8 (u8 (u8 (r &&& 0xFFFFFFF7) ||| 0x07)) % 8 = 7
      ∧ u8 (u8 (u8 (r &&& 0xFFFFFFF7) ||| 0x07)) / 8 % 2 = 0
      ∧ u8 (u8 (u8 (r &&& 0xFFFFFFF7) ||| 0x07)) / 16 = r / 16)
    ∧ (u8 (u8 (u8 (r ||| (1 <<< 3)) ||| 0x07)) % 8 = 7
      ∧ u8 (u8 (u8 (r ||| (1 <<< 3)) ||| 0x07)) / 8 % 2 = 1
      ∧ u8 (u8 (u8 (r ||| (1 <<< 3)) ||| 0x07)) / 16 = r / 16) := by
  unfold u8
  interval_cases r <;> decide

/-- C14. `SetCharge(en)` does one read of register 0x01 and one write to it; bits 2:0 of
the byte written are 0b111, bit 3 is 0 when `en` is true and 1 when it is false, and bits
7:4 are those of the byte `r` that was read. -/
theorem SetCharge_field (hw : Platform) (en : Bool) :
    ∃ v, (Aw32001.SetCharge hw en).trace
          = hw.trace ++ [Effect.i2c_read 0x01 (u8 (hw.i2c_rx hw.i2c_n)), Effect.i2c_write 0x01 v]
      ∧ v < 256
      ∧ v % 8 = 7
      ∧ v / 8 % 2 = (if en then 0 else 1)
      ∧ v / 16 = u8 (hw.i2c_rx hw.i2c_n) / 16 := by
  obtain ⟨⟨a1, a2, a3⟩, b1, b2, b3⟩ := SetCharge_bits _ (u8_lt (hw.i2c_rx hw.i2c_n))
  cases en
  · exact ⟨_, by simp [Aw32001.SetCharge, Aw32001.ReadReg, Aw32001.WriteReg, Platform.emit],
      u8_lt _, b1, b2, b3⟩
  · exact ⟨_, by simp [Aw32001.SetCharge, Aw32001.ReadReg, Aw32001.WriteReg, Platform.emit],
      u8_lt _, a1, a2, a3⟩

/-- A low field of `i` bits kept by a mask and a value shifted above it combine to
`2^i * value + r % 2^i`. -/
theorem low_field_or_shift (r value i : Nat) :
    (r &&& (2 ^ i - 1)) ||| (value <<< i) = 2 ^ i * value + r % 2 ^ i := by
  rw [Nat.and_pow_two_sub_one_eq_mod, Nat.shiftLeft_eq, Nat.lor_comm, Nat.mul_comm value]
  exact (Nat.mul_add_lt_is_or (Nat.mod_lt _ (Nat.two_pow_pos i)) value).symm

/-- C16. `SetDischargeCurrent(c)` does one read of register 0x03 and one write to it; bits
7:4 of the byte written are `clamp(c,200,3200)/200 - 1`, a value in 0..15, and bits 3:0
are those of the byte `r` that was read. -/
theorem SetDischargeCurrent_field (hw : Platform) (c : Nat) :
    ∃ v, (Aw32001.SetDischargeCurrent hw c).trace
          = hw.trace ++ [Effect.i2c_read 0x03 (u8 (hw.i2c_rx hw.i2c_n)), Effect.i2c_write 0x03 v]
      ∧ v < 256
      ∧ v / 16 = min (max c 200) 3200 / 200 - 1
      ∧ min (max c 200) 3200 / 200 - 1 ≤ 15
      ∧ v % 16 = u8 (hw.i2c_rx hw.i2c_n) % 16 := by
  have hr := u8_lt (hw.i2c_rx hw.i2c_n)
  set r := u8 (hw.i2c_rx hw.i2c_n) with hrdef
  have hm : (if (if c < 200 then 200 else c) > 3200 then 3200 else (if c < 200 then 200 else c))
      = min (max c 200) 3200 := by
    split_ifs <;> omega
  set q := min (max c 200) 3200 / 200 - 1 with hq
  have hq15 : q ≤ 15 := by omega
  have hlev : u8 q = q := u8_of_lt (by omega)
  have hand : u8 (r &&& 0x0F) = r % 16 := by
    have := Nat.and_pow_two_sub_one_eq_mod r 4
    rw [show (0x0F : Nat) = 2 ^ 4 - 1 from rfl, this]
    exact u8_of_lt (by omega)
  have hor : (r % 16) ||| (q <<< 4) = 16 * q + r % 16 := by
    have := low_field_or_shift (r % 16) q 4
    rw [Nat.and_pow_two_sub_one_eq_mod, Nat.mod_mod] at this
    simpa using this
  have hv : u8 (u8 (16 * q + r % 16)) = 16 * q + r % 16 := by
    rw [u8_of_lt (u8_lt _)]
    exact u8_of_lt (by omega)
  refine ⟨16 * q + r % 16, ?_, by omega, by omega, hq15, by omega⟩
  simp only [Aw32001.SetDischargeCurrent, Aw32001.ReadReg, Aw32001.WriteReg, Platform.emit, hm,
    ← hrdef, ← hq, hlev, hand, hor, hv]
  simp

/-- C17. `SetChargeVoltage(v)` does one read of register 0x04 and one write to it; bits 7:2
of the byte written are `(clamp(v,3600,4545) - 3600)/15`, a value in 0..63, and bits 1:0
are those of the byte `r` that was read. -/
theorem SetChargeVoltage_field (hw : Platform) (v : Nat) :
    ∃ w, (Aw32001.SetChargeVoltage hw v).trace
          = hw.trace ++ [Effect.i2c_read 0x04 (u8 (hw.i2c_rx hw.i2c_n)), Effect.i2c_write 0x04 w]
      ∧ w < 256
      ∧ w / 4 = (min (max v 3600) 4545 - 3600) / 15
      ∧ (min (max v 3600) 4545 - 3600) / 15 ≤ 63
      ∧ w % 4 = u8 (hw.i2c_rx hw.i2c_n) % 4 := by
  have hr := u8_lt (hw.i2c_rx hw.i2c_n)
  set r := u8 (hw.i2c_rx hw.i2c_n) with hrdef
  have hm : (if (if v < 3600 then 3600 else v) > 4545 then 4545
      else (if v < 3600 then 3600 else v)) = min (max v 3600) 4545 := by
    split_ifs <;> omega
  set q := (min (max v 3600) 4545 - 3600) / 15 with hq
  have hq63 : q ≤ 63 := by omega
  have hlev : u8 q = q := u8_of_lt (by omega)
  have hor : (r &&& 0x03) ||| (q <<< 2) = 4 * q + r % 4 := by
    have := low_field_or_shift r q 2
    simpa using this
  have hv : u8 (u8 (4 * q + r % 4)) = 4 * q + r % 4 := by
    rw [u8_of_lt (u8_lt _)]
    exact u8_of_lt (by omega)
  refine ⟨4 * q + r % 4, ?_, by omega, by omega, hq63, by omega⟩
  simp only [Aw32001.SetChargeVoltage, Aw32001.ReadReg, Aw32001.WriteReg, Platform.emit, hm,
    ← hrdef, ← hq, hlev, hor, hv]
  simp

theorem SetWatchdog_bits (r bits : Nat) (hr : r < 256) (hb : bits < 4) :
    (u8 (u8 (u8 (u8 (r ||| (1 <<< 7)) &&& 0xFFFFFF9F) ||| (bits <<< 5))) / 128 = 1
      ∧ u8 (u8 (u8 (u8 (r ||| (1 <<< 7)) &&& 0xFFFFFF9F) ||| (bits <<< 5))) / 32 % 4 = bits
      ∧ u8 (u8 (u8 (u8 (r ||| (1 <<< 7)) &&& 0xFFFFFF9F) ||| (bits <<< 5))) % 32 = r % 32)
    ∧ (u8 (u8 (u8 (u8 (r &&& 0xFFFFFF7F) &&& 0xFFFFFF9F) ||| (bits <<< 5))) / 128 = 0
      ∧ u8 (u8 (u8 (u8 (r &&& 0xFFFFFF7F) &&& 0xFFFFFF9F) ||| (bits <<< 5))) / 32 % 4 = bits
      ∧ u8 (u8 (u8 (u8 (r &&& 0xFFFFFF7F) &&& 0xFFFFFF9F) ||| (bits <<< 5))) % 32 = r % 32) := by
  unfold u8
  interval_cases bits <;> interval_cases r <;> decide

/-- The two transactions of `SetWatchdog` for a recognised timeout with field code `bits`. -/
theorem SetWatchdog_accepted (hw : Platform) (t flag bits : Nat)
    (ht : (t = 0 ∧ bits = 0) ∨ (t = 40 ∧ bits = 1) ∨ (t = 80 ∧ bits = 2)
      ∨ (t = 160 ∧ bits = 3)) :
    (Aw32001.SetWatchdog hw t flag).trace
      = hw.trace ++
        [Effect.i2c_read 0x05 (u8 (hw.i2c_rx hw.i2c_n)),
         Effect.i2c_write 0x05
          (u8 (u8 (u8 ((if flag ≠ 0 then u8 (u8 (hw.i2c_rx hw.i2c_n) ||| (1 <<< 7))
                        else u8 (u8 (hw.i2c_rx hw.i2c_n) &&& 0xFFFFFF7F)) &&& 0xFFFFFF9F)
                ||| (bits <<< 5))))] := by
  rcases ht with ⟨h, hb⟩ | ⟨h, hb⟩ | ⟨h, hb⟩ | ⟨h, hb⟩ <;> subst h <;> subst hb <;>
    simp [Aw32001.SetWatchdog, Aw32001.ReadReg, Aw32001.WriteReg, Platform.emit]

/-- C18. For a timeout `t` among 0, 40, 80, 160 `SetWatchdog(t, flag)` does one read of
register 0x05 and one write to it; bits 6:5 of the byte written are 0, 1, 2, 3 for
`t` = 0, 40, 80, 160, bit 7 is 1 exactly when `flag` is non-zero, and bits 4:0 are those
of the byte `r` that was read. -/
theorem SetWatchdog_field (hw : Platform) (t flag bits : Nat)
    (ht : (t = 0 ∧ bits = 0) ∨ (t = 40 ∧ bits = 1) ∨ (t = 80 ∧ bits = 2)
      ∨ (t = 160 ∧ bits = 3)) :
    ∃ v, (Aw32001.SetWatchdog hw t flag).trace
          = hw.trace ++ [Effect.i2c_read 0x05 (u8 (hw.i2c_rx hw.i2c_n)), Effect.i2c_write 0x05 v]
      ∧ v < 256
      ∧ v / 32 % 4 = bits
      ∧ v / 128 = (if flag ≠ 0 then 1 else 0)
      ∧ v % 32 = u8 (hw.i2c_rx hw.i2c_n) % 32 := by
  have hb : bits < 4 := by omega
  obtain ⟨⟨a1, a2, a3⟩, b1, b2, b3⟩ := SetWatchdog_bits _ bits (u8_lt (hw.i2c_rx hw.i2c_n)) hb
  have e := SetWatchdog_accepted hw t flag bits ht
  by_cases hf : flag ≠ 0
  · rw [if_pos hf] at e ⊢
    exact ⟨_, e, u8_lt _, a2, a1, a3⟩
  · rw [if_neg hf] at e ⊢
    exact ⟨_, e, u8_lt _, b2, b1, b3⟩

theorem SetWatchdog_field_witness :
    ∃ v, (Aw32001.SetWatchdog (Platform.idle 0x1F 3.7) 80 1).trace
          = (Platform.idle 0x1F 3.7).trace
            ++ [Effect.i2c_read 0x05 (u8 ((Platform.idle 0x1F 3.7).i2c_rx
                  (Platform.idle 0x1F 3.7).i2c_n)), Effect.i2c_write 0x05 v]
      ∧ v < 256
      ∧ v / 32 % 4 = 2
      ∧ v / 128 = (if 1 ≠ 0 then 1 else 0)
      ∧ v % 32 = u8 ((Platform.idle 0x1F 3.7).i2c_rx (Platform.idle 0x1F 3.7).i2c_n) % 32 :=
  SetWatchdog_field (Platform.idle 0x1F 3.7) 80 1 2 (Or.inr (Or.inr (Or.inl ⟨rfl, rfl⟩)))

theorem SetShippingMode_bits (r : Nat) (hr : r < 256) :
    u8 (u8 (r ||| (1 <<< 5))) = r ||| 0x20
    ∧ (r ||| 0x20) / 32 % 2 = 1
    ∧ (r ||| 0x20) / 64 = r / 64
    ∧ (r ||| 0x20) % 32 = r % 32
    ∧ u8 (u8 (r &&& 0x0B)) = r &&& 0x0B := by
  unfold u8
  interval_cases r <;> decide

/-- C19. `SetShippingMode(true)` does four bus transactions and nothing else: a read of
register 0x0C, a write to 0x0C of the byte read ANDed with 0x0B, a read of register 0x06,
and a write to 0x06 of the byte `r` read with bit 5 set and every other bit as in `r`. -/
theorem SetShippingMode_true_field (hw : Platform) :
    (Aw32001.SetShippingMode hw true).trace
      = hw.trace ++
        [Effect.i2c_read 0x0C (u8 (hw.i2c_rx hw.i2c_n)),
         Effect.i2c_write 0x0C (u8 (hw.i2c_rx hw.i2c_n) &&& 0x0B),
         Effect.i2c_read 0x06 (u8 (hw.i2c_rx (hw.i2c_n + 1))),
         Effect.i2c_write 0x06 (u8 (hw.i2c_rx (hw.i2c_n + 1)) ||| 0x20)]
    ∧ (u8 (hw.i2c_rx (hw.i2c_n + 1)) ||| 0x20) / 32 % 2 = 1
    ∧ (u8 (hw.i2c_rx (hw.i2c_n + 1)) ||| 0x20) / 64 = u8 (hw.i2c_rx (hw.i2c_n + 1)) / 64
    ∧ (u8 (hw.i2c_rx (hw.i2c_n + 1)) ||| 0x20) % 32 = u8 (hw.i2c_rx (hw.i2c_n + 1)) % 32 := by
  obtain ⟨-, -, -, -, c0⟩ := SetShippingMode_bits _ (u8_lt (hw.i2c_rx hw.i2c_n))
  obtain ⟨c1, c2, c3, c4, -⟩ := SetShippingMode_bits _ (u8_lt (hw.i2c_rx (hw.i2c_n + 1)))
  refine ⟨?_, c2, c3, c4⟩
  rw [SetShippingMode_true_trace, c0, c1]

theorem SetPreChargeCurrent_bits (r k : Nat) (hr : r < 256) (hk : k < 16) :
    u8 (u8 (u8 (u8 (r &&& 0xE1) ||| (u8 (k <<< 1) &&& 0x1E)) ||| 0x01)) / 32 = r / 32
    ∧ u8 (u8 (u8 (u8 (r &&& 0xE1) ||| (u8 (k <<< 1) &&& 0x1E)) ||| 0x01)) / 2 % 16 = k
    ∧ u8 (u8 (u8 (u8 (r &&& 0xE1) ||| (u8 (k <<< 1) &&& 0x1E)) ||| 0x01)) % 2 = 1 := by
  unfold u8
  interval_cases k <;> interval_cases r <;> decide

/-- C15, as the code has it. `SetPreChargeCurrent(c)` does one read of register 0x0B and
one write to it; bits 7:5 of the byte written are those of the byte `r` that was read,
bits 4:1 hold `clamp(c,1,31)/2`, and bit 0 is always written as 1 (the 100 ms USB plug-in
debounce setting), whatever it was in `r`. -/
theorem SetPreChargeCurrent_field (hw : Platform) (c : Nat) :
    ∃ v, (Aw32001.SetPreChargeCurrent hw c).trace
          = hw.trace ++ [Effect.i2c_read 0x0B (u8 (hw.i2c_rx hw.i2c_n)), Effect.i2c_write 0x0B v]
      ∧ v < 256
      ∧ v / 32 = u8 (hw.i2c_rx hw.i2c_n) / 32
      ∧ v / 2 % 16 = min (max c 1) 31 / 2
      ∧ v % 2 = 1 := by
  have hm : (if (if c < 1 then 1 else c) > 31 then 31 else (if c < 1 then 1 else c))
      = min (max c 1) 31 := by
    split_ifs <;> omega
  have hk : min (max c 1) 31 / 2 < 16 := by omega
  obtain ⟨b1, b2, b3⟩ := SetPreChargeCurrent_bits _ _ (u8_lt (hw.i2c_rx hw.i2c_n)) hk
  refine ⟨_, ?_, u8_lt _, b1, b2, b3⟩
  simp only [Aw32001.SetPreChargeCurrent, Aw32001.ReadReg, Aw32001.WriteReg, Platform.emit, hm]
  simp

/-- C15, counterexample. Register 0x0B reads 0x00 and the input is 1 mA: the byte
written is 0x01, so bit 0, which lies outside the pre-charge current field (bits 4:1),
is 1 in the written byte and 0 in the byte read. -/
theorem SetPreChargeCurrent_sets_bit0 :
    (Aw32001.SetPreChargeCurrent (Platform.idle 0x00 3.7) 1).trace
      = [Effect.i2c_read 0x0B 0x00, Effect.i2c_write 0x0B 0x01]
    ∧ 0x01 % 2 ≠ 0x00 % 2 := by
  exact ⟨rfl, by decide⟩

/-! ## Charger driver: leaving shipping mode -/

theorem total_delay_append (s t : List Effect) :
    total_delay (s ++ t) = total_delay s + total_delay t := by
  induction s with
  | nil => simp [total_delay]
  | cons e s ih =>
    cases e <;> simp [total_delay, ih, Nat.add_assoc]

theorem total_delay_poll_misses (vals : List Nat) :
    total_delay (Aw32001.poll_misses vals) = 100 * vals.length := by
  induction vals with
  | nil => rfl
  | cons v vs ih =>
    simp only [Aw32001.poll_misses, total_delay, ih, List.length_cons]
    omega

/-- The poll loop with `n` iterations left: it misses `k ≤ n` times, each miss being a read
of register 0x06 that is not 0x40 followed by a 100 ms wait, and then either has used up
its iterations (`k = n`) or ends on a read that returns 0x40. -/
theorem SetShippingMode_poll_spec (n : Nat) :
    ∀ (hw : Platform) (val : Nat), ∃ k, k ≤ n
      ∧ (∀ j < k, u8 (hw.i2c_rx (hw.i2c_n + j)) ≠ 0x40)
      ∧ (k < n → u8 (hw.i2c_rx (hw.i2c_n + k)) = 0x40)
      ∧ (Aw32001.SetShippingMode_poll n hw val).2.trace
          = hw.trace
            ++ Aw32001.poll_misses ((List.range k).map fun j => u8 (hw.i2c_rx (hw.i2c_n + j)))
            ++ (if k < n then [Effect.i2c_read 0x06 0x40] else [])
      ∧ (Aw32001.SetShippingMode_poll n hw val).2.i2c_n
          = hw.i2c_n + (if k < n then k + 1 else k) := by
  induction n with
  | zero =>
    intro hw val
    exact ⟨0, le_refl 0, by simp, by simp, by simp [Aw32001.SetShippingMode_poll,
      Aw32001.poll_misses], by simp [Aw32001.SetShippingMode_poll]⟩
  | succ n ih =>
    intro hw val
    by_cases hit : u8 (hw.i2c_rx hw.i2c_n) = 0x40
    · refine ⟨0, Nat.zero_le _, by simp, fun _ => by simpa using hit, ?_, ?_⟩
      · simp [Aw32001.SetShippingMode_poll, Aw32001.ReadReg, hit, Aw32001.poll_misses]
      · simp [Aw32001.SetShippingMode_poll, Aw32001.ReadReg, hit]
    · obtain ⟨k, hk, hmiss, hhit, htr, hn⟩ :=
        ih (({ hw with i2c_n := hw.i2c_n + 1,
                       trace := hw.trace ++ [Effect.i2c_read 0x06 (u8 (hw.i2c_rx hw.i2c_n))] }
              : Platform).vTaskDelay 100) (u8 (hw.i2c_rx hw.i2c_n))
      have hstep : Aw32001.SetShippingMode_poll (n + 1) hw val
          = Aw32001.SetShippingMode_poll n
              (({ hw with i2c_n := hw.i2c_n + 1,
                          trace := hw.trace ++ [Effect.i2c_read 0x06 (u8 (hw.i2c_rx hw.i2c_n))] }
                : Platform).vTaskDelay 100) (u8 (hw.i2c_rx hw.i2c_n)) := by
        simp [Aw32001.SetShippingMode_poll, Aw32001.ReadReg, hit]
      simp only [Platform.vTaskDelay, Platform.emit] at hmiss hhit htr hn
      refine ⟨k + 1, by omega, ?_, ?_, ?_, ?_⟩
      · intro j hj
        rcases Nat.eq_zero_or_pos j with h0 | hpos
        · subst h0; simpa using hit
        · have := hmiss (j - 1) (by omega)
          rwa [show hw.i2c_n + 1 + (j - 1) = hw.i2c_n + j by omega] at this
      · intro hlt
        have := hhit (by omega)
        rwa [show hw.i2c_n + 1 + k = hw.i2c_n + (k + 1) by omega] at this
      · rw [hstep]
        simp only [Platform.vTaskDelay, Platform.emit]
        rw [htr, List.range_succ_eq_map, List.map_cons, List.map_map, Aw32001.poll_misses]
        have hf : ((fun j => u8 (hw.i2c_rx (hw.i2c_n + j))) ∘ Nat.succ)
            = fun j => u8 (hw.i2c_rx (hw.i2c_n + 1 + j)) := by
          funext j
          simp [Nat.succ_eq_add_one, Nat.add_assoc, Nat.add_comm 1 j]
        rw [hf]
        by_cases hlt : k < n
        · have hlt1 : k + 1 < n + 1 := by omega
          simp [hlt, hlt1]
        · have hlt1 : ¬ k + 1 < n + 1 := by omega
          simp [hlt, hlt1]
      · rw [hstep]
        simp only [Platform.vTaskDelay, Platform.emit]
        rw [hn]
        by_cases hlt : k < n
        · have hlt1 : k + 1 < n + 1 := by omega
          rw [if_pos hlt, if_pos hlt1]; omega
        · have hlt1 : ¬ k + 1 < n + 1 := by omega
          rw [if_neg hlt, if_neg hlt1]; omega

/-- C13. `SetShippingMode(false)` always returns.  After the read and write of register
0x0C and the first read of register 0x06, its poll loop misses `k ≤ 10` times, each miss
being a read of register 0x06 that does not return 0x40 followed by a 100 ms wait.  It
ends on the first read that returns 0x40, or after 10 misses, and the function then does
its final write to register 0x06.  The loop reads at most 10 times and the waits add up
to `100 k ≤ 1000` ms. -/
theorem SetShippingMode_false_bounded (hw : Platform) :
    ∃ k final, k ≤ 10
      ∧ (∀ j < k, u8 (hw.i2c_rx (hw.i2c_n + 2 + j)) ≠ 0x40)
      ∧ (k < 10 → u8 (hw.i2c_rx (hw.i2c_n + 2 + k)) = 0x40)
      ∧ (Aw32001.SetShippingMode hw false).trace
          = hw.trace
            ++ [Effect.i2c_read 0x0C (u8 (hw.i2c_rx hw.i2c_n)),
                Effect.i2c_write 0x0C (u8 (u8 (u8 (hw.i2c_rx hw.i2c_n) &&& 0x0B))),
                Effect.i2c_read 0x06 (u8 (hw.i2c_rx (hw.i2c_n + 1)))]
            ++ Aw32001.poll_misses
                ((List.range k).map fun j => u8 (hw.i2c_rx (hw.i2c_n + 2 + j)))
            ++ (if k < 10 then [Effect.i2c_read 0x06 0x40] else [])
            ++ [Effect.i2c_write 0x06 final]
      ∧ (if k < 10 then k + 1 else k) ≤ 10
      ∧ total_delay (Aw32001.SetShippingMode hw false).trace = total_delay hw.trace + 100 * k
      ∧ 100 * k ≤ 1000 := by
  have hdef : ∀ hw2 : Platform, ∀ v0 : Nat,
      hw2 = ((Aw32001.WriteReg (Aw32001.ReadReg hw 0x0C).2 0x0C
              (u8 ((Aw32001.ReadReg hw 0x0C).1 &&& 0x0B))) |> fun h =>
                (Aw32001.ReadReg h 0x06).2) →
      v0 = u8 ((Aw32001.ReadReg (Aw32001.WriteReg (Aw32001.ReadReg hw 0x0C).2 0x0C
              (u8 ((Aw32001.ReadReg hw 0x0C).1 &&& 0x0B))) 0x06).1 &&& 0xFFFFFFDF) →
      Aw32001.SetShippingMode hw false
        = Aw32001.WriteReg (Aw32001.SetShippingMode_poll 10 hw2 v0).2 0x06
            (Aw32001.SetShippingMode_poll 10 hw2 v0).1 := by
    intro hw2 v0 h2 h0
    subst h2; subst h0
    rfl
  obtain ⟨hw2, h2⟩ : ∃ x, x = ((Aw32001.WriteReg (Aw32001.ReadReg hw 0x0C).2 0x0C
              (u8 ((Aw32001.ReadReg hw 0x0C).1 &&& 0x0B))) |> fun h =>
                (Aw32001.ReadReg h 0x06).2) := ⟨_, rfl⟩
  obtain ⟨v0, h0⟩ : ∃ x, x = u8 ((Aw32001.ReadReg (Aw32001.WriteReg
              (Aw32001.ReadReg hw 0x0C).2 0x0C
              (u8 ((Aw32001.ReadReg hw 0x0C).1 &&& 0x0B))) 0x06).1 &&& 0xFFFFFFDF) := ⟨_, rfl⟩
  have hd := hdef hw2 v0 h2 h0
  have e1 : hw2.i2c_n = hw.i2c_n + 2 := by rw [h2]; rfl
  have e2 : hw2.i2c_rx = hw.i2c_rx := by rw [h2]; rfl
  have e3 : hw2.trace = hw.trace
      ++ [Effect.i2c_read 0x0C (u8 (hw.i2c_rx hw.i2c_n)),
          Effect.i2c_write 0x0C (u8 (u8 (u8 (hw.i2c_rx hw.i2c_n) &&& 0x0B))),
          Effect.i2c_read 0x06 (u8 (hw.i2c_rx (hw.i2c_n + 1)))] := by
    rw [h2]
    simp [Aw32001.ReadReg, Aw32001.WriteReg, Platform.emit]
  obtain ⟨k, hk, hmiss, hhit, htr, -⟩ := SetShippingMode_poll_spec 10 hw2 v0
  rw [e1, e2] at hmiss hhit htr
  rw [e3] at htr
  refine ⟨k, u8 (Aw32001.SetShippingMode_poll 10 hw2 v0).1, hk, hmiss, hhit, ?_,
    by split <;> omega, ?_, by omega⟩
  · rw [hd]
    simp only [Aw32001.WriteReg, Platform.emit]
    rw [htr]
  · rw [hd]
    simp only [Aw32001.WriteReg, Platform.emit]
    rw [htr]
    by_cases hlt : k < 10 <;>
      simp [hlt, total_delay_append, total_delay_poll_misses, total_delay]

/-! ## Gauge driver: word reads -/

theorem word_of_bytes (b0 b1 : Nat) (h0 : b0 < 256) (h1 : b1 < 256) :
    u16 ((u16 b1 <<< 8) ||| b0) = b0 + 256 * b1 := by
  have e1 : u16 b1 = b1 := by unfold u16; omega
  have e2 : (b1 <<< 8) ||| b0 = 2 ^ 8 * b1 + b0 := by
    rw [Nat.shiftLeft_eq, Nat.mul_comm b1]
    exact (Nat.mul_add_lt_is_or (i := 8) h0 b1).symm
  rw [e1, e2]
  unfold u16
  omega

/-- The word that `readWord` returns: the first byte of the transaction is the low byte,
the second the high byte; the transaction is one read of 2 bytes at the 8-bit address. -/
theorem readWord_eq (g : GaugeBus) (subAddress : Nat) :
    Bq27220.readWord g subAddress
      = (u8 (g.rx g.n 0) + 256 * u8 (g.rx g.n 1),
          { g with n := g.n + 1, log := g.log ++ [GaugeOp.read (u8 subAddress) 2] }) := by
  have h := word_of_bytes _ _ (u8_lt (g.rx g.n 0)) (u8_lt (g.rx g.n 1))
  simp only [Bq27220.readWord, Bq27220.i2cReadBytes]
  simp [List.range_succ, h]

theorem int16_cast_eq (w : Nat) (hw : w < 65536) :
    int16_cast w = if w < 32768 then (w : Int) else (w : Int) - 65536 := by
  have e : u16 w = w := by unfold u16; omega
  simp [int16_cast, e]

/-- C20. `readWord` returns `b0 + 256 * b1` for the bytes `b0`, `b1` that its read
transaction delivers; `getVolt` returns that word unsigned for each of its three modes and
`getCurr` returns it reinterpreted as a 16-bit two's complement number for each of its
five modes; for any other mode `getVolt` returns 0 and `getCurr` returns -1, without a
transaction. -/
theorem gauge_words (cmd : Bq27220Commands) (g : GaugeBus) (subAddress other : Nat) :
    (Bq27220.readWord g subAddress).1 = u8 (g.rx g.n 0) + 256 * u8 (g.rx g.n 1)
    ∧ (Bq27220.getVolt cmd g VOLT_MODE.VOLT).1 = u8 (g.rx g.n 0) + 256 * u8 (g.rx g.n 1)
    ∧ (Bq27220.getVolt cmd g VOLT_MODE.VOLT_CHARGING).1
        = u8 (g.rx g.n 0) + 256 * u8 (g.rx g.n 1)
    ∧ (Bq27220.getVolt cmd g VOLT_MODE.VOLT_RWA).1 = u8 (g.rx g.n 0) + 256 * u8 (g.rx g.n 1)
    ∧ (∀ m, m = CURR_MODE.CURR_RAW ∨ m = CURR_MODE.CURR_INSTANT ∨ m = CURR_MODE.CURR_STANDBY
          ∨ m = CURR_MODE.CURR_CHARGING ∨ m = CURR_MODE.CURR_AVERAGE →
        (Bq27220.getCurr cmd g m).1
          = if u8 (g.rx g.n 0) + 256 * u8 (g.rx g.n 1) < 32768
            then ((u8 (g.rx g.n 0) + 256 * u8 (g.rx g.n 1) : Nat) : Int)
            else ((u8 (g.rx g.n 0) + 256 * u8 (g.rx g.n 1) : Nat) : Int) - 65536)
    ∧ Bq27220.getVolt cmd g (VOLT_MODE.other other) = (0, g)
    ∧ Bq27220.getCurr cmd g (CURR_MODE.other other) = (-1, g) := by
  have hw : u8 (g.rx g.n 0) + 256 * u8 (g.rx g.n 1) < 65536 := by
    have := u8_lt (g.rx g.n 0)
    have := u8_lt (g.rx g.n 1)
    omega
  have hc := int16_cast_eq _ hw
  refine ⟨by rw [readWord_eq], by simp [Bq27220.getVolt, readWord_eq],
    by simp [Bq27220.getVolt, readWord_eq], by simp [Bq27220.getVolt, readWord_eq], ?_,
    rfl, rfl⟩
  intro m hm
  rcases hm with h | h | h | h | h <;> subst h <;>
    simp only [Bq27220.getCurr, readWord_eq, hc]

theorem gauge_words_witness :
    (Bq27220.getCurr
        { BQ27220_COMMAND_VOLT := 0x08, BQ27220_COMMAND_CHARGING_VOLT := 0x30,
          BQ27220_COMMAND_RAW_VOLT := 0x7C, BQ27220_COMMAND_RAW_CURR := 0x7A,
          BQ27220_COMMAND_CURR := 0x0C, BQ27220_COMMAND_STANDBY_CURR := 0x12,
          BQ27220_COMMAND_CHARGING_CURR := 0x32, BQ27220_COMMAND_AVG_CURR := 0x14 }
        (GaugeBus.const 0x9C 0xFF) CURR_MODE.CURR_INSTANT).1 = -100 := by
  have h := (gauge_words
      { BQ27220_COMMAND_VOLT := 0x08, BQ27220_COMMAND_CHARGING_VOLT := 0x30,
        BQ27220_COMMAND_RAW_VOLT := 0x7C, BQ27220_COMMAND_RAW_CURR := 0x7A,
        BQ27220_COMMAND_CURR := 0x0C, BQ27220_COMMAND_STANDBY_CURR := 0x12,
        BQ27220_COMMAND_CHARGING_CURR := 0x32, BQ27220_COMMAND_AVG_CURR := 0x14 }
      (GaugeBus.const 0x9C 0xFF) 0 0).2.2.2.2.1 CURR_MODE.CURR_INSTANT (Or.inr (Or.inl rfl))
  rw [h]
  decide

/-! ## Battery level: raw level and filter -/

theorem raw_level_linear (x : ℚ) :
    (x - BAT_VOL_EMPTY) / (BAT_VOL_FULL - BAT_VOL_EMPTY) * 100 = 125 * x - 425 := by
  simp only [BAT_VOL_EMPTY, BAT_VOL_FULL]
  norm_num
  ring

theorem raw_level_eq (x : ℚ) :
    GetBatteryLevel_raw_level x
      = if x ≥ BAT_VOL_FULL then 100 else max 0 (125 * x - 425) := by
  unfold GetBatteryLevel_raw_level
  simp only [raw_level_linear]
  split_ifs with h1 h2
  · rfl
  · rw [max_eq_left (le_of_lt h2)]
  · rw [max_eq_right (le_of_not_lt h2)]

theorem raw_level_bounds (x : ℚ) :
    0 ≤ GetBatteryLevel_raw_level x ∧ GetBatteryLevel_raw_level x ≤ 100 := by
  rw [raw_level_eq]
  simp only [BAT_VOL_FULL]
  split_ifs with h
  · norm_num
  · have hx : x < 4.2 := lt_of_not_le h
    refine ⟨le_max_left _ _, max_le (by norm_num) ?_⟩
    norm_num at hx
    linarith

theorem raw_level_mono (x y : ℚ) (hxy : x ≤ y) :
    GetBatteryLevel_raw_level x ≤ GetBatteryLevel_raw_level y := by
  by_cases hy : y ≥ BAT_VOL_FULL
  · have : GetBatteryLevel_raw_level y = 100 := by rw [raw_level_eq, if_pos hy]
    rw [this]
    exact (raw_level_bounds x).2
  · have hx : ¬ x ≥ BAT_VOL_FULL := fun h => hy (le_trans h hxy)
    rw [raw_level_eq, raw_level_eq, if_neg hx, if_neg hy]
    exact max_le_max (le_refl 0) (by linarith)

/-- The raw level in exact arithmetic for a voltage `bat_vol`: it is 100 when
`bat_vol ≥ 4.2` and `max 0 ((bat_vol - 3.4)/(4.2 - 3.4) * 100)` otherwise; it lies in
[0, 100] and is non-decreasing in the voltage, in particular in the gauge reading `m`
when `bat_vol = m / 1000`. -/
theorem raw_level_exact (m m2 : Nat) (x : ℚ) :
    GetBatteryLevel_raw_level x
        = (if x ≥ 4.2 then 100 else max 0 ((x - 3.4) / (4.2 - 3.4) * 100))
    ∧ 0 ≤ GetBatteryLevel_raw_level ((m : ℚ) / 1000)
    ∧ GetBatteryLevel_raw_level ((m : ℚ) / 1000) ≤ 100
    ∧ (m ≤ m2 →
        GetBatteryLevel_raw_level ((m : ℚ) / 1000)
          ≤ GetBatteryLevel_raw_level ((m2 : ℚ) / 1000)) := by
  refine ⟨?_, (raw_level_bounds _).1, (raw_level_bounds _).2, ?_⟩
  · have h := raw_level_linear x
    simp only [BAT_VOL_EMPTY, BAT_VOL_FULL] at h
    rw [raw_level_eq, h]
    simp only [BAT_VOL_FULL]
  · intro hm
    apply raw_level_mono
    have : (m : ℚ) ≤ (m2 : ℚ) := by exact_mod_cast hm
    linarith

/-- The fill loop of the first `update`: after the iterations `i = 0 .. k-1` the first `k`
slots hold `value` and the rest of the buffer is as before. -/
theorem fill_eq (value : ℚ) (k : Nat) :
    ∀ buf : List ℚ, k ≤ buf.length →
      (List.range k).foldl (fun buf i => buf.set i value) buf
        = List.replicate k value ++ buf.drop k := by
  induction k with
  | zero => intro buf _; simp
  | succ k ih =>
    intro buf hk
    rw [List.range_succ, List.foldl_append, ih buf (by omega)]
    apply List.ext_getElem
    · simp; omega
    · intro i h1 h2
      simp only [List.foldl_cons, List.foldl_nil]
      rw [List.getElem_set]
      by_cases hik : k = i
      · subst hik
        simp [List.getElem_append_left]
      · rw [if_neg hik]
        by_cases hlt : i < k
        · rw [List.getElem_append_left (by simpa using hlt),
            List.getElem_append_left (by simp; omega)]
          simp
        · rw [List.getElem_append_right (by simp; omega),
            List.getElem_append_right (by simp; omega)]
          simp only [List.length_replicate, List.getElem_drop]
          congr 1
          omega

/-- The filter after the first `update(v)` on a fresh filter of window `N`. -/
theorem update_first (N : Nat) (v : ℚ) :
    (MovingAverageFilter.new N).update v
      = (v, { size_ := N, buffer_ := List.replicate N v, index_ := 0, count_ := N,
              sum_ := v * N, first_init_ := false }) := by
  have h := fill_eq v N (List.replicate N 0) (by simp)
  simp only [List.drop_replicate, Nat.sub_self, List.replicate_zero, List.append_nil] at h
  simp only [MovingAverageFilter.update, MovingAverageFilter.new, if_true, h]

/-- C11. For a filter of window `N ≥ 1`, in exact arithmetic: the first `update(v)` on a
fresh filter returns `v`, and the `update(w)` that follows it returns `v + (w - v)/N`. -/
theorem update_first_two (N : Nat) (v w : ℚ) (hN : 1 ≤ N) :
    ((MovingAverageFilter.new N).update v).1 = v
    ∧ ((((MovingAverageFilter.new N).update v).2).update w).1 = v + (w - v) / N := by
  rw [update_first]
  refine ⟨rfl, ?_⟩
  have hN0 : (N : ℚ) ≠ 0 := by
    have : 0 < N := hN
    exact_mod_cast this.ne.symm
  have hget : (List.replicate N v).getD 0 0 = v := by
    cases N with
    | zero => omega
    | succ n => rfl
  simp only [MovingAverageFilter.update, hget, lt_irrefl, if_false, Bool.false_eq_true]
  field_simp
  ring

theorem update_first_two_witness :
    ((MovingAverageFilter.new 60).update 4).1 = 4
    ∧ ((((MovingAverageFilter.new 60).update 4).2).update 1).1 = 4 + (1 - 4) / (60 : Nat) :=
  update_first_two 60 4 1 (by decide)

/-! ## Modem power pulses -/

/-- C23. `PowerOnModem` and `PowerOffModem` only append to the trace: after resetting the
power pin and making it an output, each drives the pin to level 0, holds 100 ms, drives it
to level 1, holds 2500 ms (power on) or 3750 ms (power off), and drives it back to level
0, where the sequence ends.  The two sequences are the same list of calls but for that
one duration. -/
theorem modem_pulse_sequences (b : Board) :
    (PowerOnModem b).hw.trace
        = b.hw.trace ++
          [Effect.gpio_reset_pin 39, Effect.gpio_set_direction_output 39,
           Effect.gpio_set_level 39 0, Effect.vTaskDelay 100,
           Effect.gpio_set_level 39 1, Effect.vTaskDelay 2500, Effect.gpio_set_level 39 0]
    ∧ (PowerOffModem b).hw.trace
        = b.hw.trace ++
          [Effect.gpio_reset_pin 39, Effect.gpio_set_direction_output 39,
           Effect.gpio_set_level 39 0, Effect.vTaskDelay 100,
           Effect.gpio_set_level 39 1, Effect.vTaskDelay 3750, Effect.gpio_set_level 39 0]
    ∧ (PowerOnModem b).hw.trace.getLast? = some (Effect.gpio_set_level 39 0)
    ∧ (PowerOffModem b).hw.trace.getLast? = some (Effect.gpio_set_level 39 0)
    ∧ PowerOnModem b = { b with hw := { b.hw with trace := (PowerOnModem b).hw.trace } }
    ∧ PowerOffModem b = { b with hw := { b.hw with trace := (PowerOffModem b).hw.trace } } := by
  have hon : (PowerOnModem b).hw.trace
        = b.hw.trace ++
          [Effect.gpio_reset_pin 39, Effect.gpio_set_direction_output 39,
           Effect.gpio_set_level 39 0, Effect.vTaskDelay 100,
           Effect.gpio_set_level 39 1, Effect.vTaskDelay 2500, Effect.gpio_set_level 39 0] := by
    simp [PowerOnModem, ML307R_PIN_PWR, Board.emit, Board.vTaskDelay, Platform.vTaskDelay,
      Platform.emit]
  have hoff : (PowerOffModem b).hw.trace
        = b.hw.trace ++
          [Effect.gpio_reset_pin 39, Effect.gpio_set_direction_output 39,
           Effect.gpio_set_level 39 0, Effect.vTaskDelay 100,
           Effect.gpio_set_level 39 1, Effect.vTaskDelay 3750, Effect.gpio_set_level 39 0] := by
    simp [PowerOffModem, ML307R_PIN_PWR, Board.emit, Board.vTaskDelay, Platform.vTaskDelay,
      Platform.emit]
  refine ⟨hon, hoff, ?_, ?_, ?_, ?_⟩
  · rw [hon]; simp
  · rw [hoff]; simp
  · simp [PowerOnModem, ML307R_PIN_PWR, Board.emit, Board.vTaskDelay, Platform.vTaskDelay,
      Platform.emit]
  · simp [PowerOffModem, ML307R_PIN_PWR, Board.emit, Board.vTaskDelay, Platform.vTaskDelay,
      Platform.emit]

/-! ## Charger driver: what leaving shipping mode writes -/

/-- The poll loop with at least one iteration: its trace is a run of misses, then a last
read of register 0x06, followed by the 100 ms wait when that read is not 0x40 either; the
loop returns the byte of that last read. -/
theorem SetShippingMode_poll_last (n : Nat) :
    ∀ (hw : Platform) (val : Nat), ∃ vals x,
      vals.length ≤ n
      ∧ (Aw32001.SetShippingMode_poll (n + 1) hw val).2.trace
          = hw.trace ++ Aw32001.poll_misses vals ++ [Effect.i2c_read 0x06 x]
            ++ (if x = 0x40 then [] else [Effect.vTaskDelay 100])
      ∧ (Aw32001.SetShippingMode_poll (n + 1) hw val).1 = x
      ∧ x = u8 (hw.i2c_rx (hw.i2c_n + vals.length))
      ∧ (∀ v ∈ vals, v ≠ 0x40) := by
  induction n with
  | zero =>
    intro hw val
    refine ⟨[], u8 (hw.i2c_rx hw.i2c_n), le_refl _, ?_, ?_, rfl, by simp⟩
    · by_cases hit : u8 (hw.i2c_rx hw.i2c_n) = 0x40
      · simp [Aw32001.SetShippingMode_poll, Aw32001.ReadReg, hit, Aw32001.poll_misses]
      · simp [Aw32001.SetShippingMode_poll, Aw32001.ReadReg, hit, Aw32001.poll_misses,
          Platform.vTaskDelay, Platform.emit]
    · by_cases hit : u8 (hw.i2c_rx hw.i2c_n) = 0x40
      · simp [Aw32001.SetShippingMode_poll, Aw32001.ReadReg, hit]
      · simp [Aw32001.SetShippingMode_poll, Aw32001.ReadReg, hit]
  | succ n ih =>
    intro hw val
    by_cases hit : u8 (hw.i2c_rx hw.i2c_n) = 0x40
    · refine ⟨[], u8 (hw.i2c_rx hw.i2c_n), Nat.zero_le _, ?_, ?_, rfl, by simp⟩
      · simp [Aw32001.SetShippingMode_poll, Aw32001.ReadReg, hit, Aw32001.poll_misses]
      · simp [Aw32001.SetShippingMode_poll, Aw32001.ReadReg, hit]
    · obtain ⟨hw1, h1⟩ : ∃ x : Platform, x = (Aw32001.ReadReg hw 0x06).2.vTaskDelay 100 :=
        ⟨_, rfl⟩
      have hstep : Aw32001.SetShippingMode_poll (n + 1 + 1) hw val
          = Aw32001.SetShippingMode_poll (n + 1) hw1 (u8 (hw.i2c_rx hw.i2c_n)) := by
        rw [h1]
        conv_lhs => unfold Aw32001.SetShippingMode_poll
        simp [Aw32001.ReadReg, hit]
      have e1 : hw1.i2c_n = hw.i2c_n + 1 := by rw [h1]; rfl
      have e2 : hw1.i2c_rx = hw.i2c_rx := by rw [h1]; rfl
      have e3 : hw1.trace = hw.trace
          ++ [Effect.i2c_read 0x06 (u8 (hw.i2c_rx hw.i2c_n)), Effect.vTaskDelay 100] := by
        rw [h1]
        simp [Aw32001.ReadReg, Platform.vTaskDelay, Platform.emit]
      obtain ⟨vals, x, hlen, htr, hval, hx, hne⟩ := ih hw1 (u8 (hw.i2c_rx hw.i2c_n))
      refine ⟨u8 (hw.i2c_rx hw.i2c_n) :: vals, x, by simp; omega, ?_, ?_, ?_, ?_⟩
      · rw [hstep, htr, e3]
        simp [Aw32001.poll_misses]
      · rw [hstep, hval]
      · rw [hx, e1, e2]
        simp only [List.length_cons]
        congr 2
        omega
      · intro v hv
        rcases List.mem_cons.mp hv with h | h
        · rw [h]; exact hit
        · exact hne v h

/-- C24. `SetShippingMode(false)` writes register 0x06 once, at its end, and the byte it
writes is the byte `x` returned by the last poll read of register 0x06: the trace is the
read and write of register 0x0C, the read of register 0x06 made before the loop (whose
value with bit 5 cleared is never written), a run of missed polls, the last poll read
returning `x`, the 100 ms wait when `x` is not 0x40, and the write of `x`.  So bit 5 of the
byte written is that of the last read. -/
theorem SetShippingMode_false_writes_last_read (hw : Platform) :
    ∃ vals x,
      vals.length ≤ 9
      ∧ (Aw32001.SetShippingMode hw false).trace
          = hw.trace
            ++ [Effect.i2c_read 0x0C (u8 (hw.i2c_rx hw.i2c_n)),
                Effect.i2c_write 0x0C (u8 (u8 (u8 (hw.i2c_rx hw.i2c_n) &&& 0x0B))),
                Effect.i2c_read 0x06 (u8 (hw.i2c_rx (hw.i2c_n + 1)))]
            ++ Aw32001.poll_misses vals
            ++ [Effect.i2c_read 0x06 x]
            ++ (if x = 0x40 then [] else [Effect.vTaskDelay 100])
            ++ [Effect.i2c_write 0x06 x]
      ∧ x = u8 (hw.i2c_rx (hw.i2c_n + 2 + vals.length))
      ∧ (∀ v ∈ vals, v ≠ 0x40)
      ∧ (x / 32 % 2 = 0 ↔ u8 (hw.i2c_rx (hw.i2c_n + 2 + vals.length)) / 32 % 2 = 0) := by
  have hdef : ∀ hw2 : Platform, ∀ v0 : Nat,
      hw2 = ((Aw32001.WriteReg (Aw32001.ReadReg hw 0x0C).2 0x0C
              (u8 ((Aw32001.ReadReg hw 0x0C).1 &&& 0x0B))) |> fun h =>
                (Aw32001.ReadReg h 0x06).2) →
      v0 = u8 ((Aw32001.ReadReg (Aw32001.WriteReg (Aw32001.ReadReg hw 0x0C).2 0x0C
              (u8 ((Aw32001.ReadReg hw 0x0C).1 &&& 0x0B))) 0x06).1 &&& 0xFFFFFFDF) →
      Aw32001.SetShippingMode hw false
        = Aw32001.WriteReg (Aw32001.SetShippingMode_poll 10 hw2 v0).2 0x06
            (Aw32001.SetShippingMode_poll 10 hw2 v0).1 := by
    intro hw2 v0 h2 h0
    subst h2; subst h0
    rfl
  obtain ⟨hw2, h2⟩ : ∃ x, x = ((Aw32001.WriteReg (Aw32001.ReadReg hw 0x0C).2 0x0C
              (u8 ((Aw32001.ReadReg hw 0x0C).1 &&& 0x0B))) |> fun h =>
                (Aw32001.ReadReg h 0x06).2) := ⟨_, rfl⟩
  obtain ⟨v0, h0⟩ : ∃ x, x = u8 ((Aw32001.ReadReg (Aw32001.WriteReg
              (Aw32001.ReadReg hw 0x0C).2 0x0C
              (u8 ((Aw32001.ReadReg hw 0x0C).1 &&& 0x0B))) 0x06).1 &&& 0xFFFFFFDF) := ⟨_, rfl⟩
  have hd := hdef hw2 v0 h2 h0
  have e1 : hw2.i2c_n = hw.i2c_n + 2 := by rw [h2]; rfl
  have e2 : hw2.i2c_rx = hw.i2c_rx := by rw [h2]; rfl
  have e3 : hw2.trace = hw.trace
      ++ [Effect.i2c_read 0x0C (u8 (hw.i2c_rx hw.i2c_n)),
          Effect.i2c_write 0x0C (u8 (u8 (u8 (hw.i2c_rx hw.i2c_n) &&& 0x0B))),
          Effect.i2c_read 0x06 (u8 (hw.i2c_rx (hw.i2c_n + 1)))] := by
    rw [h2]
    simp [Aw32001.ReadReg, Aw32001.WriteReg, Platform.emit]
  obtain ⟨vals, x, hlen, htr, hval, hx, hne⟩ := SetShippingMode_poll_last 9 hw2 v0
  rw [e1, e2] at hx
  rw [e3] at htr
  have hx8 : u8 x = x := by rw [hx]; exact u8_of_lt (u8_lt _)
  refine ⟨vals, x, hlen, ?_, hx, hne, by rw [← hx]⟩
  rw [hd]
  simp only [Aw32001.WriteReg, Platform.emit]
  rw [htr, hval, hx8]

/-! ## Charger driver: rounding of the encoders -/

/-- The byte that `SetChargeCurrent` writes to register 0x02. -/
theorem SetChargeCurrent_written (hw : Platform) (c : Nat) :
    (Aw32001.SetChargeCurrent hw c).trace
      = hw.trace ++ [Effect.i2c_read 0x02 (u8 (hw.i2c_rx hw.i2c_n)),
          Effect.i2c_write 0x02 (64 * (u8 (hw.i2c_rx hw.i2c_n) / 64) + min c 456 / 8)] := by
  have hr := u8_lt (hw.i2c_rx hw.i2c_n)
  set r := u8 (hw.i2c_rx hw.i2c_n) with hrdef
  have hm : (if c > 456 then 456 else c) = min c 456 := by
    split <;> omega
  have hq : min c 456 / 8 < 64 := by omega
  have hfield : (min c 456 / 8) &&& 0x3F = min c 456 / 8 := by
    have := Nat.and_pow_two_sub_one_eq_mod (min c 456 / 8) 6
    simpa [Nat.mod_eq_of_lt hq] using this
  have hor : (r &&& 0xC0) ||| (min c 456 / 8) = 64 * (r / 64) + min c 456 / 8 := by
    rw [and_C0_eq r hr]
    exact (Nat.mul_add_lt_is_or (i := 6) hq (r / 64)).symm
  simp only [Aw32001.SetChargeCurrent, Aw32001.ReadReg, Aw32001.WriteReg, Platform.emit, hm,
    hfield, ← hrdef, hor]
  have hv : u8 (64 * (r / 64) + min c 456 / 8) = 64 * (r / 64) + min c 456 / 8 :=
    u8_of_lt (by omega)
  simp [hv]

/-- The byte that `SetChargeVoltage` writes to register 0x04. -/
theorem SetChargeVoltage_written (hw : Platform) (v : Nat) :
    (Aw32001.SetChargeVoltage hw v).trace
      = hw.trace ++ [Effect.i2c_read 0x04 (u8 (hw.i2c_rx hw.i2c_n)),
          Effect.i2c_write 0x04
            (4 * ((min (max v 3600) 4545 - 3600) / 15) + u8 (hw.i2c_rx hw.i2c_n) % 4)] := by
  have hr := u8_lt (hw.i2c_rx hw.i2c_n)
  set r := u8 (hw.i2c_rx hw.i2c_n) with hrdef
  have hm : (if (if v < 3600 then 3600 else v) > 4545 then 4545
      else (if v < 3600 then 3600 else v)) = min (max v 3600) 4545 := by
    split_ifs <;> omega
  set q := (min (max v 3600) 4545 - 3600) / 15 with hq
  have hq63 : q ≤ 63 := by omega
  have hlev : u8 q = q := u8_of_lt (by omega)
  have hor : (r &&& 0x03) ||| (q <<< 2) = 4 * q + r % 4 := by
    have := low_field_or_shift r q 2
    simpa using this
  have hv : u8 (u8 (4 * q + r % 4)) = 4 * q + r % 4 := by
    rw [u8_of_lt (u8_lt _)]
    exact u8_of_lt (by omega)
  simp only [Aw32001.SetChargeVoltage, Aw32001.ReadReg, Aw32001.WriteReg, Platform.emit, hm,
    ← hrdef, ← hq, hlev, hor, hv]
  simp

/-- C28. The charger encoders round down.  The byte `w` that `SetChargeCurrent(c)` writes
to register 0x02 carries the field `w % 64`, and the current it stands for, `8 * field`,
is at most `min(c,456)` and more than `min(c,456) - 8`.  The byte `w` that
`SetChargeVoltage(v)` writes to register 0x04 carries the field `w / 4`, and the voltage
it stands for, `3600 + 15 * field`, is at most `clamp(v,3600,4545)` and more than
`clamp(v,3600,4545) - 15`.  The lower bounds are written with the 7 and the 14 added on
the right. -/
theorem encoders_round_down (hw : Platform) (c v : Nat) :
    (∃ w, (Aw32001.SetChargeCurrent hw c).trace
          = hw.trace ++ [Effect.i2c_read 0x02 (u8 (hw.i2c_rx hw.i2c_n)), Effect.i2c_write 0x02 w]
      ∧ 8 * (w % 64) ≤ min c 456
      ∧ min c 456 ≤ 8 * (w % 64) + 7)
    ∧ (∃ w, (Aw32001.SetChargeVoltage hw v).trace
          = hw.trace ++ [Effect.i2c_read 0x04 (u8 (hw.i2c_rx hw.i2c_n)), Effect.i2c_write 0x04 w]
      ∧ 3600 + 15 * (w / 4) ≤ min (max v 3600) 4545
      ∧ min (max v 3600) 4545 ≤ 3600 + 15 * (w / 4) + 14) := by
  have hr := u8_lt (hw.i2c_rx hw.i2c_n)
  refine ⟨⟨_, SetChargeCurrent_written hw c, ?_, ?_⟩, ⟨_, SetChargeVoltage_written hw v, ?_, ?_⟩⟩
  · omega
  · omega
  · omega
  · omega

/-! ## Shutdown on the Wi-Fi path: the wait for the radio module -/

/-- The loop `while (i++ < 10)` of `Shutdown`: with the flag `modem_powered_on_` set it is
left at once, with the flag clear it waits 300 ms in each of its iterations. -/
theorem Shutdown_wait_modem_spec (n : Nat) :
    ∀ b : Board,
      (b.modem_powered_on_ = true → Shutdown_wait_modem n b = b)
      ∧ (b.modem_powered_on_ = false →
          (Shutdown_wait_modem n b).hw.trace
            = b.hw.trace ++ List.replicate n (Effect.vTaskDelay 300)) := by
  induction n with
  | zero => intro b; exact ⟨fun _ => rfl, fun _ => by simp [Shutdown_wait_modem]⟩
  | succ n ih =>
    intro b
    refine ⟨fun hm => by simp [Shutdown_wait_modem, hm], fun hm => ?_⟩
    simp only [Shutdown_wait_modem, hm, Bool.false_eq_true, if_false]
    rw [(ih (b.vTaskDelay 300)).2 hm]
    simp [Board.vTaskDelay, Platform.vTaskDelay, Platform.emit, List.replicate_succ]

/-- C22, the code at two inputs.  Charger NotCharging, network type Wi-Fi.  With
`modem_powered_on_` false (the radio module is off) `Shutdown` waits ten times 300 ms
before it commands shipping mode; with `modem_powered_on_` true (the module is on) it does
not wait at all. -/
theorem Shutdown_wifi_wait_inverted :
    (Board.boot (Platform.idle 0 3.7) 0).modem_powered_on_ = false
    ∧ (Shutdown (Board.boot (Platform.idle 0 3.7) 0)).hw.trace
      = [Effect.i2c_read 0x08 0,
         Effect.draw_bitmap_full 0, Effect.lv_screen_load Screen.scr_shutdown_,
         Effect.lv_refr_now, Effect.esp_task_wdt_delete,
         Effect.vTaskDelay 300, Effect.vTaskDelay 300, Effect.vTaskDelay 300,
         Effect.vTaskDelay 300, Effect.vTaskDelay 300, Effect.vTaskDelay 300,
         Effect.vTaskDelay 300, Effect.vTaskDelay 300, Effect.vTaskDelay 300,
         Effect.vTaskDelay 300,
         Effect.i2c_read 0x0C 0, Effect.i2c_write 0x0C 0,
         Effect.i2c_read 0x06 0, Effect.i2c_write 0x06 0x20,
         Effect.vTaskDelay 3000]
    ∧ (Shutdown { Board.boot (Platform.idle 0 3.7) 0 with modem_powered_on_ := true }).hw.trace
      = [Effect.i2c_read 0x08 0,
         Effect.draw_bitmap_full 0, Effect.lv_screen_load Screen.scr_shutdown_,
         Effect.lv_refr_now, Effect.esp_task_wdt_delete,
         Effect.i2c_read 0x0C 0, Effect.i2c_write 0x0C 0,
         Effect.i2c_read 0x06 0, Effect.i2c_write 0x06 0x20,
         Effect.vTaskDelay 3000] := by
  refine ⟨rfl, ?_, ?_⟩
  · rfl
  · rfl

/-! ## Low-battery countdown: wrap-around -/

/-- C25. The countdown wraps.  On a board whose countdown is 0 (the invocation that posted
Shutdown has run), while the voltage stays at or below empty and the charger stays
NotCharging: the next invocation of `GetBatteryLevel` sets the countdown to 255 and posts
nothing, none of the first 255 further invocations posts an event, and the 256th posts
Shutdown. -/
theorem countdown_wraps (b : Board) (hq : b.event_queue_.isSome) (h0 : b.countdown = 0)
    (hlow : ∀ i < 256, b.hw.bat_vol_src (b.hw.bat_vol_n + i) ≤ BAT_VOL_EMPTY
      ∧ b.hw.charge_state_at (b.hw.i2c_n + i) = 0) :
    (GetBatteryLevel b).1.countdown = 255
    ∧ posted_events (GetBatteryLevel b).1.hw.trace = posted_events b.hw.trace
    ∧ (∀ j < 256, posted_events (GetBatteryLevel_times j b).hw.trace = posted_events b.hw.trace)
    ∧ (∀ j, 1 ≤ j → j ≤ 256 → (GetBatteryLevel_times j b).countdown = 256 - j)
    ∧ posted_events (GetBatteryLevel_times 256 b).hw.trace
        = posted_events b.hw.trace ++ [BoardEvent.Shutdown] := by
  have h1 := GetBatteryLevel_low b hq (by simpa using (hlow 0 (by omega)).1)
    (by simpa using (hlow 0 (by omega)).2)
  rw [h0] at h1
  obtain ⟨c1, n1, i1, s1, r1, q1, p1⟩ := h1
  have hc255 : u8 (0 + 255) = 255 := rfl
  rw [hc255] at c1 p1
  simp only [show ¬ (255 = 0) by decide, if_false, List.append_nil] at p1
  have key : ∀ m ≤ 255,
      (GetBatteryLevel_times (1 + m) b).countdown = 255 - m
      ∧ posted_events (GetBatteryLevel_times (1 + m) b).hw.trace
          = posted_events b.hw.trace ++ (if m = 255 then [BoardEvent.Shutdown] else []) := by
    intro m hm
    rw [GetBatteryLevel_times_add, GetBatteryLevel_times_one]
    have h := GetBatteryLevel_times_low m (GetBatteryLevel b).1 q1 (by omega) (by omega)
      (by
        intro i hi
        have := hlow (i + 1) (by omega)
        simpa [Platform.charge_state_at, n1, i1, s1, r1, Nat.add_assoc, Nat.add_comm 1 i]
          using this)
    obtain ⟨hc, -, -, -, -, -, hp⟩ := h
    refine ⟨by rw [hc, c1], ?_⟩
    rw [hp, p1, c1]
    by_cases h255 : m = 255
    · simp [h255]
    · have : ¬ (0 < m ∧ m = 255) := fun h => h255 h.2
      simp [h255, this]
  refine ⟨c1, p1, ?_, ?_, ?_⟩
  · intro j hj
    rcases Nat.eq_zero_or_pos j with hz | hpos
    · subst hz; rfl
    · have := (key (j - 1) (by omega)).2
      rw [show 1 + (j - 1) = j by omega] at this
      rw [this, if_neg (by omega), List.append_nil]
  · intro j h1j hj
    have := (key (j - 1) (by omega)).1
    rw [show 1 + (j - 1) = j by omega] at this
    rw [this]
    omega
  · have := (key 255 (by omega)).2
    rw [show 1 + 255 = 256 from rfl, if_pos rfl] at this
    exact this

theorem countdown_wraps_witness :
    (GetBatteryLevel { Board.boot (Platform.idle 0 3.3) 0 with countdown := 0 }).1.countdown = 255
    ∧ posted_events
        (GetBatteryLevel_times 256
          { Board.boot (Platform.idle 0 3.3) 0 with countdown := 0 }).hw.trace
      = posted_events ({ Board.boot (Platform.idle 0 3.3) 0 with countdown := 0 } : Board).hw.trace
          ++ [BoardEvent.Shutdown] := by
  have h := countdown_wraps { Board.boot (Platform.idle 0 3.3) 0 with countdown := 0 } rfl rfl
    (fun i _ => ⟨by norm_num [Board.boot, Platform.idle, BAT_VOL_EMPTY],
      by simp [Board.boot, Platform.idle, Platform.charge_state_at, u8]⟩)
  exact ⟨h.1, h.2.2.2.2⟩

/-! ## Event channel -/

/-- What `PostEvent` does to an existing queue: the event goes to the back when fewer than
8 events are waiting, and the queue stays as it is otherwise. -/
theorem PostEvent_queue (b : Board) (event : BoardEvent) (q : List BoardEvent)
    (hq : b.event_queue_ = some q) :
    (PostEvent b event).event_queue_ = some (if q.length < 8 then q ++ [event] else q) := by
  by_cases h : q.length < 8
  · simp [PostEvent, hq, h, Board.emit]
  · simp [PostEvent, hq, h, Board.emit]

/-- The invariant of a run of channel operations: the queue stays within its capacity, and
the events taken off it followed by those still waiting are the events that were waiting
at the start followed by the accepted ones. -/
theorem channel_run_fifo (ops : List ChannelOp) :
    ∀ (b : Board) (q : List BoardEvent), b.event_queue_ = some q → q.length ≤ 8 →
      ∃ q2, (channel_run ops b).board.event_queue_ = some q2 ∧ q2.length ≤ 8
        ∧ (channel_run ops b).handed ++ q2 = q ++ (channel_run ops b).accepted := by
  induction ops with
  | nil =>
    intro b q hq hlen
    exact ⟨q, by simp [channel_run, hq], hlen, by simp [channel_run]⟩
  | cons op ops ih =>
    intro b q hq hlen
    cases op with
    | post event =>
      have hp := PostEvent_queue b event q hq
      by_cases h : q.length < 8
      · rw [if_pos h] at hp
        obtain ⟨q2, e1, e2, e3⟩ := ih (PostEvent b event) (q ++ [event]) hp (by simp; omega)
        have hne : ¬ (PostEvent b event).event_queue_ = b.event_queue_ := by
          rw [hp, hq]
          intro hc
          have := congrArg List.length (Option.some.inj hc)
          simp at this
        refine ⟨q2, ?_, e2, ?_⟩
        · simp only [channel_run, hne, if_false]
          exact e1
        · simp only [channel_run, hne, if_false]
          rw [e3, List.append_assoc]
          rfl
      · rw [if_neg h] at hp
        obtain ⟨q2, e1, e2, e3⟩ := ih (PostEvent b event) q hp hlen
        have heq : (PostEvent b event).event_queue_ = b.event_queue_ := by rw [hp, hq]
        refine ⟨q2, ?_, e2, ?_⟩
        · simp only [channel_run, heq, if_true]
          exact e1
        · simp only [channel_run, heq, if_true]
          exact e3
    | receive =>
      cases q with
      | nil =>
        have hr : BoardEventTask_receive b = (none, b) := by
          simp [BoardEventTask_receive, hq]
        obtain ⟨q2, e1, e2, e3⟩ := ih b [] hq hlen
        refine ⟨q2, ?_, e2, ?_⟩
        · simp only [channel_run, hr]
          exact e1
        · simp only [channel_run, hr]
          exact e3
      | cons event rest =>
        have hr : BoardEventTask_receive b = (some event, { b with event_queue_ := some rest }) := by
          simp [BoardEventTask_receive, hq]
        obtain ⟨q2, e1, e2, e3⟩ :=
          ih { b with event_queue_ := some rest } rest rfl (by simp at hlen; omega)
        refine ⟨q2, ?_, e2, ?_⟩
        · simp only [channel_run, hr]
          exact e1
        · simp only [channel_run, hr]
          rw [List.cons_append, e3]
          rfl

/-- The sampling loop of `Sleep` does not touch the event queue. -/
theorem Sleep_samples_event_queue (n : Nat) :
    ∀ (b : Board) (low_count : Nat),
      (Sleep_samples n b low_count).1.event_queue_ = b.event_queue_ := by
  induction n with
  | zero => intro b low_count; rfl
  | succ n ih =>
    intro b low_count
    simp only [Sleep_samples]
    rw [ih]
    simp only [Sleep_sample, GetChargeState_eq, Board.vTaskDelay]
    split_ifs <;> rfl

/-- The wait loop of `Sleep` does not touch the event queue. -/
theorem Sleep_wait_event_queue (fuel : Nat) :
    ∀ (b b2 : Board) (flag : Bool), Sleep_wait fuel b = some (b2, flag) →
      b2.event_queue_ = b.event_queue_ := by
  induction fuel with
  | zero => intro b b2 flag h; simp [Sleep_wait] at h
  | succ fuel ih =>
    intro b b2 flag h
    simp only [Sleep_wait] at h
    split_ifs at h with h1 h2
    · simp only [Option.some.injEq, Prod.mk.injEq] at h
      rw [← h.1, Shutdown_event_queue, Sleep_samples_event_queue]
      rfl
    · rw [ih _ _ _ h, Sleep_samples_event_queue]
      rfl
    · simp only [Option.some.injEq, Prod.mk.injEq] at h
      rw [← h.1]
      rfl

/-- The part of `Sleep` after the loop does not touch the event queue. -/
theorem Sleep_resume_event_queue (b : Board) (scr : Screen) (running : Bool) :
    (Sleep_resume b scr running).event_queue_ = b.event_queue_ := by
  cases hp : b.power_save_timer_ <;> cases running <;>
    simp [Sleep_resume, hp, Board.emit, Board.lv_screen_load]

/-- No handler touches the event queue. -/
theorem HandleBoardEvent_event_queue (fuel : Nat) (b b2 : Board) (event : BoardEvent)
    (h : HandleBoardEvent fuel b event = some b2) : b2.event_queue_ = b.event_queue_ := by
  cases event with
  | Shutdown =>
    simp only [HandleBoardEvent, Option.some.injEq] at h
    rw [← h, Shutdown_event_queue]
  | Sleep =>
    simp only [HandleBoardEvent, Sleep] at h
    have he : (Sleep_enter b).1.event_queue_ = b.event_queue_ := by
      simp only [Sleep_enter, Board.emit, Board.vTaskDelay, Board.lv_screen_load]
      split_ifs <;> rfl
    cases hw : Sleep_wait fuel (Sleep_enter b).1 with
    | none => rw [hw] at h; simp at h
    | some r =>
      obtain ⟨b3, flag⟩ := r
      have h3 := Sleep_wait_event_queue fuel _ _ _ hw
      rw [hw] at h
      cases flag with
      | true =>
        simp only [Option.some.injEq] at h
        rw [← h, h3, he]
      | false =>
        simp only [Option.some.injEq] at h
        rw [← h, Sleep_resume_event_queue, h3, he]
  | WakeUp =>
    simp only [HandleBoardEvent, WakeUp, Option.some.injEq] at h
    rw [← h]
  | SwitchNetWork =>
    simp only [HandleBoardEvent, Option.some.injEq] at h
    rw [← h]
    rfl
  | ClearWiFiConfig =>
    simp only [HandleBoardEvent] at h
    split_ifs at h <;> simp only [Option.some.injEq] at h <;> subst h <;> rfl

/-- C21. The event channel is a FIFO of capacity 8.  On a board whose queue exists and holds
`q`, at most 8 events: `PostEvent` leaves a queue of 8 events as it is and puts the event
at the back of a shorter one; after every run of posts and receives the queue still holds
at most 8 events, and the events the worker took off it, followed by those still waiting,
are the events of `q` followed by the accepted events, in the order they were posted; one
iteration of the worker loop feeds the watchdog, receives, and hands the event received
to `HandleBoardEvent`; and no handler touches the queue. -/
theorem event_channel_fifo (ops : List ChannelOp) (b : Board) (q : List BoardEvent)
    (hq : b.event_queue_ = some q) (hlen : q.length ≤ 8) :
    (∀ event, q.length = 8 → (PostEvent b event).event_queue_ = some q)
    ∧ (∀ event, q.length < 8 → (PostEvent b event).event_queue_ = some (q ++ [event]))
    ∧ (∃ q2, (channel_run ops b).board.event_queue_ = some q2 ∧ q2.length ≤ 8
        ∧ (channel_run ops b).handed ++ q2 = q ++ (channel_run ops b).accepted)
    ∧ (∀ n fuel, BoardEventTask_loop (n + 1) fuel b
        = match BoardEventTask_receive (b.emit Effect.esp_task_wdt_reset) with
          | (some event, b1) => (HandleBoardEvent fuel b1 event).bind (BoardEventTask_loop n fuel)
          | (none, b1) => BoardEventTask_loop n fuel b1)
    ∧ (∀ fuel event b2, HandleBoardEvent fuel b event = some b2 →
        b2.event_queue_ = b.event_queue_) := by
  refine ⟨?_, ?_, channel_run_fifo ops b q hq hlen, ?_, ?_⟩
  · intro event h8
    rw [PostEvent_queue b event q hq, if_neg (by omega)]
  · intro event h8
    rw [PostEvent_queue b event q hq, if_pos h8]
  · intro n fuel
    cases q with
    | nil =>
      simp only [BoardEventTask_loop, BoardEventTask_receive, Board.emit, hq]
    | cons event rest =>
      simp only [BoardEventTask_loop, BoardEventTask_receive, Board.emit, hq]
      cases HandleBoardEvent fuel _ event <;> rfl
  · intro fuel event b2 h
    exact HandleBoardEvent_event_queue fuel b b2 event h

theorem event_channel_fifo_witness :
    ∃ q2, (channel_run
            [ChannelOp.post BoardEvent.Sleep, ChannelOp.post BoardEvent.WakeUp, ChannelOp.receive]
            (Board.boot (Platform.idle 0 3.7) 0)).board.event_queue_ = some q2
      ∧ q2.length ≤ 8
      ∧ (channel_run
            [ChannelOp.post BoardEvent.Sleep, ChannelOp.post BoardEvent.WakeUp, ChannelOp.receive]
            (Board.boot (Platform.idle 0 3.7) 0)).handed ++ q2
          = [] ++ (channel_run
            [ChannelOp.post BoardEvent.Sleep, ChannelOp.post BoardEvent.WakeUp, ChannelOp.receive]
            (Board.boot (Platform.idle 0 3.7) 0)).accepted :=
  (event_channel_fifo
    [ChannelOp.post BoardEvent.Sleep, ChannelOp.post BoardEvent.WakeUp, ChannelOp.receive]
    (Board.boot (Platform.idle 0 3.7) 0) [] rfl (by decide)).2.2.1

/-! ## Battery level filter: the running sum and the window -/

theorem getD_mid (A B : List ℚ) (x d : ℚ) : (A ++ x :: B).getD A.length d = x := by
  induction A with
  | nil => rfl
  | cons a A ih => simpa using ih

theorem set_mid (A B : List ℚ) (x w : ℚ) : (A ++ x :: B).set A.length w = A ++ w :: B := by
  induction A with
  | nil => rfl
  | cons a A ih => simp [ih]

theorem drop_mid (A B : List ℚ) (w : ℚ) : (A ++ w :: B).drop (A.length + 1) = B := by
  induction A with
  | nil => rfl
  | cons a A ih => simp [ih]

theorem take_mid (A B : List ℚ) (w : ℚ) : (A ++ w :: B).take (A.length + 1) = A ++ [w] := by
  induction A with
  | nil => rfl
  | cons a A ih => simpa using ih

/-- A buffer splits at a valid index. -/
theorem split_at_index (buf : List ℚ) (i : Nat) (hi : i < buf.length) :
    ∃ A x B, buf = A ++ x :: B ∧ A.length = i := by
  refine ⟨buf.take i, buf[i], buf.drop (i + 1), ?_, ?_⟩
  · rw [← List.drop_eq_getElem_cons hi, List.take_append_drop]
  · simp; omega

/-- The window after one more sample: the oldest element leaves, the sample enters. -/
theorem window_snoc (N : Nat) (seq : List ℚ) (a : ℚ) (hN : 1 ≤ N) (hlen : N ≤ seq.length) :
    (seq ++ [a]).drop ((seq ++ [a]).length - N)
      = (seq.drop (seq.length - N)).tail ++ [a] := by
  have e : (seq ++ [a]).length - N = (seq.length - N) + 1 := by
    simp only [List.length_append, List.length_singleton]; omega
  rw [e, List.drop_append_of_le_length (by omega), List.tail_drop]

/-- One `update` of a filter past its first call, in terms of the window `L` that the
circular buffer holds from `index_` on, oldest sample first. -/
theorem update_window (f : MovingAverageFilter) (N : Nat) (L : List ℚ) (w : ℚ)
    (hN : 1 ≤ N) (h1 : f.size_ = N) (h2 : f.first_init_ = false) (h3 : f.buffer_.length = N)
    (h4 : f.index_ < N) (h5 : f.count_ = N) (h6 : f.sum_ = f.buffer_.sum)
    (h7 : f.buffer_.drop f.index_ ++ f.buffer_.take f.index_ = L) :
    (f.update w).1 = (L.tail ++ [w]).sum / N
    ∧ (f.update w).2.size_ = N
    ∧ (f.update w).2.first_init_ = false
    ∧ (f.update w).2.buffer_.length = N
    ∧ (f.update w).2.index_ < N
    ∧ (f.update w).2.count_ = N
    ∧ (f.update w).2.sum_ = (f.update w).2.buffer_.sum
    ∧ (f.update w).2.buffer_.drop (f.update w).2.index_
        ++ (f.update w).2.buffer_.take (f.update w).2.index_ = L.tail ++ [w] := by
  obtain ⟨size, buf, idx, cnt, sum, fi⟩ := f
  simp only at h1 h2 h3 h4 h5 h6 h7
  obtain rfl := h1.symm
  obtain rfl := h5.symm
  subst h2 h6
  obtain ⟨A, x, B, hbuf, hA⟩ := split_at_index buf idx (by omega)
  subst hbuf hA
  have hL : L = x :: (B ++ A) := by
    rw [← h7]
    simp
  have hlen : N = A.length + 1 + B.length := by
    rw [← h3]; simp; omega
  simp only [MovingAverageFilter.update, Bool.false_eq_true, if_false, lt_irrefl, getD_mid,
    set_mid]
  rw [hL]
  have hidx : (A.length + 1) % N < N := Nat.mod_lt _ (by omega)
  refine ⟨?_, trivial, trivial, by simp; omega, hidx, trivial, ?_, ?_⟩
  · simp only [List.tail_cons, List.sum_append, List.sum_cons, List.sum_nil]
    congr 1
    ring
  · simp only [List.sum_append, List.sum_cons]
    ring
  · simp only [List.tail_cons]
    cases B with
    | nil =>
      have : (A.length + 1) % N = 0 := by
        rw [hlen]; simp
      rw [this]
      simp
    | cons y B =>
      have : (A.length + 1) % N = A.length + 1 := by
        apply Nat.mod_eq_of_lt
        rw [hlen]; simp
      rw [this, drop_mid, take_mid]
      simp

/-- The filter after the first sample `s1` and the later samples `rest`: the running sum
is the sum of the buffer, and the buffer read from `index_` on is the window, the last `N`
elements of `N` copies of `s1` followed by `rest`. -/
theorem updates_window (N : Nat) (hN : 1 ≤ N) (s1 : ℚ) (rest : List ℚ) :
    ((MovingAverageFilter.new N).updates (s1 :: rest)).size_ = N
    ∧ ((MovingAverageFilter.new N).updates (s1 :: rest)).first_init_ = false
    ∧ ((MovingAverageFilter.new N).updates (s1 :: rest)).buffer_.length = N
    ∧ ((MovingAverageFilter.new N).updates (s1 :: rest)).index_ < N
    ∧ ((MovingAverageFilter.new N).updates (s1 :: rest)).count_ = N
    ∧ ((MovingAverageFilter.new N).updates (s1 :: rest)).sum_
        = ((MovingAverageFilter.new N).updates (s1 :: rest)).buffer_.sum
    ∧ ((MovingAverageFilter.new N).updates (s1 :: rest)).buffer_.drop
          ((MovingAverageFilter.new N).updates (s1 :: rest)).index_
        ++ ((MovingAverageFilter.new N).updates (s1 :: rest)).buffer_.take
          ((MovingAverageFilter.new N).updates (s1 :: rest)).index_
        = (List.replicate N s1 ++ rest).drop ((List.replicate N s1 ++ rest).length - N) := by
  induction rest using List.reverseRecOn with
  | nil =>
    have h : (MovingAverageFilter.new N).updates [s1]
        = { size_ := N, buffer_ := List.replicate N s1, index_ := 0, count_ := N,
            sum_ := s1 * N, first_init_ := false } := by
      simp only [MovingAverageFilter.updates, List.foldl_cons, List.foldl_nil, update_first]
    rw [h]
    refine ⟨rfl, rfl, by simp, (by show 0 < N; omega), rfl, ?_, ?_⟩
    · simp [List.sum_replicate, mul_comm]
    · simp
  | append_singleton mid last ih =>
    have h : (MovingAverageFilter.new N).updates (s1 :: (mid ++ [last]))
        = (((MovingAverageFilter.new N).updates (s1 :: mid)).update last).2 := by
      simp only [MovingAverageFilter.updates, ← List.cons_append, List.foldl_append,
        List.foldl_cons, List.foldl_nil]
    obtain ⟨i1, i2, i3, i4, i5, i6, i7⟩ := ih
    obtain ⟨-, u1, u2, u3, u4, u5, u6, u7⟩ :=
      update_window _ N _ last hN i1 i2 i3 i4 i5 i6 i7
    rw [h]
    refine ⟨u1, u2, u3, u4, u5, u6, ?_⟩
    rw [u7, ← List.append_assoc, window_snoc N _ last hN (by simp)]

/-- C26. The running-sum filter computes the naive window mean.  For a window `N ≥ 1` and
a first sample `s1`, in exact arithmetic: the first `update` returns the mean of `N`
copies of `s1`; after the samples `s1, mid`, the `update` with the sample `last` returns
the mean of the last `N` elements of `N` copies of `s1` followed by `mid` and `last`; and
after every run of samples `sum_` is the sum of the buffer, `index_` is below `N`,
`count_` is `N` and the buffer has `N` slots. -/
theorem filter_is_window_mean (N : Nat) (s1 : ℚ) (hN : 1 ≤ N) :
    ((MovingAverageFilter.new N).update s1).1 = window_mean N s1 []
    ∧ (∀ (mid : List ℚ) (last : ℚ),
        (((MovingAverageFilter.new N).updates (s1 :: mid)).update last).1
          = window_mean N s1 (mid ++ [last]))
    ∧ (∀ rest : List ℚ,
        ((MovingAverageFilter.new N).updates (s1 :: rest)).sum_
            = ((MovingAverageFilter.new N).updates (s1 :: rest)).buffer_.sum
        ∧ ((MovingAverageFilter.new N).updates (s1 :: rest)).index_ < N
        ∧ ((MovingAverageFilter.new N).updates (s1 :: rest)).count_ = N
        ∧ ((MovingAverageFilter.new N).updates (s1 :: rest)).buffer_.length = N) := by
  have hN0 : (N : ℚ) ≠ 0 := by
    have : 0 < N := hN
    exact_mod_cast this.ne.symm
  refine ⟨?_, ?_, ?_⟩
  · rw [update_first]
    simp only [window_mean, List.append_nil, List.length_replicate, Nat.sub_self, List.drop_zero,
      List.sum_replicate, nsmul_eq_mul]
    field_simp
  · intro mid last
    obtain ⟨i1, i2, i3, i4, i5, i6, i7⟩ := updates_window N hN s1 mid
    obtain ⟨u0, -⟩ := update_window _ N _ last hN i1 i2 i3 i4 i5 i6 i7
    rw [u0, window_mean, ← List.append_assoc, window_snoc N _ last hN (by simp)]
  · intro rest
    obtain ⟨-, -, i3, i4, i5, i6, -⟩ := updates_window N hN s1 rest
    exact ⟨i6, i4, i5, i3⟩

theorem filter_is_window_mean_witness :
    (((MovingAverageFilter.new 3).updates [1, 2]).update 6).1 = window_mean 3 1 ([2] ++ [6]) :=
  (filter_is_window_mean 3 1 (by decide)).2.1 [2] 6

/-! ## Battery level: range of the reported level -/

/-- The loop `while (i++ < 10)` of `Shutdown` as one equation. -/
theorem Shutdown_wait_modem_eq (n : Nat) :
    ∀ b : Board,
      Shutdown_wait_modem n b
        = (if b.modem_powered_on_ then b
           else { b with hw := { b.hw with
                    trace := b.hw.trace ++ List.replicate n (Effect.vTaskDelay 300) } }) := by
  induction n with
  | zero =>
    intro b
    simp only [Shutdown_wait_modem, List.replicate_zero, List.append_nil]
    split_ifs <;> rfl
  | succ n ih =>
    intro b
    cases hm : b.modem_powered_on_ with
    | true => simp only [Shutdown_wait_modem, hm, if_true]
    | false =>
      have hm2 : (b.vTaskDelay 300).modem_powered_on_ = false := hm
      simp only [Shutdown_wait_modem, hm, if_false, Bool.false_eq_true]
      rw [ih, hm2]
      simp [Board.vTaskDelay, Platform.vTaskDelay, Platform.emit, List.replicate_succ]

/-- The platform after `SetShippingMode(true)`: two reads done, four calls appended. -/
theorem SetShippingMode_true_eq (hw : Platform) :
    Aw32001.SetShippingMode hw true
      = { hw with
          i2c_n := hw.i2c_n + 2,
          trace := hw.trace ++
            [Effect.i2c_read 0x0C (u8 (hw.i2c_rx hw.i2c_n)),
             Effect.i2c_write 0x0C (u8 (u8 (u8 (hw.i2c_rx hw.i2c_n) &&& 0x0B))),
             Effect.i2c_read 0x06 (u8 (hw.i2c_rx (hw.i2c_n + 1))),
             Effect.i2c_write 0x06 (u8 (u8 (u8 (hw.i2c_rx (hw.i2c_n + 1)) ||| (1 <<< 5))))] } := by
  simp [Aw32001.SetShippingMode, Aw32001.ReadReg, Aw32001.WriteReg, Platform.emit]

/-- The calls of `Shutdown`, in order. -/
theorem Shutdown_trace (b : Board) :
    (Shutdown b).hw.trace
      = b.hw.trace ++
        (if b.hw.charge_state_at b.hw.i2c_n ≠ 0 then
          [Effect.i2c_read 0x08 (u8 (b.hw.i2c_rx b.hw.i2c_n)),
           Effect.lv_label_set_text Label.scr_tip_label_title_ ⟨"充电中不能关机", []⟩,
           Effect.lv_label_set_text Label.scr_tip_label_ ⟨"", []⟩,
           Effect.lv_screen_load Screen.scr_tip_,
           Effect.lv_refr_now,
           Effect.vTaskDelay 1000,
           Effect.lv_screen_load b.hw.screen]
        else
          [Effect.i2c_read 0x08 (u8 (b.hw.i2c_rx b.hw.i2c_n))]
          ++ (if b.panel_ then [Effect.draw_bitmap_full 0] else [])
          ++ [Effect.lv_screen_load Screen.scr_shutdown_, Effect.lv_refr_now,
              Effect.esp_task_wdt_delete]
          ++ (if b.hw.network_type = NetworkType.ML307 then
                [Effect.gpio_reset_pin 39, Effect.gpio_set_direction_output 39,
                 Effect.gpio_set_level 39 0, Effect.vTaskDelay 100,
                 Effect.gpio_set_level 39 1, Effect.vTaskDelay 3750,
                 Effect.gpio_set_level 39 0]
              else if b.modem_powered_on_ then []
              else List.replicate 10 (Effect.vTaskDelay 300))
          ++ [Effect.i2c_read 0x0C (u8 (b.hw.i2c_rx (b.hw.i2c_n + 1))),
              Effect.i2c_write 0x0C (u8 (u8 (u8 (b.hw.i2c_rx (b.hw.i2c_n + 1)) &&& 0x0B))),
              Effect.i2c_read 0x06 (u8 (b.hw.i2c_rx (b.hw.i2c_n + 2))),
              Effect.i2c_write 0x06 (u8 (u8 (u8 (b.hw.i2c_rx (b.hw.i2c_n + 2)) ||| (1 <<< 5)))),
              Effect.vTaskDelay 3000]) := by
  by_cases hc : b.hw.charge_state_at b.hw.i2c_n = 0
  · cases hn : b.hw.network_type <;> cases hp : b.panel_ <;> cases hm : b.modem_powered_on_ <;>
      simp only [Shutdown, GetChargeState_eq, hc, hn, hp, hm, ClearDisplay, PowerOffModem,
        ML307R_PIN_PWR, Shutdown_wait_modem_eq, ne_eq, not_true_eq_false, if_false, if_true,
        Bool.not_true, Bool.not_false, Bool.false_eq_true, Board.emit, Board.vTaskDelay,
        Board.lv_screen_load, Platform.vTaskDelay, Platform.lv_screen_load, Platform.emit,
        SetShippingMode_true_eq, reduceCtorEq] <;>
      simp
  · simp [Shutdown, GetChargeState_eq, hc, Board.lv_label_set_text, Board.lv_screen_load,
      Board.emit, Board.vTaskDelay, Platform.lv_label_set_text, Platform.lv_screen_load,
      Platform.emit, Platform.vTaskDelay]

/-- What `Shutdown` leaves alone, and the screen it ends on: the screen that was active
when the shutdown is refused, the shutdown screen otherwise. -/
theorem Shutdown_frame (b : Board) :
    (Shutdown b).hw.wake_word_running = b.hw.wake_word_running
    ∧ (Shutdown b).hw.bat_vol_n = b.hw.bat_vol_n
    ∧ (Shutdown b).hw.bat_vol_src = b.hw.bat_vol_src
    ∧ (Shutdown b).hw.i2c_rx = b.hw.i2c_rx
    ∧ (Shutdown b).led_strip_ = b.led_strip_
    ∧ (Shutdown b).hw.screen
        = (if b.hw.charge_state_at b.hw.i2c_n ≠ 0 then b.hw.screen else Screen.scr_shutdown_) := by
  by_cases hc : b.hw.charge_state_at b.hw.i2c_n = 0
  · cases hn : b.hw.network_type <;> cases hp : b.panel_ <;> cases hm : b.modem_powered_on_ <;>
      simp only [Shutdown, GetChargeState_eq, hc, hn, hp, hm, ClearDisplay, PowerOffModem,
        ML307R_PIN_PWR, Shutdown_wait_modem_eq, ne_eq, not_true_eq_false, if_false, if_true,
        Bool.not_true, Bool.not_false, Bool.false_eq_true, Board.emit, Board.vTaskDelay,
        Board.lv_screen_load, Platform.vTaskDelay, Platform.lv_screen_load, Platform.emit,
        SetShippingMode_true_eq, reduceCtorEq, and_self]
  · simp [Shutdown, GetChargeState_eq, hc, Board.lv_label_set_text, Board.lv_screen_load,
      Board.emit, Board.vTaskDelay, Platform.lv_label_set_text, Platform.lv_screen_load,
      Platform.emit, Platform.vTaskDelay]

/-- Every call `Shutdown` makes is one of its own kinds of call: none of them is a
restoring call, and none is a 5000 ms wait. -/
theorem Shutdown_effects (b : Board) :
    ∃ ext, (Shutdown b).hw.trace = b.hw.trace ++ ext
      ∧ (∀ e ∈ ext, e.of_Shutdown = true) := by
  refine ⟨_, Shutdown_trace b, ?_⟩
  intro e he
  split_ifs at he with h1 h2 h3 h4 <;>
    simp only [List.mem_append, List.mem_cons, List.mem_singleton, List.not_mem_nil, or_false,
      false_or, List.mem_replicate, List.append_nil, List.nil_append] at he
  all_goals
    (repeat' rcases he with he | he) <;>
    first
    | rfl
    | (rw [he.2]; rfl)

theorem of_Shutdown_not_restore (e : Effect) (h : e.of_Shutdown = true) :
    e.is_restore = false ∧ e ≠ Effect.vTaskDelay 5000 := by
  cases e <;> simp_all [Effect.of_Shutdown, Effect.is_restore]
  omega

/-! ## Sleep: the escalation path -/

/-- One sample of the sampling loop of `Sleep`: its calls are a charger read, if any, and
the 20 ms wait; screen and wake-word flag stay as they are. -/
theorem Sleep_sample_effects (b : Board) (low_count : Nat) :
    (∃ ext, (Sleep_sample b low_count).1.hw.trace = b.hw.trace ++ ext
      ∧ ∀ e ∈ ext, e.is_restore = false)
    ∧ (Sleep_sample b low_count).1.hw.screen = b.hw.screen
    ∧ (Sleep_sample b low_count).1.hw.wake_word_running = b.hw.wake_word_running := by
  have key : ∀ ext : List Effect, (∀ e ∈ ext, e.is_restore = false) →
      (Sleep_sample b low_count).1.hw.trace = b.hw.trace ++ ext →
      ∃ ext, (Sleep_sample b low_count).1.hw.trace = b.hw.trace ++ ext
        ∧ ∀ e ∈ ext, e.is_restore = false := fun ext h1 h2 => ⟨ext, h2, h1⟩
  by_cases hv : b.hw.bat_vol_src b.hw.bat_vol_n ≤ BAT_VOL_EMPTY <;>
    by_cases hc : (u8 (b.hw.i2c_rx b.hw.i2c_n) >>> 3) &&& 0x03 = 0
  · refine ⟨key [Effect.i2c_read 0x08 (u8 (b.hw.i2c_rx b.hw.i2c_n)), Effect.vTaskDelay 20]
      (by simp [Effect.is_restore]) ?_, ?_, ?_⟩ <;>
    simp [Sleep_sample, Platform.getVolt, GetChargeState_eq, Platform.charge_state_at,
      Board.vTaskDelay, Platform.vTaskDelay, Platform.emit, hv, hc]
  · refine ⟨key [Effect.i2c_read 0x08 (u8 (b.hw.i2c_rx b.hw.i2c_n)), Effect.vTaskDelay 20]
      (by simp [Effect.is_restore]) ?_, ?_, ?_⟩ <;>
    simp [Sleep_sample, Platform.getVolt, GetChargeState_eq, Platform.charge_state_at,
      Board.vTaskDelay, Platform.vTaskDelay, Platform.emit, hv, hc]
  · refine ⟨key [Effect.vTaskDelay 20] (by simp [Effect.is_restore]) ?_, ?_, ?_⟩ <;>
    simp [Sleep_sample, Platform.getVolt, GetChargeState_eq, Platform.charge_state_at,
      Board.vTaskDelay, Platform.vTaskDelay, Platform.emit, hv, hc]
  · refine ⟨key [Effect.vTaskDelay 20] (by simp [Effect.is_restore]) ?_, ?_, ?_⟩ <;>
    simp [Sleep_sample, Platform.getVolt, GetChargeState_eq, Platform.charge_state_at,
      Board.vTaskDelay, Platform.vTaskDelay, Platform.emit, hv, hc]

/-- The sampling loop of `Sleep` makes no restoring call and keeps screen and wake-word
flag. -/
theorem Sleep_samples_effects (n : Nat) :
    ∀ (b : Board) (low_count : Nat),
      (∃ ext, (Sleep_samples n b low_count).1.hw.trace = b.hw.trace ++ ext
        ∧ ∀ e ∈ ext, e.is_restore = false)
      ∧ (Sleep_samples n b low_count).1.hw.screen = b.hw.screen
      ∧ (Sleep_samples n b low_count).1.hw.wake_word_running = b.hw.wake_word_running := by
  induction n with
  | zero => intro b low_count; exact ⟨⟨[], by simp [Sleep_samples], by simp⟩, rfl, rfl⟩
  | succ n ih =>
    intro b low_count
    obtain ⟨⟨ext1, t1, p1⟩, s1, w1⟩ := Sleep_sample_effects b low_count
    obtain ⟨⟨ext2, t2, p2⟩, s2, w2⟩ :=
      ih (Sleep_sample b low_count).1 (Sleep_sample b low_count).2
    simp only [Sleep_samples]
    refine ⟨⟨ext1 ++ ext2, by rw [t2, t1, List.append_assoc], ?_⟩, by rw [s2, s1],
      by rw [w2, w1]⟩
    intro e he
    rcases List.mem_append.mp he with h | h
    · exact p1 e h
    · exact p2 e h

/-- When the wait loop of `Sleep` is left through `Shutdown(); return;`, the board it ends
in is the result of `Shutdown` on a board that still shows the screen and has the wake-word
flag of the start of the loop, and no restoring call was made in the loop. -/
theorem Sleep_wait_escalated (fuel : Nat) :
    ∀ (b b2 : Board), Sleep_wait fuel b = some (b2, true) →
      ∃ b1 ext, b2 = Shutdown b1
        ∧ b1.hw.trace = b.hw.trace ++ ext
        ∧ (∀ e ∈ ext, e.is_restore = false)
        ∧ b1.hw.screen = b.hw.screen
        ∧ b1.hw.wake_word_running = b.hw.wake_word_running := by
  induction fuel with
  | zero => intro b b2 h; simp [Sleep_wait] at h
  | succ fuel ih =>
    intro b b2 h
    obtain ⟨-, -, -, -, -, lt⟩ := Sleep_light_sleep_frame b
    have ls : (Sleep_light_sleep b).hw.screen = b.hw.screen := rfl
    have lw : (Sleep_light_sleep b).hw.wake_word_running = b.hw.wake_word_running := rfl
    obtain ⟨⟨ext1, t1, p1⟩, s1, w1⟩ := Sleep_samples_effects SAMPLE_COUNT (Sleep_light_sleep b) 0
    have hall : ∀ e ∈ [Effect.esp_task_wdt_reset,
        Effect.esp_sleep_enable_timer_wakeup 300000000, Effect.esp_light_sleep_start] ++ ext1,
        e.is_restore = false := by
      intro e he
      rcases List.mem_append.mp he with h1 | h1
      · simp only [List.mem_cons, List.mem_singleton, List.not_mem_nil, or_false] at h1
        rcases h1 with h1 | h1 | h1 <;> subst h1 <;> rfl
      · exact p1 e h1
    simp only [Sleep_wait] at h
    split_ifs at h with h1 h2
    · simp only [Option.some.injEq, Prod.mk.injEq, and_true] at h
      refine ⟨_, _, h.symm, ?_, hall, by rw [s1, ls], by rw [w1, lw]⟩
      rw [t1, lt, List.append_assoc]
    · obtain ⟨b1, ext2, e1, t2, p2, s2, w2⟩ := ih _ _ h
      refine ⟨b1, ([Effect.esp_task_wdt_reset,
        Effect.esp_sleep_enable_timer_wakeup 300000000, Effect.esp_light_sleep_start] ++ ext1)
          ++ ext2, e1, ?_, ?_, by rw [s2, s1, ls], by rw [w2, w1, lw]⟩
      · rw [t2, t1, lt]
        simp only [List.append_assoc]
      · intro e he
        rcases List.mem_append.mp he with h3 | h3
        · exact hall e h3
        · exact p2 e h3
    · simp at h

/-- The part of `Sleep` before the loop ends on the sleep screen with wake-word detection
off. -/
theorem Sleep_enter_state (b : Board) :
    (Sleep_enter b).1.hw.screen = Screen.scr_sleep_
    ∧ (Sleep_enter b).1.hw.wake_word_running = false := by
  cases hw : b.hw.wake_word_running <;>
    simp [Sleep_enter, hw, Board.emit, Board.vTaskDelay, Board.lv_screen_load,
      Platform.EnableWakeWordDetection, Platform.lv_screen_load, Platform.vTaskDelay,
      Platform.emit]

/-- C29. The escalation path of `Sleep` restores nothing.  When the wait loop is left
through `Shutdown(); return;`, `Sleep` returns the very board in which `Shutdown`
returned: `Shutdown` was called on the sleep screen with wake-word detection off, no call
made since `Sleep` entered its loop is a restoring call (codec input or output on, audio
service start, wake-word detection on, power-save timer wake-up), wake-word detection is
still off, and the active screen is the sleep screen when the shutdown was refused and
the shutdown screen otherwise. -/
theorem Sleep_escalation_restores_nothing (fuel : Nat) (b b2 : Board)
    (h : Sleep_wait fuel (Sleep_enter b).1 = some (b2, true)) :
    Sleep fuel b = some b2
    ∧ (∃ b1, b2 = Shutdown b1 ∧ b1.hw.screen = Screen.scr_sleep_
        ∧ b1.hw.wake_word_running = false
        ∧ b2.hw.screen
            = (if b1.hw.charge_state_at b1.hw.i2c_n ≠ 0 then Screen.scr_sleep_
               else Screen.scr_shutdown_))
    ∧ (∃ ext, b2.hw.trace = (Sleep_enter b).1.hw.trace ++ ext
        ∧ ∀ e ∈ ext, e.is_restore = false)
    ∧ b2.hw.wake_word_running = false := by
  obtain ⟨b1, ext, e1, t1, p1, s1, w1⟩ := Sleep_wait_escalated fuel _ _ h
  obtain ⟨es, ew⟩ := Sleep_enter_state b
  obtain ⟨ext2, t2, p2⟩ := Shutdown_effects b1
  obtain ⟨f1, -, -, -, -, f6⟩ := Shutdown_frame b1
  rw [es] at s1
  rw [ew] at w1
  refine ⟨?_, ⟨b1, e1, s1, w1, ?_⟩, ⟨ext ++ ext2, ?_, ?_⟩, ?_⟩
  · simp only [Sleep, h]
  · rw [e1, f6, s1]
  · rw [e1, t2, t1, List.append_assoc]
  · intro e he
    rcases List.mem_append.mp he with h3 | h3
    · exact p1 e h3
    · exact (of_Shutdown_not_restore e (p2 e h3)).1
  · rw [e1, f1, w1]

/-! ## StartUp: the boot-time low-voltage loop -/

/-- The loop of `StartUp` runs `StartUp_tick` until an iteration ends in `break`, and then
sets the indicator and returns. -/
theorem StartUp_loop_tick (fuel : Nat) (b : Board) (v : StartUpLocals) :
    StartUp_loop (fuel + 1) b v
      = (if (StartUp_tick b v).2.2 then some (SetIndicator (StartUp_tick b v).1 0 0 50)
         else StartUp_loop fuel (StartUp_tick b v).1 (StartUp_tick b v).2.1) := by
  by_cases hs : v.tick % 20 = 0
  · rcases h : StartUp_sample b { v with tick := v.tick + 1 } with ⟨b1, v1, stop⟩
    cases stop <;> simp [StartUp_loop, StartUp_tick, StartUp_breathe, hs, h]
  · simp [StartUp_loop, StartUp_tick, StartUp_breathe, hs]

theorem shutdown_calls_append (t s : List Effect) :
    shutdown_calls (t ++ s) = shutdown_calls t + shutdown_calls s := by
  simp [shutdown_calls]

/-- Function `Shutdown` makes no 5000 ms wait. -/
theorem Shutdown_shutdown_calls (b : Board) :
    shutdown_calls (Shutdown b).hw.trace = shutdown_calls b.hw.trace := by
  obtain ⟨ext, t, p⟩ := Shutdown_effects b
  rw [t, shutdown_calls_append]
  have : shutdown_calls ext = 0 := by
    unfold shutdown_calls
    rw [List.count_eq_zero]
    intro hmem
    exact (of_Shutdown_not_restore _ (p _ hmem)).2 rfl
  omega

/-- Showing the tip screen samples nothing, reads nothing and waits for nothing. -/
theorem StartUp_show_tip_hw (b : Board) :
    (StartUp_show_tip b).hw.bat_vol_n = b.hw.bat_vol_n
    ∧ (StartUp_show_tip b).hw.bat_vol_src = b.hw.bat_vol_src
    ∧ (StartUp_show_tip b).hw.i2c_n = b.hw.i2c_n
    ∧ (StartUp_show_tip b).hw.i2c_rx = b.hw.i2c_rx
    ∧ shutdown_calls (StartUp_show_tip b).hw.trace = shutdown_calls b.hw.trace := by
  by_cases hs : b.hw.screen = Screen.scr_tip_ <;> by_cases hp : b.panel_ <;>
    simp [StartUp_show_tip, ClearDisplay, hs, hp, Board.emit, Board.lv_screen_load,
      Platform.lv_screen_load, Platform.emit, shutdown_calls]

/-- A sample of the loop of `StartUp`: it takes one voltage sample, ends in `break`
exactly when the voltage is not below 3.5 V, and otherwise sets the counter `sec` to 5 when
the charger reports charging and lowers it by one when it does not, calling `Shutdown`
(followed by the 5000 ms wait) exactly when the counter was at or below 0. -/
theorem StartUp_sample_spec (b : Board) (v : StartUpLocals) :
    (StartUp_sample b v).1.hw.bat_vol_n = b.hw.bat_vol_n + 1
    ∧ (StartUp_sample b v).1.hw.bat_vol_src = b.hw.bat_vol_src
    ∧ (StartUp_sample b v).1.hw.i2c_rx = b.hw.i2c_rx
    ∧ (StartUp_sample b v).2.1.tick = v.tick
    ∧ (StartUp_sample b v).2.1.brightness = v.brightness
    ∧ (StartUp_sample b v).2.1.increasing = v.increasing
    ∧ ((StartUp_sample b v).2.2 = true ↔ ¬ b.hw.bat_vol_src b.hw.bat_vol_n < 3.5)
    ∧ (StartUp_sample b v).2.1.sec
        = (if b.hw.bat_vol_src b.hw.bat_vol_n < 3.5 then
             (if b.hw.charge_state_at b.hw.i2c_n = 0 then v.sec - 1 else 5)
           else v.sec)
    ∧ shutdown_calls (StartUp_sample b v).1.hw.trace
        = shutdown_calls b.hw.trace
          + (if b.hw.bat_vol_src b.hw.bat_vol_n < 3.5 ∧ b.hw.charge_state_at b.hw.i2c_n = 0
                ∧ v.sec ≤ 0 then 1 else 0)
    ∧ (¬ (b.hw.bat_vol_src b.hw.bat_vol_n < 3.5 ∧ b.hw.charge_state_at b.hw.i2c_n = 0
            ∧ v.sec ≤ 0) →
        (StartUp_sample b v).1.hw.i2c_n
          = b.hw.i2c_n + (if b.hw.bat_vol_src b.hw.bat_vol_n < 3.5 then 1 else 0)) := by
  obtain ⟨b1, hb1⟩ : ∃ x : Board, x = { b with hw := (Aw32001.GetChargeState
      (b.hw.getVolt.2.getCurr.2)).2 } := ⟨_, rfl⟩
  have g1 : b1.hw.bat_vol_n = b.hw.bat_vol_n + 1 := by rw [hb1]; rfl
  have g2 : b1.hw.bat_vol_src = b.hw.bat_vol_src := by rw [hb1]; rfl
  have g3 : b1.hw.i2c_rx = b.hw.i2c_rx := by rw [hb1]; rfl
  have g4 : b1.hw.i2c_n = b.hw.i2c_n + 1 := by rw [hb1]; rfl
  have g5 : shutdown_calls b1.hw.trace = shutdown_calls b.hw.trace := by
    rw [hb1]
    simp [Aw32001.GetChargeState, Aw32001.ReadReg, Platform.getVolt, Platform.getCurr,
      shutdown_calls]
  have hst : (Aw32001.GetChargeState (b.hw.getVolt.2.getCurr.2)).1
      = b.hw.charge_state_at b.hw.i2c_n := by
    simp [Aw32001.GetChargeState, Aw32001.ReadReg, Platform.getVolt, Platform.getCurr,
      Platform.charge_state_at]
  have hlbl : ∀ (x : Board) (l1 l2 : Label) (t1 t2 : Text),
      (StartUp_show_tip ((x.lv_label_set_text l1 t1).lv_label_set_text l2 t2)).hw.bat_vol_n
          = x.hw.bat_vol_n
      ∧ (StartUp_show_tip ((x.lv_label_set_text l1 t1).lv_label_set_text l2 t2)).hw.bat_vol_src
          = x.hw.bat_vol_src
      ∧ (StartUp_show_tip ((x.lv_label_set_text l1 t1).lv_label_set_text l2 t2)).hw.i2c_n
          = x.hw.i2c_n
      ∧ (StartUp_show_tip ((x.lv_label_set_text l1 t1).lv_label_set_text l2 t2)).hw.i2c_rx
          = x.hw.i2c_rx
      ∧ shutdown_calls
          (StartUp_show_tip ((x.lv_label_set_text l1 t1).lv_label_set_text l2 t2)).hw.trace
          = shutdown_calls x.hw.trace := by
    intro x l1 l2 t1 t2
    obtain ⟨a1, a2, a3, a4, a5⟩ :=
      StartUp_show_tip_hw ((x.lv_label_set_text l1 t1).lv_label_set_text l2 t2)
    refine ⟨by rw [a1]; rfl, by rw [a2]; rfl, by rw [a3]; rfl, by rw [a4]; rfl, ?_⟩
    rw [a5]
    simp [Board.lv_label_set_text, Platform.lv_label_set_text, Platform.emit, shutdown_calls]
  by_cases hv : b.hw.bat_vol_src b.hw.bat_vol_n < 3.5
  · by_cases hc : b.hw.charge_state_at b.hw.i2c_n = 0
    · by_cases hs : v.sec ≤ 0
      · have e : StartUp_sample b v
            = (StartUp_show_tip
                ((((Shutdown b1).vTaskDelay 5000).lv_label_set_text Label.scr_tip_label_title_
                    ⟨"电量低 %d 秒后将关机", [(v.sec : ℚ)]⟩).lv_label_set_text Label.scr_tip_label_
                    ⟨"电压: %.1fV\n电流: %dmA", [b.hw.bat_vol_src b.hw.bat_vol_n,
                      ((b.hw.bat_cur_src b.hw.bat_cur_n : Int) : ℚ)]⟩),
                { v with bat_vol := b.hw.bat_vol_src b.hw.bat_vol_n,
                         bat_cur := b.hw.bat_cur_src b.hw.bat_cur_n,
                         text_bat_info := ⟨"电压: %.1fV\n电流: %dmA",
                            [b.hw.bat_vol_src b.hw.bat_vol_n,
                             ((b.hw.bat_cur_src b.hw.bat_cur_n : Int) : ℚ)]⟩,
                         charging := false,
                         text_tip := ⟨"电量低 %d 秒后将关机", [(v.sec : ℚ)]⟩,
                         sec := v.sec - 1 }, false) := by
          rw [hb1]
          have hc2 := hc
          unfold Platform.charge_state_at at hc2
          simp [StartUp_sample, Platform.getVolt, Platform.getCurr, GetChargeState_eq,
            Platform.charge_state_at, hv, hc2, hs]
        obtain ⟨a1, a2, a3, a4, a5⟩ := hlbl ((Shutdown b1).vTaskDelay 5000)
          Label.scr_tip_label_title_ Label.scr_tip_label_
          ⟨"电量低 %d 秒后将关机", [(v.sec : ℚ)]⟩
          ⟨"电压: %.1fV\n电流: %dmA", [b.hw.bat_vol_src b.hw.bat_vol_n,
                      ((b.hw.bat_cur_src b.hw.bat_cur_n : Int) : ℚ)]⟩
        obtain ⟨-, f2, f3, f4, -, -⟩ := Shutdown_frame b1
        have f5 := Shutdown_shutdown_calls b1
        rw [e]
        refine ⟨?_, ?_, ?_, rfl, rfl, rfl, by simp [hv], by simp [hv, hc], ?_, ?_⟩
        · show (StartUp_show_tip _).hw.bat_vol_n = _
          rw [a1]
          show (Shutdown b1).hw.bat_vol_n = _
          rw [f2, g1]
        · show (StartUp_show_tip _).hw.bat_vol_src = _
          rw [a2]
          show (Shutdown b1).hw.bat_vol_src = _
          rw [f3, g2]
        · show (StartUp_show_tip _).hw.i2c_rx = _
          rw [a4]
          show (Shutdown b1).hw.i2c_rx = _
          rw [f4, g3]
        · show shutdown_calls (StartUp_show_tip _).hw.trace = _
          rw [a5]
          have : shutdown_calls ((Shutdown b1).vTaskDelay 5000).hw.trace
              = shutdown_calls (Shutdown b1).hw.trace + 1 := by
            simp [Board.vTaskDelay, Platform.vTaskDelay, Platform.emit, shutdown_calls]
          rw [this, f5, g5, if_pos ⟨hv, hc, hs⟩]
        · intro hn
          exact absurd ⟨hv, hc, hs⟩ hn
      · have e : StartUp_sample b v
            = (StartUp_show_tip
                ((b1.lv_label_set_text Label.scr_tip_label_title_
                    ⟨"电量低 %d 秒后将关机", [(v.sec : ℚ)]⟩).lv_label_set_text Label.scr_tip_label_
                    ⟨"电压: %.1fV\n电流: %dmA", [b.hw.bat_vol_src b.hw.bat_vol_n,
                      ((b.hw.bat_cur_src b.hw.bat_cur_n : Int) : ℚ)]⟩),
                { v with bat_vol := b.hw.bat_vol_src b.hw.bat_vol_n,
                         bat_cur := b.hw.bat_cur_src b.hw.bat_cur_n,
                         text_bat_info := ⟨"电压: %.1fV\n电流: %dmA",
                            [b.hw.bat_vol_src b.hw.bat_vol_n,
                             ((b.hw.bat_cur_src b.hw.bat_cur_n : Int) : ℚ)]⟩,
                         charging := false,
                         text_tip := ⟨"电量低 %d 秒后将关机", [(v.sec : ℚ)]⟩,
                         sec := v.sec - 1 }, false) := by
          rw [hb1]
          have hc2 := hc
          unfold Platform.charge_state_at at hc2
          simp [StartUp_sample, Platform.getVolt, Platform.getCurr, GetChargeState_eq,
            Platform.charge_state_at, hv, hc2, hs]
        obtain ⟨a1, a2, a3, a4, a5⟩ := hlbl b1
          Label.scr_tip_label_title_ Label.scr_tip_label_
          ⟨"电量低 %d 秒后将关机", [(v.sec : ℚ)]⟩
          ⟨"电压: %.1fV\n电流: %dmA", [b.hw.bat_vol_src b.hw.bat_vol_n,
                      ((b.hw.bat_cur_src b.hw.bat_cur_n : Int) : ℚ)]⟩
        rw [e]
        refine ⟨?_, ?_, ?_, rfl, rfl, rfl, by simp [hv], by simp [hv, hc], ?_, ?_⟩
        · show (StartUp_show_tip _).hw.bat_vol_n = _
          rw [a1, g1]
        · show (StartUp_show_tip _).hw.bat_vol_src = _
          rw [a2, g2]
        · show (StartUp_show_tip _).hw.i2c_rx = _
          rw [a4, g3]
        · show shutdown_calls (StartUp_show_tip _).hw.trace = _
          rw [a5, g5, if_neg (fun h => hs h.2.2)]
          rfl
        · intro _
          show (StartUp_show_tip _).hw.i2c_n = _
          rw [a3, g4, if_pos hv]
    · have e : StartUp_sample b v
          = (StartUp_show_tip
              ((b1.lv_label_set_text Label.scr_tip_label_title_
                  ⟨"电量低，充电中...", []⟩).lv_label_set_text Label.scr_tip_label_
                  ⟨"电压: %.1fV\n电流: %dmA", [b.hw.bat_vol_src b.hw.bat_vol_n,
                    ((b.hw.bat_cur_src b.hw.bat_cur_n : Int) : ℚ)]⟩),
              { v with bat_vol := b.hw.bat_vol_src b.hw.bat_vol_n,
                       bat_cur := b.hw.bat_cur_src b.hw.bat_cur_n,
                       text_bat_info := ⟨"电压: %.1fV\n电流: %dmA",
                          [b.hw.bat_vol_src b.hw.bat_vol_n,
                           ((b.hw.bat_cur_src b.hw.bat_cur_n : Int) : ℚ)]⟩,
                       charging := true,
                       sec := 5,
                       text_tip := ⟨"电量低，充电中...", []⟩ }, false) := by
        rw [hb1]
        have hc2 := hc
        unfold Platform.charge_state_at at hc2
        simp [StartUp_sample, Platform.getVolt, Platform.getCurr, GetChargeState_eq,
          Platform.charge_state_at, hv, hc2]
      obtain ⟨a1, a2, a3, a4, a5⟩ := hlbl b1
        Label.scr_tip_label_title_ Label.scr_tip_label_
        ⟨"电量低，充电中...", []⟩
        ⟨"电压: %.1fV\n电流: %dmA", [b.hw.bat_vol_src b.hw.bat_vol_n,
                    ((b.hw.bat_cur_src b.hw.bat_cur_n : Int) : ℚ)]⟩
      rw [e]
      refine ⟨?_, ?_, ?_, rfl, rfl, rfl, by simp [hv], by simp [hv, hc], ?_, ?_⟩
      · show (StartUp_show_tip _).hw.bat_vol_n = _
        rw [a1, g1]
      · show (StartUp_show_tip _).hw.bat_vol_src = _
        rw [a2, g2]
      · show (StartUp_show_tip _).hw.i2c_rx = _
        rw [a4, g3]
      · show shutdown_calls (StartUp_show_tip _).hw.trace = _
        rw [a5, g5, if_neg (fun h => hc h.2.1)]
        rfl
      · intro _
        show (StartUp_show_tip _).hw.i2c_n = _
        rw [a3, g4, if_pos hv]
  · simp [StartUp_sample, Platform.getVolt, Platform.getCurr, hv]

/-- One step of the LED ramp keeps the counters and keeps the brightness within 0..255. -/
theorem StartUp_breathe_spec (v : StartUpLocals) :
    (StartUp_breathe v).tick = v.tick
    ∧ (StartUp_breathe v).sec = v.sec
    ∧ (0 ≤ v.brightness → v.brightness ≤ 255 →
        0 ≤ (StartUp_breathe v).brightness ∧ (StartUp_breathe v).brightness ≤ 255) := by
  unfold StartUp_breathe
  cases hi : v.increasing
  · by_cases h2 : v.brightness - 5 ≤ 0
    · simp [h2]
    · simp [h2]
      intros
      omega
  · by_cases h1 : v.brightness + 5 ≥ 255
    · simp [h1]
    · simp [h1]
      intros
      omega

/-- Setting the indicator and waiting 50 ms samples nothing and reads nothing. -/
theorem StartUp_led_frame (x : Board) (n : Nat) :
    ((SetIndicator x 0 0 n).vTaskDelay 50).hw.bat_vol_n = x.hw.bat_vol_n
    ∧ ((SetIndicator x 0 0 n).vTaskDelay 50).hw.bat_vol_src = x.hw.bat_vol_src
    ∧ ((SetIndicator x 0 0 n).vTaskDelay 50).hw.i2c_n = x.hw.i2c_n
    ∧ ((SetIndicator x 0 0 n).vTaskDelay 50).hw.i2c_rx = x.hw.i2c_rx
    ∧ shutdown_calls ((SetIndicator x 0 0 n).vTaskDelay 50).hw.trace
        = shutdown_calls x.hw.trace := by
  cases hl : x.led_strip_ <;>
    simp [SetIndicator, hl, Board.emit, Board.vTaskDelay, Platform.vTaskDelay, Platform.emit,
      shutdown_calls]

/-- One iteration of the loop of `StartUp`, by whether it is a sampling iteration. -/
theorem StartUp_tick_eq (b : Board) (v : StartUpLocals) :
    StartUp_tick b v
      = (if v.tick % 20 = 0 then
          (if (StartUp_sample b { v with tick := v.tick + 1 }).2.2 then
            ((StartUp_sample b { v with tick := v.tick + 1 }).1,
             (StartUp_sample b { v with tick := v.tick + 1 }).2.1, true)
           else
            ((SetIndicator (StartUp_sample b { v with tick := v.tick + 1 }).1 0 0
                ((StartUp_breathe
                  (StartUp_sample b { v with tick := v.tick + 1 }).2.1).brightness
                    % 256).toNat).vTaskDelay 50,
             StartUp_breathe (StartUp_sample b { v with tick := v.tick + 1 }).2.1, false))
         else
          ((SetIndicator b 0 0
              ((StartUp_breathe { v with tick := v.tick + 1 }).brightness % 256).toNat).vTaskDelay
                50,
           StartUp_breathe { v with tick := v.tick + 1 }, false)) := by
  by_cases hs : v.tick % 20 = 0
  · rcases h : StartUp_sample b { v with tick := v.tick + 1 } with ⟨b1, v1, stop⟩
    cases stop <;> simp [StartUp_tick, hs, h]
  · simp [StartUp_tick, hs]

/-- One iteration of the loop of `StartUp`.  The tick counter goes up by one; a voltage sample
is taken exactly when the tick counter was a multiple of 20; the iteration ends in `break`
exactly when that sample is not below 3.5 V; `sec` and the calls of `Shutdown` follow the
sample; the brightness stays within 0..255. -/
theorem StartUp_tick_spec (b : Board) (v : StartUpLocals) :
    (StartUp_tick b v).2.1.tick = v.tick + 1
    ∧ (StartUp_tick b v).1.hw.bat_vol_n
        = b.hw.bat_vol_n + (if v.tick % 20 = 0 then 1 else 0)
    ∧ (StartUp_tick b v).1.hw.bat_vol_src = b.hw.bat_vol_src
    ∧ (StartUp_tick b v).1.hw.i2c_rx = b.hw.i2c_rx
    ∧ ((StartUp_tick b v).2.2 = true
        ↔ (v.tick % 20 = 0 ∧ ¬ b.hw.bat_vol_src b.hw.bat_vol_n < 3.5))
    ∧ (StartUp_tick b v).2.1.sec
        = (if v.tick % 20 = 0 ∧ b.hw.bat_vol_src b.hw.bat_vol_n < 3.5 then
             (if b.hw.charge_state_at b.hw.i2c_n = 0 then v.sec - 1 else 5)
           else v.sec)
    ∧ shutdown_calls (StartUp_tick b v).1.hw.trace
        = shutdown_calls b.hw.trace
          + (if v.tick % 20 = 0 ∧ b.hw.bat_vol_src b.hw.bat_vol_n < 3.5
                ∧ b.hw.charge_state_at b.hw.i2c_n = 0 ∧ v.sec ≤ 0 then 1 else 0)
    ∧ (¬ (v.tick % 20 = 0 ∧ b.hw.bat_vol_src b.hw.bat_vol_n < 3.5
            ∧ b.hw.charge_state_at b.hw.i2c_n = 0 ∧ v.sec ≤ 0) →
        (StartUp_tick b v).1.hw.i2c_n
          = b.hw.i2c_n
            + (if v.tick % 20 = 0 ∧ b.hw.bat_vol_src b.hw.bat_vol_n < 3.5 then 1 else 0))
    ∧ (0 ≤ v.brightness → v.brightness ≤ 255 →
        0 ≤ (StartUp_tick b v).2.1.brightness ∧ (StartUp_tick b v).2.1.brightness ≤ 255) := by
  rw [StartUp_tick_eq]
  by_cases h0 : v.tick % 20 = 0
  · obtain ⟨s1, s2, s3, s4, s5, s6, s7, s8, s9, s10⟩ :=
      StartUp_sample_spec b { v with tick := v.tick + 1 }
    simp only [] at s4 s5 s8 s9 s10
    rw [if_pos h0]
    by_cases hv : b.hw.bat_vol_src b.hw.bat_vol_n < 3.5
    · have hstop : ¬ (StartUp_sample b { v with tick := v.tick + 1 }).2.2 = true :=
        fun h => (s7.mp h) hv
      rw [if_neg hstop]
      obtain ⟨l1, l2, l3, l4, l5⟩ :=
        StartUp_led_frame (StartUp_sample b { v with tick := v.tick + 1 }).1
          ((StartUp_breathe
            (StartUp_sample b { v with tick := v.tick + 1 }).2.1).brightness % 256).toNat
      obtain ⟨r1, r2, r3⟩ :=
        StartUp_breathe_spec (StartUp_sample b { v with tick := v.tick + 1 }).2.1
      rw [if_pos hv] at s8
      refine ⟨?_, ?_, ?_, ?_, ?_, ?_, ?_, ?_, ?_⟩
      · show (StartUp_breathe _).tick = _
        rw [r1, s4]
      · show ((SetIndicator _ 0 0 _).vTaskDelay 50).hw.bat_vol_n = _
        rw [l1, s1, if_pos h0]
      · show ((SetIndicator _ 0 0 _).vTaskDelay 50).hw.bat_vol_src = _
        rw [l2, s2]
      · show ((SetIndicator _ 0 0 _).vTaskDelay 50).hw.i2c_rx = _
        rw [l4, s3]
      · constructor
        · intro h; exact absurd h (by simp)
        · intro h; exact absurd hv h.2
      · show (StartUp_breathe _).sec = _
        rw [r2, s8]
        simp only [h0, hv, and_self, if_true]
      · show shutdown_calls ((SetIndicator _ 0 0 _).vTaskDelay 50).hw.trace = _
        rw [l5, s9]
        simp only [h0, true_and]
      · intro hn
        show ((SetIndicator _ 0 0 _).vTaskDelay 50).hw.i2c_n = _
        rw [l3, s10 (fun h => hn ⟨h0, h⟩)]
        simp only [h0, hv, and_self, if_true]
      · intro b0 b255
        show 0 ≤ (StartUp_breathe _).brightness ∧ (StartUp_breathe _).brightness ≤ 255
        exact r3 (by rw [s5]; exact b0) (by rw [s5]; exact b255)
    · have hstop : (StartUp_sample b { v with tick := v.tick + 1 }).2.2 = true := s7.mpr hv
      rw [if_pos hstop]
      rw [if_neg hv] at s8
      refine ⟨s4, by rw [if_pos h0]; exact s1, s2, s3, ?_, ?_, ?_, ?_, ?_⟩
      · exact ⟨fun _ => ⟨h0, hv⟩, fun _ => rfl⟩
      · show (StartUp_sample b _).2.1.sec = _
        rw [s8]
        simp only [hv, and_false, if_false]
      · show shutdown_calls (StartUp_sample b _).1.hw.trace = _
        rw [s9]
        simp only [hv, false_and, and_false, if_false]
      · intro _
        show (StartUp_sample b _).1.hw.i2c_n = _
        rw [s10 (fun h => hv h.1)]
        simp only [hv, and_false, if_false]
      · intro b0 b255
        show 0 ≤ (StartUp_sample b _).2.1.brightness ∧ (StartUp_sample b _).2.1.brightness ≤ 255
        rw [s5]
        exact ⟨b0, b255⟩
  · rw [if_neg h0]
    obtain ⟨l1, l2, l3, l4, l5⟩ := StartUp_led_frame b
      ((StartUp_breathe { v with tick := v.tick + 1 }).brightness % 256).toNat
    obtain ⟨r1, r2, r3⟩ := StartUp_breathe_spec { v with tick := v.tick + 1 }
    refine ⟨r1, by rw [if_neg h0]; exact l1, l2, l4, ?_, ?_, ?_, ?_, r3⟩
    · constructor
      · intro h; exact absurd h (by simp)
      · intro h; exact absurd h.1 h0
    · show (StartUp_breathe _).sec = _
      rw [r2]
      simp only [h0, false_and, if_false]
    · show shutdown_calls ((SetIndicator _ 0 0 _).vTaskDelay 50).hw.trace = _
      rw [l5]
      simp only [h0, false_and, if_false, Nat.add_zero]
    · intro _
      show ((SetIndicator _ 0 0 _).vTaskDelay 50).hw.i2c_n = _
      rw [l3]
      simp only [h0, false_and, if_false, Nat.add_zero]

/-- The first `n + 1` iterations are the first `n` followed by one more, unless the loop
was left before. -/
theorem StartUp_ticks_succ (n : Nat) :
    ∀ (b : Board) (v : StartUpLocals),
      StartUp_ticks (n + 1) b v
        = (if (StartUp_ticks n b v).2.2 then StartUp_ticks n b v
           else StartUp_tick (StartUp_ticks n b v).1 (StartUp_ticks n b v).2.1) := by
  induction n with
  | zero =>
    intro b v
    rcases h : StartUp_tick b v with ⟨b1, v1, stop⟩
    cases stop <;> simp [StartUp_ticks, h]
  | succ n ih =>
    intro b v
    rcases h : StartUp_tick b v with ⟨b1, v1, stop⟩
    cases stop
    · have e : ∀ m, StartUp_ticks (m + 1) b v = StartUp_ticks m b1 v1 := by
        intro m
        simp [StartUp_ticks, h]
      rw [e (n + 1), e n, ih b1 v1]
    · have e : ∀ m, StartUp_ticks (m + 1) b v = (b1, v1, true) := by
        intro m
        simp [StartUp_ticks, h]
      rw [e (n + 1), e n]
      rfl

/-- The brightness stays within 0..255 on every iteration. -/
theorem StartUp_ticks_brightness (n : Nat) :
    ∀ (b : Board) (v : StartUpLocals), 0 ≤ v.brightness → v.brightness ≤ 255 →
      0 ≤ (StartUp_ticks n b v).2.1.brightness ∧ (StartUp_ticks n b v).2.1.brightness ≤ 255 := by
  induction n with
  | zero => intro b v h0 h255; exact ⟨h0, h255⟩
  | succ n ih =>
    intro b v h0 h255
    rw [StartUp_ticks_succ]
    obtain ⟨i0, i255⟩ := ih b v h0 h255
    split_ifs
    · exact ⟨i0, i255⟩
    · exact (StartUp_tick_spec _ _).2.2.2.2.2.2.2.2 i0 i255

/-- The first 100 iterations when the first five samples are below 3.5 V with the charger
NotCharging: the loop is not left, `Shutdown` is not called, and after `n` iterations
`(n + 19) / 20` samples have been taken and `sec` has come down by as many. -/
theorem StartUp_ticks_low (b : Board)
    (hlow : ∀ j < 5, b.hw.bat_vol_src (b.hw.bat_vol_n + j) < 3.5
      ∧ b.hw.charge_state_at (b.hw.i2c_n + j) = 0) (n : Nat) (hn : n ≤ 100) :
    (StartUp_ticks n b StartUp_locals).2.2 = false
    ∧ (StartUp_ticks n b StartUp_locals).2.1.tick = (n : Int)
    ∧ (StartUp_ticks n b StartUp_locals).2.1.sec = 5 - (((n + 19) / 20 : Nat) : Int)
    ∧ (StartUp_ticks n b StartUp_locals).1.hw.bat_vol_n = b.hw.bat_vol_n + (n + 19) / 20
    ∧ (StartUp_ticks n b StartUp_locals).1.hw.i2c_n = b.hw.i2c_n + (n + 19) / 20
    ∧ (StartUp_ticks n b StartUp_locals).1.hw.bat_vol_src = b.hw.bat_vol_src
    ∧ (StartUp_ticks n b StartUp_locals).1.hw.i2c_rx = b.hw.i2c_rx
    ∧ shutdown_calls (StartUp_ticks n b StartUp_locals).1.hw.trace
        = shutdown_calls b.hw.trace := by
  induction n with
  | zero => exact ⟨rfl, rfl, rfl, rfl, rfl, rfl, rfl, rfl⟩
  | succ n ih =>
    obtain ⟨i1, i2, i3, i4, i5, i6, i7, i8⟩ := ih (by omega)
    obtain ⟨t1, t2, t3, t4, t5, t6, t7, t8, -⟩ :=
      StartUp_tick_spec (StartUp_ticks n b StartUp_locals).1
        (StartUp_ticks n b StartUp_locals).2.1
    rw [StartUp_ticks_succ, i1]
    simp only [Bool.false_eq_true, if_false]
    simp only [Platform.charge_state_at, i2, i3, i4, i5, i6, i7, i8]
      at t1 t2 t3 t4 t5 t6 t7 t8
    by_cases h0 : n % 20 = 0
    · have hz : ((n : Int) % 20 = 0) := by omega
      have hj : (n + 19) / 20 < 5 := by omega
      obtain ⟨lv, lc⟩ := hlow ((n + 19) / 20) hj
      unfold Platform.charge_state_at at lc
      have hsec : ¬ (5 - (((n + 19) / 20 : Nat) : Int) ≤ 0) := by omega
      have hneg : ¬ ((n : Int) % 20 = 0 ∧ b.hw.bat_vol_src (b.hw.bat_vol_n + (n + 19) / 20) < 3.5
          ∧ (u8 (b.hw.i2c_rx (b.hw.i2c_n + (n + 19) / 20)) >>> 3) &&& 0x03 = 0
          ∧ 5 - (((n + 19) / 20 : Nat) : Int) ≤ 0) := fun h => hsec h.2.2.2
      have t8b := t8 hneg
      simp only [hz, lv, lc, hsec, and_self, and_false, and_true, if_true, if_false, not_true,
        not_false_eq_true, true_and] at t2 t5 t6 t7 t8b
      refine ⟨?_, ?_, ?_, ?_, ?_, t3, t4, ?_⟩
      · cases hb : (StartUp_tick (StartUp_ticks n b StartUp_locals).1
            (StartUp_ticks n b StartUp_locals).2.1).2.2
        · rfl
        · exact absurd hb (by rw [t5]; simp)
      · rw [t1]; push_cast; ring
      · rw [t6]; omega
      · rw [t2]; omega
      · rw [t8b]; omega
      · omega
    · have hz : ¬ ((n : Int) % 20 = 0) := by omega
      have hneg : ¬ ((n : Int) % 20 = 0 ∧ b.hw.bat_vol_src (b.hw.bat_vol_n + (n + 19) / 20) < 3.5
          ∧ (u8 (b.hw.i2c_rx (b.hw.i2c_n + (n + 19) / 20)) >>> 3) &&& 0x03 = 0
          ∧ 5 - (((n + 19) / 20 : Nat) : Int) ≤ 0) := fun h => hz h.1
      have t8b := t8 hneg
      simp only [hz, false_and, if_false, Nat.add_zero] at t2 t5 t6 t7 t8b
      refine ⟨?_, ?_, ?_, ?_, ?_, t3, t4, ?_⟩
      · cases hb : (StartUp_tick (StartUp_ticks n b StartUp_locals).1
            (StartUp_ticks n b StartUp_locals).2.1).2.2
        · rfl
        · exact absurd hb (by rw [t5]; simp)
      · rw [t1]; push_cast; ring
      · rw [t6]; omega
      · rw [t2]; omega
      · rw [t8b]; omega
      · omega

/-- C30. The boot-time low-voltage loop of `StartUp`, entered when the battery is detected.
The loop runs `StartUp_tick` until an iteration ends in `break`.  An iteration raises the
tick counter by one and takes a voltage sample exactly when the counter was a multiple of
20; it ends in `break` exactly when that sample is not below 3.5 V; a sample below 3.5 V
sets `sec` to 5 when the charger reports charging and lowers it by one otherwise, calling
`Shutdown` exactly when `sec` was at or below 0.  So when the first six samples are below
3.5 V with the charger NotCharging, `Shutdown` is not called in the first 100 iterations
(five samples) and is called in iteration 101, on the sixth sample.  The brightness stays
within 0..255 on every iteration. -/
theorem StartUp_low_voltage_loop (b : Board)
    (hlow : ∀ j < 6, b.hw.bat_vol_src (b.hw.bat_vol_n + j) < 3.5
      ∧ b.hw.charge_state_at (b.hw.i2c_n + j) = 0) :
    (b.hw.battery_detected = true → ∀ fuel,
        StartUp fuel b
          = (match StartUp_loop fuel b StartUp_locals with
             | none => StartUpResult.unfinished
             | some c => StartUpResult.returned c))
    ∧ (∀ fuel c v,
        StartUp_loop (fuel + 1) c v
          = (if (StartUp_tick c v).2.2 then some (SetIndicator (StartUp_tick c v).1 0 0 50)
             else StartUp_loop fuel (StartUp_tick c v).1 (StartUp_tick c v).2.1))
    ∧ (∀ c v,
        (StartUp_tick c v).2.1.tick = v.tick + 1
        ∧ (StartUp_tick c v).1.hw.bat_vol_n
            = c.hw.bat_vol_n + (if v.tick % 20 = 0 then 1 else 0)
        ∧ ((StartUp_tick c v).2.2 = true
            ↔ (v.tick % 20 = 0 ∧ ¬ c.hw.bat_vol_src c.hw.bat_vol_n < 3.5))
        ∧ (StartUp_tick c v).2.1.sec
            = (if v.tick % 20 = 0 ∧ c.hw.bat_vol_src c.hw.bat_vol_n < 3.5 then
                 (if c.hw.charge_state_at c.hw.i2c_n = 0 then v.sec - 1 else 5)
               else v.sec)
        ∧ shutdown_calls (StartUp_tick c v).1.hw.trace
            = shutdown_calls c.hw.trace
              + (if v.tick % 20 = 0 ∧ c.hw.bat_vol_src c.hw.bat_vol_n < 3.5
                    ∧ c.hw.charge_state_at c.hw.i2c_n = 0 ∧ v.sec ≤ 0 then 1 else 0))
    ∧ (∀ n ≤ 100,
        (StartUp_ticks n b StartUp_locals).2.2 = false
        ∧ (StartUp_ticks n b StartUp_locals).1.hw.bat_vol_n = b.hw.bat_vol_n + (n + 19) / 20
        ∧ (StartUp_ticks n b StartUp_locals).2.1.sec = 5 - (((n + 19) / 20 : Nat) : Int)
        ∧ shutdown_calls (StartUp_ticks n b StartUp_locals).1.hw.trace
            = shutdown_calls b.hw.trace)
    ∧ (StartUp_ticks 101 b StartUp_locals).2.2 = false
    ∧ (StartUp_ticks 101 b StartUp_locals).1.hw.bat_vol_n = b.hw.bat_vol_n + 6
    ∧ shutdown_calls (StartUp_ticks 101 b StartUp_locals).1.hw.trace
        = shutdown_calls b.hw.trace + 1
    ∧ (∀ c n,
        0 ≤ (StartUp_ticks n c StartUp_locals).2.1.brightness
        ∧ (StartUp_ticks n c StartUp_locals).2.1.brightness ≤ 255) := by
  have hlow5 : ∀ j < 5, b.hw.bat_vol_src (b.hw.bat_vol_n + j) < 3.5
      ∧ b.hw.charge_state_at (b.hw.i2c_n + j) = 0 := fun j hj => hlow j (by omega)
  refine ⟨?_, StartUp_loop_tick, ?_, ?_, ?_, ?_, ?_, ?_⟩
  · intro hd fuel
    simp only [StartUp, hd, StartUp_locals, Bool.not_true, Bool.false_eq_true, if_false]
  · intro c v
    obtain ⟨t1, t2, -, -, t5, t6, t7, -, -⟩ := StartUp_tick_spec c v
    exact ⟨t1, t2, t5, t6, t7⟩
  · intro n hn
    obtain ⟨i1, -, i3, i4, -, -, -, i8⟩ := StartUp_ticks_low b hlow5 n hn
    exact ⟨i1, i4, i3, i8⟩
  all_goals
    obtain ⟨i1, i2, i3, i4, i5, i6, i7, i8⟩ := StartUp_ticks_low b hlow5 100 (le_refl _)
    obtain ⟨t1, t2, t3, t4, t5, t6, t7, t8, -⟩ :=
      StartUp_tick_spec (StartUp_ticks 100 b StartUp_locals).1
        (StartUp_ticks 100 b StartUp_locals).2.1
    obtain ⟨lv, lc⟩ := hlow 5 (by omega)
    unfold Platform.charge_state_at at lc
    have j2 : (StartUp_ticks 100 b StartUp_locals).2.1.tick = 100 := i2
    have j3 : (StartUp_ticks 100 b StartUp_locals).2.1.sec = 0 := i3
    have j4 : (StartUp_ticks 100 b StartUp_locals).1.hw.bat_vol_n = b.hw.bat_vol_n + 5 := i4
    have j5 : (StartUp_ticks 100 b StartUp_locals).1.hw.i2c_n = b.hw.i2c_n + 5 := i5
    have h100 : (100 : Int) % 20 = 0 := by decide
    simp only [Platform.charge_state_at, j2, j3, j4, j5, i6, i7, i8, h100, lv, lc, le_refl,
      and_self, if_true, not_true_eq_false, and_false, iff_false] at t2 t5 t7
    have e100 : StartUp_ticks 101 b StartUp_locals
        = StartUp_tick (StartUp_ticks 100 b StartUp_locals).1
            (StartUp_ticks 100 b StartUp_locals).2.1 := by
      rw [StartUp_ticks_succ 100, i1]
      rfl
  · rw [e100]
    cases hb : (StartUp_tick (StartUp_ticks 100 b StartUp_locals).1
        (StartUp_ticks 100 b StartUp_locals).2.1).2.2
    · rfl
    · exact absurd hb t5
  · rw [e100, t2]
  · rw [e100, t7]
  · intro c n
    exact StartUp_ticks_brightness n c StartUp_locals (by decide) (by decide)

theorem StartUp_low_voltage_loop_witness :
    shutdown_calls (StartUp_ticks 101 (Board.boot (Platform.idle 0 3.3) 0) StartUp_locals).1.hw.trace
      = shutdown_calls (Board.boot (Platform.idle 0 3.3) 0).hw.trace + 1 :=
  (StartUp_low_voltage_loop (Board.boot (Platform.idle 0 3.3) 0)
    (fun j _ => ⟨by norm_num [Board.boot, Platform.idle],
      by simp [Board.boot, Platform.idle, Platform.charge_state_at, u8]⟩)).2.2.2.2.2.2.1

theorem Sleep_escalation_restores_nothing_witness :
    Sleep 1 (Board.boot (Platform.idle 0 3.3) 0)
      = some (Shutdown (Sleep_samples SAMPLE_COUNT
          (Sleep_light_sleep (Sleep_enter (Board.boot (Platform.idle 0 3.3) 0)).1) 0).1) :=
  (Sleep_escalation_restores_nothing 1 (Board.boot (Platform.idle 0 3.3) 0) _
    ((Sleep_wait_step 0 (Sleep_enter (Board.boot (Platform.idle 0 3.3) 0)).1).2.1 rfl
      (fun i _ => ⟨by norm_num [Sleep_enter, Board.boot, Platform.idle, BAT_VOL_EMPTY,
          Board.emit, Board.vTaskDelay, Board.lv_screen_load, Platform.EnableWakeWordDetection,
          Platform.lv_screen_load, Platform.vTaskDelay, Platform.emit],
        by simp [Sleep_enter, Board.boot, Platform.idle, Platform.charge_state_at, u8,
          Board.emit, Board.vTaskDelay, Board.lv_screen_load, Platform.EnableWakeWordDetection,
          Platform.lv_screen_load, Platform.vTaskDelay, Platform.emit]⟩))).1

/-! ## Binary floating point: rounding is monotone and accurate -/

theorem round_half_even_int (n : Int) : round_half_even (n : ℚ) = n := by
  simp [round_half_even]

theorem round_half_even_floor_le (q : ℚ) :
    ⌊q⌋ ≤ round_half_even q ∧ round_half_even q ≤ ⌊q⌋ + 1 := by
  unfold round_half_even
  simp only
  split_ifs <;> constructor <;> omega

theorem round_half_even_mono (q r : ℚ) (h : q ≤ r) : round_half_even q ≤ round_half_even r := by
  have hf : ⌊q⌋ ≤ ⌊r⌋ := Int.floor_le_floor h
  rcases hf.lt_or_eq with hlt | heq
  · have h1 := (round_half_even_floor_le q).2
    have h2 := (round_half_even_floor_le r).1
    omega
  · unfold round_half_even
    simp only
    rw [heq]
    have hqr : q - (⌊r⌋ : ℚ) ≤ r - (⌊r⌋ : ℚ) := by linarith
    split_ifs <;> first | omega | (exfalso; linarith)

theorem round_half_even_err (q : ℚ) : |(round_half_even q : ℚ) - q| ≤ 1 / 2 := by
  have h1 := Int.floor_le q
  have h2 := Int.lt_floor_add_one q
  unfold round_half_even
  simp only
  rw [abs_le]
  split_ifs <;> push_cast <;> constructor <;> linarith

theorem fl_zero (p : Nat) (emin : Int) : fl p emin 0 = 0 := by
  simp [fl]

/-- The unit in the last place used for `x`. -/
theorem fl_eq (p : Nat) (emin : Int) (x : ℚ) (hx : x ≠ 0) :
    fl p emin x
      = round_half_even (x / 2 ^ (binade emin x - ((p : Int) - 1)))
          * 2 ^ (binade emin x - ((p : Int) - 1)) := by
  simp [fl, hx]

theorem two_zpow_pos (k : Int) : (0 : ℚ) < 2 ^ k := zpow_pos (by norm_num) k

theorem binade_def (emin : Int) (x : ℚ) : binade emin x = max (log2_floor |x|) emin := rfl

theorem bit_length_spec (fuel : Nat) :
    ∀ n : Nat, n ≤ fuel → n ≠ 0 →
      2 ^ bit_length fuel n ≤ n ∧ n < 2 ^ (bit_length fuel n + 1) := by
  induction fuel with
  | zero => intro n h1 h2; omega
  | succ fuel ih =>
    intro n h1 h2
    by_cases h : n < 2
    · simp only [bit_length, if_pos h]
      constructor <;> simp <;> omega
    · simp only [bit_length, if_neg h]
      obtain ⟨i1, i2⟩ := ih (n / 2) (by omega) (by omega)
      rw [pow_succ] at i2 ⊢
      constructor
      · omega
      · rw [pow_succ]
        omega

theorem nat_log2_spec (n : Nat) (hn : n ≠ 0) :
    ((2 : ℚ) ^ (bit_length n n : Int) ≤ n) ∧ ((n : ℚ) < 2 ^ ((bit_length n n : Int) + 1)) := by
  obtain ⟨h1, h2⟩ := bit_length_spec n n (le_refl n) hn
  constructor
  · rw [zpow_natCast]
    exact_mod_cast h1
  · have : ((bit_length n n : Int) + 1) = ((bit_length n n + 1 : Nat) : Int) := by
      push_cast; ring
    rw [this, zpow_natCast]
    exact_mod_cast h2

/-- The integer part of the binary logarithm: `2^e ≤ x < 2^(e+1)`. -/
theorem log2_floor_spec (x : ℚ) (hx : 0 < x) :
    (2 : ℚ) ^ log2_floor x ≤ x ∧ x < 2 ^ (log2_floor x + 1) := by
  have hnum : 0 < x.num := Rat.num_pos.mpr hx
  have hn0 : x.num.natAbs ≠ 0 := by omega
  have hd0 : x.den ≠ 0 := x.den_nz
  obtain ⟨a1, a2⟩ := nat_log2_spec x.num.natAbs hn0
  obtain ⟨b1, b2⟩ := nat_log2_spec x.den hd0
  have hdpos : (0 : ℚ) < x.den := by exact_mod_cast Nat.pos_of_ne_zero hd0
  have hxeq : x = (x.num.natAbs : ℚ) / x.den := by
    have h := (Rat.num_div_den x).symm
    have hc : (x.num : ℚ) = (x.num.natAbs : ℚ) := by
      have e : ((x.num.natAbs : Int) : ℚ) = (x.num.natAbs : ℚ) := Int.cast_natCast _
      rw [← e, Int.natAbs_of_nonneg hnum.le]
    rw [hc] at h
    exact h
  obtain ⟨A, hA⟩ : ∃ A : Int, A = (bit_length x.num.natAbs x.num.natAbs : Int) := ⟨_, rfl⟩
  obtain ⟨B, hB⟩ : ∃ B : Int, B = (bit_length x.den x.den : Int) := ⟨_, rfl⟩
  rw [← hA] at a1 a2
  rw [← hB] at b1 b2
  have hlt : x < 2 ^ (A - B + 1) := by
    have e : (2 : ℚ) ^ (A - B + 1) = 2 ^ (A + 1) / 2 ^ B := by
      rw [← zpow_sub₀ (by norm_num : (2 : ℚ) ≠ 0)]
      congr 1
      ring
    rw [e, hxeq, div_lt_div_iff₀ hdpos (two_zpow_pos B)]
    calc (x.num.natAbs : ℚ) * 2 ^ B ≤ x.num.natAbs * x.den :=
          mul_le_mul_of_nonneg_left b1 (by positivity)
      _ < 2 ^ (A + 1) * x.den := mul_lt_mul_of_pos_right a2 hdpos
  have hgt : (2 : ℚ) ^ (A - B - 1) ≤ x := by
    have e : (2 : ℚ) ^ (A - B - 1) = 2 ^ A / 2 ^ (B + 1) := by
      rw [← zpow_sub₀ (by norm_num : (2 : ℚ) ≠ 0)]
      congr 1
      ring
    rw [e, hxeq, div_le_div_iff₀ (two_zpow_pos (B + 1)) hdpos]
    calc (2 : ℚ) ^ A * x.den ≤ x.num.natAbs * x.den :=
          mul_le_mul_of_nonneg_right a1 hdpos.le
      _ ≤ x.num.natAbs * 2 ^ (B + 1) := mul_le_mul_of_nonneg_left b2.le (by positivity)
  unfold log2_floor
  simp only [← hA, ← hB]
  split_ifs with h
  · exact ⟨h, hlt⟩
  · refine ⟨hgt, ?_⟩
    rw [sub_add_cancel]
    exact lt_of_not_le h

theorem log2_floor_le_of_lt (x : ℚ) (hx : 0 < x) (E : Int) (h : x < 2 ^ (E + 1)) :
    log2_floor x ≤ E := by
  have h1 := (log2_floor_spec x hx).1
  have h2 : (2 : ℚ) ^ log2_floor x < 2 ^ (E + 1) := lt_of_le_of_lt h1 h
  have := (zpow_lt_zpow_iff_right₀ (by norm_num : (1 : ℚ) < 2)).mp h2
  omega

theorem log2_floor_mono (x y : ℚ) (hx : 0 < x) (h : x ≤ y) : log2_floor x ≤ log2_floor y :=
  log2_floor_le_of_lt x hx _ (lt_of_le_of_lt h (log2_floor_spec y (lt_of_lt_of_le hx h)).2)

theorem abs_lt_zpow (x : ℚ) (emin : Int) :
    |x| < 2 ^ (binade emin x + 1) := by
  by_cases h0 : x = 0
  · rw [h0, abs_zero]
    exact two_zpow_pos _
  · have h := (log2_floor_spec |x| (abs_pos.mpr h0)).2
    have hle : (log2_floor |x| + 1) ≤ binade emin x + 1 := by
      have := le_max_left (log2_floor |x|) emin
      rw [binade_def]
      omega
    have := zpow_le_zpow_right₀ (by norm_num : (1 : ℚ) ≤ 2) hle
    linarith

theorem zpow_le_abs (x : ℚ) (emin : Int) (hx : x ≠ 0) (h : emin < binade emin x) :
    (2 : ℚ) ^ (binade emin x) ≤ |x| := by
  have e : binade emin x = log2_floor |x| := by
    rw [binade_def] at h ⊢
    rcases le_total (log2_floor |x|) emin with h1 | h1
    · rw [max_eq_right h1] at h; omega
    · exact max_eq_left h1
  rw [e]
  exact (log2_floor_spec |x| (abs_pos.mpr hx)).1

/-- Rounding keeps the sign. -/
theorem fl_nonneg (p : Nat) (emin : Int) (x : ℚ) (hx : 0 ≤ x) : 0 ≤ fl p emin x := by
  by_cases h0 : x = 0
  · rw [h0, fl_zero]
  · rw [fl_eq p emin x h0]
    have hu := two_zpow_pos (binade emin x - ((p : Int) - 1))
    have : (0 : Int) ≤ round_half_even (x / 2 ^ (binade emin x - ((p : Int) - 1))) := by
      have := round_half_even_mono 0 _ (div_nonneg hx hu.le)
      rwa [show (0 : ℚ) = ((0 : Int) : ℚ) by norm_num, round_half_even_int] at this
    have : (0 : ℚ) ≤ round_half_even (x / 2 ^ (binade emin x - ((p : Int) - 1))) := by
      exact_mod_cast this
    positivity

theorem fl_nonpos (p : Nat) (emin : Int) (x : ℚ) (hx : x ≤ 0) : fl p emin x ≤ 0 := by
  by_cases h0 : x = 0
  · rw [h0, fl_zero]
  · rw [fl_eq p emin x h0]
    have hu := two_zpow_pos (binade emin x - ((p : Int) - 1))
    have : round_half_even (x / 2 ^ (binade emin x - ((p : Int) - 1))) ≤ (0 : Int) := by
      have := round_half_even_mono _ 0 (div_nonpos_of_nonpos_of_nonneg hx hu.le)
      rwa [show (0 : ℚ) = ((0 : Int) : ℚ) by norm_num, round_half_even_int] at this
    have : (round_half_even (x / 2 ^ (binade emin x - ((p : Int) - 1))) : ℚ) ≤ 0 := by
      exact_mod_cast this
    exact mul_nonpos_of_nonpos_of_nonneg this hu.le

theorem binade_ge (emin : Int) (x : ℚ) : emin ≤ binade emin x := le_max_right _ _

theorem binade_mono (emin : Int) (x y : ℚ) (hx : x ≠ 0) (h : |x| ≤ |y|) :
    binade emin x ≤ binade emin y := by
  rw [binade_def, binade_def]
  exact max_le_max (log2_floor_mono _ _ (abs_pos.mpr hx) h) (le_refl _)

/-- The unit in the last place times `2^p` is the upper end of the binade. -/
theorem ulp_mul (p : Nat) (e : Int) :
    ((2 ^ p : Int) : ℚ) * 2 ^ (e - ((p : Int) - 1)) = 2 ^ (e + 1) := by
  have h : (e + 1 : Int) = (p : Int) + (e - ((p : Int) - 1)) := by ring
  rw [h, zpow_add₀ (by norm_num : (2 : ℚ) ≠ 0), zpow_natCast]
  push_cast
  rfl

/-- The unit in the last place times `2^(p-1)` is the lower end of the binade. -/
theorem ulp_mul_half (p : Nat) (hp : 1 ≤ p) (e : Int) :
    ((2 ^ (p - 1) : Int) : ℚ) * 2 ^ (e - ((p : Int) - 1)) = 2 ^ e := by
  have h : (e : Int) = ((p - 1 : Nat) : Int) + (e - ((p : Int) - 1)) := by
    rw [Nat.cast_sub hp]; push_cast; ring
  nth_rewrite 2 [h]
  rw [zpow_add₀ (by norm_num : (2 : ℚ) ≠ 0), zpow_natCast]
  push_cast
  rfl

/-- An integer multiple of the unit in the last place above `x` is above the rounded value. -/
theorem fl_le_of (p : Nat) (emin : Int) (x : ℚ) (hx : x ≠ 0) (n : Int)
    (h : x ≤ n * 2 ^ (binade emin x - ((p : Int) - 1))) :
    fl p emin x ≤ n * 2 ^ (binade emin x - ((p : Int) - 1)) := by
  rw [fl_eq p emin x hx]
  have hu := two_zpow_pos (binade emin x - ((p : Int) - 1))
  have h1 : x / 2 ^ (binade emin x - ((p : Int) - 1)) ≤ (n : ℚ) := by
    rw [div_le_iff₀ hu]; exact h
  have h2 := round_half_even_mono _ _ h1
  rw [round_half_even_int] at h2
  have h3 : (round_half_even (x / 2 ^ (binade emin x - ((p : Int) - 1))) : ℚ) ≤ n := by
    exact_mod_cast h2
  exact mul_le_mul_of_nonneg_right h3 hu.le

theorem le_fl_of (p : Nat) (emin : Int) (x : ℚ) (hx : x ≠ 0) (n : Int)
    (h : n * 2 ^ (binade emin x - ((p : Int) - 1)) ≤ x) :
    n * 2 ^ (binade emin x - ((p : Int) - 1)) ≤ fl p emin x := by
  rw [fl_eq p emin x hx]
  have hu := two_zpow_pos (binade emin x - ((p : Int) - 1))
  have h1 : (n : ℚ) ≤ x / 2 ^ (binade emin x - ((p : Int) - 1)) := by
    rw [le_div_iff₀ hu]; exact h
  have h2 := round_half_even_mono _ _ h1
  rw [round_half_even_int] at h2
  have h3 : (n : ℚ) ≤ round_half_even (x / 2 ^ (binade emin x - ((p : Int) - 1))) := by
    exact_mod_cast h2
  exact mul_le_mul_of_nonneg_right h3 hu.le

/-- The rounded value stays within the closed binade of `x`. -/
theorem abs_fl_le (p : Nat) (emin : Int) (x : ℚ) (hx : x ≠ 0) :
    -(2 ^ (binade emin x + 1)) ≤ fl p emin x ∧ fl p emin x ≤ 2 ^ (binade emin x + 1) := by
  have ha := abs_lt_zpow x emin
  rw [abs_lt] at ha
  constructor
  · have := le_fl_of p emin x hx (-(2 ^ p : Int)) (by
      push_cast
      rw [neg_mul]
      have := ulp_mul p (binade emin x)
      push_cast at this
      rw [this]
      exact ha.1.le)
    push_cast at this
    rw [neg_mul] at this
    have e := ulp_mul p (binade emin x)
    push_cast at e
    rwa [e] at this
  · have := fl_le_of p emin x hx (2 ^ p : Int) (by
      have := ulp_mul p (binade emin x)
      rw [this]
      exact ha.2.le)
    rwa [ulp_mul] at this

/-- Above the subnormal range the rounded value stays in the binade of `x`. -/
theorem zpow_le_fl (p : Nat) (hp : 1 ≤ p) (emin : Int) (x : ℚ) (hx : 0 < x)
    (h : emin < binade emin x) : 2 ^ binade emin x ≤ fl p emin x := by
  have ha := zpow_le_abs x emin hx.ne.symm h
  rw [abs_of_pos hx] at ha
  have := le_fl_of p emin x hx.ne.symm (2 ^ (p - 1) : Int) (by
    rw [ulp_mul_half p hp]; exact ha)
  rwa [ulp_mul_half p hp] at this

theorem fl_le_neg_zpow (p : Nat) (hp : 1 ≤ p) (emin : Int) (x : ℚ) (hx : x < 0)
    (h : emin < binade emin x) : fl p emin x ≤ -(2 ^ binade emin x) := by
  have ha := zpow_le_abs x emin hx.ne h
  rw [abs_of_neg hx] at ha
  have e := ulp_mul_half p hp (binade emin x)
  have := fl_le_of p emin x hx.ne (-(2 ^ (p - 1) : Int)) (by
    push_cast
    push_cast at e
    rw [neg_mul, e]
    linarith)
  push_cast at this e
  rwa [neg_mul, e] at this

/-- Rounding is monotone. -/
theorem fl_mono (p : Nat) (hp : 1 ≤ p) (emin : Int) (x y : ℚ) (h : x ≤ y) :
    fl p emin x ≤ fl p emin y := by
  rcases le_or_lt x 0 with hx0 | hx0
  · rcases le_or_lt 0 y with hy0 | hy0
    · exact le_trans (fl_nonpos p emin x hx0) (fl_nonneg p emin y hy0)
    · -- both negative
      have hxn : x < 0 := lt_of_le_of_lt h hy0
      have hb : binade emin y ≤ binade emin x :=
        binade_mono emin y x hy0.ne (by rw [abs_of_neg hy0, abs_of_neg hxn]; linarith)
      rcases hb.lt_or_eq with hlt | heq
      · have h1 := fl_le_neg_zpow p hp emin x hxn (lt_of_le_of_lt (binade_ge emin y) hlt)
        have h2 := (abs_fl_le p emin y hy0.ne).1
        have h3 : (2 : ℚ) ^ (binade emin y + 1) ≤ 2 ^ binade emin x :=
          zpow_le_zpow_right₀ (by norm_num) (by omega)
        linarith
      · rw [fl_eq p emin x hxn.ne, fl_eq p emin y hy0.ne, heq]
        have hu := two_zpow_pos (binade emin x - ((p : Int) - 1))
        have h1 := round_half_even_mono _ _ (div_le_div_of_nonneg_right h hu.le)
        have h2 : (round_half_even (x / 2 ^ (binade emin x - ((p : Int) - 1))) : ℚ)
            ≤ round_half_even (y / 2 ^ (binade emin x - ((p : Int) - 1))) := by
          exact_mod_cast h1
        exact mul_le_mul_of_nonneg_right h2 hu.le
  · have hy0 : 0 < y := lt_of_lt_of_le hx0 h
    have hb : binade emin x ≤ binade emin y :=
      binade_mono emin x y hx0.ne.symm (by rw [abs_of_pos hx0, abs_of_pos hy0]; exact h)
    rcases hb.lt_or_eq with hlt | heq
    · have h1 := zpow_le_fl p hp emin y hy0 (lt_of_le_of_lt (binade_ge emin x) hlt)
      have h2 := (abs_fl_le p emin x hx0.ne.symm).2
      have h3 : (2 : ℚ) ^ (binade emin x + 1) ≤ 2 ^ binade emin y :=
        zpow_le_zpow_right₀ (by norm_num) (by omega)
      linarith
    · rw [fl_eq p emin x hx0.ne.symm, fl_eq p emin y hy0.ne.symm, heq]
      have hu := two_zpow_pos (binade emin y - ((p : Int) - 1))
      have h1 := round_half_even_mono _ _ (div_le_div_of_nonneg_right h hu.le)
      have h2 : (round_half_even (x / 2 ^ (binade emin y - ((p : Int) - 1))) : ℚ)
          ≤ round_half_even (y / 2 ^ (binade emin y - ((p : Int) - 1))) := by
        exact_mod_cast h1
      exact mul_le_mul_of_nonneg_right h2 hu.le

/-- The rounding error is at most half a unit in the last place: for `|x| < 2^(E+1)` with
`E` at least the least exponent, it is at most `2^(E-p)`. -/
theorem fl_err (p : Nat) (emin : Int) (x : ℚ) (E : Int) (hE : emin ≤ E)
    (hx : |x| < 2 ^ (E + 1)) : |fl p emin x - x| ≤ 2 ^ (E - p) := by
  by_cases h0 : x = 0
  · rw [h0, fl_zero]
    simp only [sub_zero, abs_zero]
    exact (two_zpow_pos _).le
  · have hb : binade emin x ≤ E := by
      rw [binade_def]
      apply max_le _ hE
      exact log2_floor_le_of_lt _ (abs_pos.mpr h0) E hx
    rw [fl_eq p emin x h0]
    have hu := two_zpow_pos (binade emin x - ((p : Int) - 1))
    have herr := round_half_even_err (x / 2 ^ (binade emin x - ((p : Int) - 1)))
    have e1 : (round_half_even (x / 2 ^ (binade emin x - ((p : Int) - 1))) : ℚ)
          * 2 ^ (binade emin x - ((p : Int) - 1)) - x
        = ((round_half_even (x / 2 ^ (binade emin x - ((p : Int) - 1))) : ℚ)
            - x / 2 ^ (binade emin x - ((p : Int) - 1)))
          * 2 ^ (binade emin x - ((p : Int) - 1)) := by
      field_simp
    rw [e1, abs_mul, abs_of_pos hu]
    have e2 : (2 : ℚ) ^ (E - p) = 1 / 2 * 2 ^ (E - ((p : Int) - 1)) := by
      have : (E - ((p : Int) - 1)) = (E - p) + 1 := by ring
      rw [this, zpow_add₀ (by norm_num : (2 : ℚ) ≠ 0)]
      ring
    rw [e2]
    have h3 : (2 : ℚ) ^ (binade emin x - ((p : Int) - 1)) ≤ 2 ^ (E - ((p : Int) - 1)) :=
      zpow_le_zpow_right₀ (by norm_num) (by omega)
    calc |(round_half_even (x / 2 ^ (binade emin x - ((p : Int) - 1))) : ℚ)
            - x / 2 ^ (binade emin x - ((p : Int) - 1))|
          * 2 ^ (binade emin x - ((p : Int) - 1))
        ≤ 1 / 2 * 2 ^ (binade emin x - ((p : Int) - 1)) :=
          mul_le_mul_of_nonneg_right herr hu.le
      _ ≤ 1 / 2 * 2 ^ (E - ((p : Int) - 1)) :=
          mul_le_mul_of_nonneg_left h3 (by norm_num)

/-! ## Battery level in `float` arithmetic: the raw level -/

theorem binary32_mono (x y : ℚ) (h : x ≤ y) : binary32 x ≤ binary32 y :=
  fl_mono 24 (by norm_num) _ x y h

theorem binary64_mono (x y : ℚ) (h : x ≤ y) : binary64 x ≤ binary64 y :=
  fl_mono 53 (by norm_num) _ x y h

theorem binary64_one : binary64 1 = 1 := by decide!

theorem binary64_100 : binary64 100 = 100 := by decide!

theorem binary32_100 : binary32 100 = 100 := by decide!

theorem BAT_VOL_span_pos :
    0 < binary64 (binary64 BAT_VOL_FULL - binary64 BAT_VOL_EMPTY) := by decide!

/-- The interpolation of `GetBatteryLevel`, as computed, is non-decreasing in the voltage. -/
theorem interpolation_mono (v w : ℚ) (h : v ≤ w) :
    binary32 (binary64 (binary64 (binary64 (v - binary64 BAT_VOL_EMPTY)
        / binary64 (binary64 BAT_VOL_FULL - binary64 BAT_VOL_EMPTY)) * 100))
      ≤ binary32 (binary64 (binary64 (binary64 (w - binary64 BAT_VOL_EMPTY)
        / binary64 (binary64 BAT_VOL_FULL - binary64 BAT_VOL_EMPTY)) * 100)) := by
  apply binary32_mono
  apply binary64_mono
  apply mul_le_mul_of_nonneg_right _ (by norm_num)
  apply binary64_mono
  apply div_le_div_of_nonneg_right _ BAT_VOL_span_pos.le
  apply binary64_mono
  linarith

/-- The interpolation of `GetBatteryLevel`, as computed, is at most 100 below the full
voltage. -/
theorem interpolation_le_100 (v : ℚ) (h : v ≤ binary64 BAT_VOL_FULL) :
    binary32 (binary64 (binary64 (binary64 (v - binary64 BAT_VOL_EMPTY)
        / binary64 (binary64 BAT_VOL_FULL - binary64 BAT_VOL_EMPTY)) * 100)) ≤ 100 := by
  have h1 : binary64 (v - binary64 BAT_VOL_EMPTY)
      ≤ binary64 (binary64 BAT_VOL_FULL - binary64 BAT_VOL_EMPTY) :=
    binary64_mono _ _ (by linarith)
  have h2 : binary64 (v - binary64 BAT_VOL_EMPTY)
      / binary64 (binary64 BAT_VOL_FULL - binary64 BAT_VOL_EMPTY) ≤ 1 :=
    (div_le_one BAT_VOL_span_pos).mpr h1
  have h3 := binary64_mono _ _ h2
  rw [binary64_one] at h3
  have h4 : binary64 (binary64 (v - binary64 BAT_VOL_EMPTY)
      / binary64 (binary64 BAT_VOL_FULL - binary64 BAT_VOL_EMPTY)) * 100 ≤ 100 := by linarith
  have h5 := binary64_mono _ _ h4
  rw [binary64_100] at h5
  have h6 := binary32_mono _ _ h5
  rwa [binary32_100] at h6

/-- The raw level, as computed, lies in [0, 100] for every voltage. -/
theorem raw_level_f32_bounds (v : ℚ) :
    0 ≤ GetBatteryLevel_raw_level_f32 v ∧ GetBatteryLevel_raw_level_f32 v ≤ 100 := by
  unfold GetBatteryLevel_raw_level_f32
  simp only
  split_ifs with h1 h2
  · norm_num
  · norm_num
  · exact ⟨le_of_not_lt h2, interpolation_le_100 v (le_of_lt (lt_of_not_le h1))⟩

/-- The raw level, as computed, is non-decreasing in the voltage. -/
theorem raw_level_f32_mono (v w : ℚ) (h : v ≤ w) :
    GetBatteryLevel_raw_level_f32 v ≤ GetBatteryLevel_raw_level_f32 w := by
  by_cases hw : w ≥ binary64 BAT_VOL_FULL
  · have e : GetBatteryLevel_raw_level_f32 w = 100 := by
      unfold GetBatteryLevel_raw_level_f32
      rw [if_pos hw]
    rw [e]
    exact (raw_level_f32_bounds v).2
  · have hv : ¬ v ≥ binary64 BAT_VOL_FULL := fun hc => hw (le_trans hc h)
    have hm := interpolation_mono v w h
    unfold GetBatteryLevel_raw_level_f32
    simp only [if_neg hw, if_neg hv]
    split_ifs with h1 h2 h2
    · exact le_refl _
    · exact le_of_not_lt h2
    · linarith
    · exact hm

theorem bat_vol_f32_mono (m m2 : Nat) (h : m ≤ m2) :
    GetBatteryLevel_bat_vol_f32 m ≤ GetBatteryLevel_bat_vol_f32 m2 := by
  apply binary32_mono
  have : (m : ℚ) ≤ (m2 : ℚ) := by exact_mod_cast h
  linarith

/-- The `float` quotient of the reading by 1000 reaches the `double` 4.2 from the reading
4201 on; the quotient for 4200 is the `float` nearest to 4.2, which is below. -/
theorem bat_vol_f32_full_iff (m : Nat) :
    GetBatteryLevel_bat_vol_f32 m ≥ binary64 BAT_VOL_FULL ↔ 4201 ≤ m := by
  constructor
  · intro h
    by_contra hc
    have h1 := bat_vol_f32_mono m 4200 (by omega)
    have h2 : GetBatteryLevel_bat_vol_f32 4200 < binary64 BAT_VOL_FULL := by decide!
    linarith
  · intro h
    have h1 := bat_vol_f32_mono 4201 m h
    have h2 : binary64 BAT_VOL_FULL ≤ GetBatteryLevel_bat_vol_f32 4201 := by decide!
    exact le_trans h2 h1

theorem raw_level_f32_4200 :
    GetBatteryLevel_raw_level_f32 (GetBatteryLevel_bat_vol_f32 4200) = 13107197 / 131072 := by
  decide!

theorem raw_level_f32_3399 :
    GetBatteryLevel_raw_level_f32 (GetBatteryLevel_bat_vol_f32 3399) = 0 := by
  decide!

theorem raw_level_f32_3400 :
    GetBatteryLevel_raw_level_f32 (GetBatteryLevel_bat_vol_f32 3400) = 25 / 2097152 := by
  decide!

/-! ## Battery level in `float` arithmetic: the filter -/

theorem binary64_BAT_VOL_EMPTY :
    binary64 BAT_VOL_EMPTY = 7656119366529843 / 2251799813685248 := by decide!

theorem binary64_BAT_VOL_span :
    binary64 (binary64 BAT_VOL_FULL - binary64 BAT_VOL_EMPTY)
      = 1801439850948199 / 2251799813685248 := by decide!

theorem bat_vol_f32_4200 : GetBatteryLevel_bat_vol_f32 4200 = 4404019 / 1048576 := by decide!

/-- Below the reading 4200 the interpolation, as computed, is within 1/20000 of the exact
`125 x - 425` for the exact voltage `x = m / 1000`. -/
theorem interpolation_close (m : Nat) (hm : m ≤ 4200) :
    |binary32 (binary64 (binary64 (binary64 (GetBatteryLevel_bat_vol_f32 m - binary64 BAT_VOL_EMPTY)
        / binary64 (binary64 BAT_VOL_FULL - binary64 BAT_VOL_EMPTY)) * 100))
      - (125 * ((m : ℚ) / 1000) - 425)| ≤ 1 / 20000 := by
  obtain ⟨x, hx⟩ : ∃ x : ℚ, x = (m : ℚ) / 1000 := ⟨_, rfl⟩
  have hx0 : 0 ≤ x := by rw [hx]; positivity
  have hx42 : x ≤ 42 / 10 := by
    have : (m : ℚ) ≤ 4200 := by exact_mod_cast hm
    rw [hx, div_le_iff₀ (by norm_num)]
    linarith
  obtain ⟨v, hv⟩ : ∃ v, v = GetBatteryLevel_bat_vol_f32 m := ⟨_, rfl⟩
  have ev : |v - x| ≤ 1 / 4194304 := by
    have := fl_err 24 (-126) x 2 (by norm_num) (by
      rw [abs_of_nonneg hx0]; norm_num; linarith)
    norm_num at this
    rw [hv, GetBatteryLevel_bat_vol_f32, ← hx]
    exact this
  rw [abs_le] at ev
  rw [← hv, ← hx, binary64_BAT_VOL_span, binary64_BAT_VOL_EMPTY]
  obtain ⟨a, ha⟩ : ∃ a, a = binary64 (v - 7656119366529843 / 2251799813685248) := ⟨_, rfl⟩
  have ea : |a - (v - 7656119366529843 / 2251799813685248)| ≤ 1 / 4503599627370496 := by
    have := fl_err 53 (-1022) (v - 7656119366529843 / 2251799813685248) 1 (by norm_num) (by
      rw [abs_lt]; norm_num; constructor <;> linarith [ev.1, ev.2])
    norm_num at this
    rw [ha]
    norm_num
    exact this
  rw [abs_le] at ea
  rw [← ha]
  have hdiv : a / (1801439850948199 / 2251799813685248)
      = a * (2251799813685248 / 1801439850948199) := by
    rw [div_eq_mul_inv, inv_div]
  rw [hdiv]
  obtain ⟨q, hq⟩ : ∃ q, q = binary64 (a * (2251799813685248 / 1801439850948199)) := ⟨_, rfl⟩
  have eq : |q - a * (2251799813685248 / 1801439850948199)| ≤ 1 / 2251799813685248 := by
    have := fl_err 53 (-1022) (a * (2251799813685248 / 1801439850948199)) 2 (by norm_num) (by
      rw [abs_lt]; norm_num; constructor <;> linarith [ev.1, ev.2, ea.1, ea.2])
    norm_num at this
    rw [hq]
    exact this
  rw [abs_le] at eq
  rw [← hq]
  obtain ⟨r, hr⟩ : ∃ r, r = binary64 (q * 100) := ⟨_, rfl⟩
  have er : |r - q * 100| ≤ 1 / 35184372088832 := by
    have := fl_err 53 (-1022) (q * 100) 8 (by norm_num) (by
      rw [abs_lt]; norm_num; constructor <;> linarith [ev.1, ev.2, ea.1, ea.2, eq.1, eq.2])
    norm_num at this
    rw [hr]
    exact this
  rw [abs_le] at er
  rw [← hr]
  have ep : |binary32 r - r| ≤ 1 / 65536 := by
    have := fl_err 24 (-126) r 8 (by norm_num) (by
      rw [abs_lt]; norm_num
      constructor <;> linarith [ev.1, ev.2, ea.1, ea.2, eq.1, eq.2, er.1, er.2])
    norm_num at this
    exact this
  rw [abs_le] at ep
  rw [abs_le]
  constructor <;> linarith [ev.1, ev.2, ea.1, ea.2, eq.1, eq.2, er.1, er.2, ep.1, ep.2]

/-- The raw level, as computed from the gauge reading `m`, is within 1/20000 of the raw
level of the exact arithmetic at the voltage `m / 1000`. -/
theorem raw_level_f32_close (m : Nat) :
    |GetBatteryLevel_raw_level_f32 (GetBatteryLevel_bat_vol_f32 m)
      - GetBatteryLevel_raw_level ((m : ℚ) / 1000)| ≤ 1 / 20000 := by
  rcases Nat.lt_or_ge m 4200 with h1 | h1
  · -- interpolation on both sides
    have hx : ¬ (m : ℚ) / 1000 ≥ BAT_VOL_FULL := by
      have : (m : ℚ) ≤ 4199 := by exact_mod_cast (by omega : m ≤ 4199)
      simp only [BAT_VOL_FULL, ge_iff_le, not_le]
      rw [div_lt_iff₀ (by norm_num)]
      norm_num
      linarith
    have hv : ¬ GetBatteryLevel_bat_vol_f32 m ≥ binary64 BAT_VOL_FULL := by
      rw [bat_vol_f32_full_iff]; omega
    rw [raw_level_eq, if_neg hx]
    have e : GetBatteryLevel_raw_level_f32 (GetBatteryLevel_bat_vol_f32 m)
        = max 0 (binary32 (binary64 (binary64 (binary64
            (GetBatteryLevel_bat_vol_f32 m - binary64 BAT_VOL_EMPTY)
            / binary64 (binary64 BAT_VOL_FULL - binary64 BAT_VOL_EMPTY)) * 100))) := by
      unfold GetBatteryLevel_raw_level_f32
      simp only [if_neg hv]
      split_ifs with h
      · rw [max_eq_left h.le]
      · rw [max_eq_right (le_of_not_lt h)]
    have hc := interpolation_close m (by omega)
    rw [e]
    obtain ⟨P, hP⟩ : ∃ P, P = binary32 (binary64 (binary64 (binary64
            (GetBatteryLevel_bat_vol_f32 m - binary64 BAT_VOL_EMPTY)
            / binary64 (binary64 BAT_VOL_FULL - binary64 BAT_VOL_EMPTY)) * 100)) := ⟨_, rfl⟩
    rw [← hP] at hc ⊢
    rw [max_comm 0 P, max_comm 0 (125 * ((m : ℚ) / 1000) - 425)]
    exact le_trans (abs_max_sub_max_le_abs P (125 * ((m : ℚ) / 1000) - 425) 0) hc
  · rcases h1.lt_or_eq with h2 | h2
    · -- both are 100
      have hx : (m : ℚ) / 1000 ≥ BAT_VOL_FULL := by
        have : (4200 : ℚ) ≤ m := by exact_mod_cast h1
        simp only [BAT_VOL_FULL, ge_iff_le]
        rw [le_div_iff₀ (by norm_num)]
        norm_num
        linarith
      have hv : GetBatteryLevel_bat_vol_f32 m ≥ binary64 BAT_VOL_FULL := by
        rw [bat_vol_f32_full_iff]; omega
      rw [raw_level_eq, if_pos hx]
      unfold GetBatteryLevel_raw_level_f32
      rw [if_pos hv]
      norm_num
    · -- the reading 4200
      rw [← h2, raw_level_f32_4200]
      have hx : ((4200 : Nat) : ℚ) / 1000 ≥ BAT_VOL_FULL := by
        simp only [BAT_VOL_FULL]; norm_num
      rw [raw_level_eq, if_pos hx]
      norm_num [abs_le]

/-! ## Battery level: the raw level as the target computes it -/

/-- C12, as the code has it. For every gauge reading `m`, with `bat_vol` the `float`
quotient of `m` by 1000: the raw level that `GetBatteryLevel` computes is 100 exactly when `m ≥ 4201`; for
`m ≤ 4200` it is the `float` value of the interpolation computed in `double`, replaced
by 0 when negative; it is within 1/20000 of the exact value, which is 100 when
`m / 1000 ≥ 4.2` and `max 0 ((m / 1000 - 3.4) / (4.2 - 3.4) * 100)` otherwise; it lies in
[0, 100]; and it is non-decreasing in `m`. -/
theorem raw_level_spec (m m2 : Nat) :
    (4201 ≤ m ↔ GetBatteryLevel_raw_level_f32 (GetBatteryLevel_bat_vol_f32 m) = 100)
    ∧ (m ≤ 4200 →
        GetBatteryLevel_raw_level_f32 (GetBatteryLevel_bat_vol_f32 m)
          = max 0 (binary32 (binary64 (binary64 (binary64
              (GetBatteryLevel_bat_vol_f32 m - binary64 BAT_VOL_EMPTY)
              / binary64 (binary64 BAT_VOL_FULL - binary64 BAT_VOL_EMPTY)) * 100))))
    ∧ |GetBatteryLevel_raw_level_f32 (GetBatteryLevel_bat_vol_f32 m)
        - (if (m : ℚ) / 1000 ≥ 4.2 then 100
            else max 0 (((m : ℚ) / 1000 - 3.4) / (4.2 - 3.4) * 100))| ≤ 1 / 20000
    ∧ 0 ≤ GetBatteryLevel_raw_level_f32 (GetBatteryLevel_bat_vol_f32 m)
    ∧ GetBatteryLevel_raw_level_f32 (GetBatteryLevel_bat_vol_f32 m) ≤ 100
    ∧ (m ≤ m2 →
        GetBatteryLevel_raw_level_f32 (GetBatteryLevel_bat_vol_f32 m)
          ≤ GetBatteryLevel_raw_level_f32 (GetBatteryLevel_bat_vol_f32 m2)) := by
  have hb := raw_level_f32_bounds (GetBatteryLevel_bat_vol_f32 m)
  refine ⟨?_, ?_, ?_, hb.1, hb.2, ?_⟩
  · constructor
    · intro h
      have hv : GetBatteryLevel_bat_vol_f32 m ≥ binary64 BAT_VOL_FULL :=
        (bat_vol_f32_full_iff m).mpr h
      unfold GetBatteryLevel_raw_level_f32
      rw [if_pos hv]
    · intro h
      by_contra hc
      have h1 := raw_level_f32_mono _ _ (bat_vol_f32_mono m 4200 (by omega))
      rw [raw_level_f32_4200, h] at h1
      norm_num at h1
  · intro h
    have hv : ¬ GetBatteryLevel_bat_vol_f32 m ≥ binary64 BAT_VOL_FULL := by
      rw [bat_vol_f32_full_iff]; omega
    unfold GetBatteryLevel_raw_level_f32
    simp only [if_neg hv]
    split_ifs with h2
    · rw [max_eq_left h2.le]
    · rw [max_eq_right (le_of_not_lt h2)]
  · have h1 := raw_level_f32_close m
    have h2 := (raw_level_exact 0 0 ((m : ℚ) / 1000)).1
    rw [h2] at h1
    exact h1
  · intro h
    exact raw_level_f32_mono _ _ (bat_vol_f32_mono m m2 h)

theorem raw_level_spec_witness :
    GetBatteryLevel_raw_level_f32 (GetBatteryLevel_bat_vol_f32 3800)
      ≤ GetBatteryLevel_raw_level_f32 (GetBatteryLevel_bat_vol_f32 4000) :=
  (raw_level_spec 3800 4000).2.2.2.2.2 (by decide)

/-- C12, counterexample. The gauge reads 4200 mV.  The `float` quotient
4200 / 1000 is 4404019/1048576, below the `double` 4.2, so the code takes the
interpolation and gives 13107197/131072 (99.99997...), where the claim, for
`bat_vol = 4200 / 1000 ≥ 4.2`, gives 100. -/
theorem raw_level_below_100_at_4200 :
    GetBatteryLevel_bat_vol_f32 4200 = 4404019 / 1048576
    ∧ GetBatteryLevel_bat_vol_f32 4200 < binary64 BAT_VOL_FULL
    ∧ GetBatteryLevel_raw_level_f32 (GetBatteryLevel_bat_vol_f32 4200) = 13107197 / 131072
    ∧ (if ((4200 : Nat) : ℚ) / 1000 ≥ 4.2 then (100 : ℚ)
        else max 0 ((((4200 : Nat) : ℚ) / 1000 - 3.4) / (4.2 - 3.4) * 100)) = 100
    ∧ GetBatteryLevel_raw_level_f32 (GetBatteryLevel_bat_vol_f32 4200) ≠ 100 := by
  refine ⟨by decide!, by decide!, by decide!, by decide!, by decide!⟩

/-! ## Battery level: range of the level as the target computes it -/

